import Mathlib

/-!
Repository layer of the flow engine (`model/m_flow.go`).

A shallow embedding of the persistence layer of the workflow engine.  The
relational store is a record of tables, each table a list of rows in physical
(insertion) order.  Every SQL statement of `m_flow.go` is translated clause by
clause: `WHERE` is `List.filter`, `JOIN` is a nested `List.flatMap`, `LEFT JOIN`
keeps the left row with `none` when nothing matches, `ORDER BY` is a stable
insertion sort on the named key, `LIMIT 1` is `List.take 1`.  SQL fixes no order
for the rows of a statement without `ORDER BY`; the model lists them as the table
holds them, and what is proved of such a statement is proved of its rows, not of
their order.

The driver can fail at any call.  A read takes the driver's error for its one
statement (`none` when the statement goes through); a transactional operation
takes the list of the driver's answers to its successive calls, consumed front
to back (an exhausted list means the remaining calls succeed).

The paging of `QueryGroupFlowPage` is computed in 64-bit `uint` and `int`
arithmetic, and a slice expression out of bounds is a run-time panic.

The engine (`StartFlow`, `HandleFlow`, `Advance`) is not part of the sources;
it is modelled from the specification, on top of the repository operations, with
the expression evaluator, the JSON merge, the record-id generator and the clock
as parameters, every call of the driver going through, and a bound on the number
of successors resolved by one call.
-/

namespace FlowModel

/-! ## Errors -/

/-- Go `error` values: the sentinel `sql.ErrNoRows`, a driver failure, and an
error annotated by `errors.Wrapf`. -/
inductive Error where
  | ErrNoRows : Error
  | driver (msg : String) : Error
  | wrapped (cause : Error) (msg : String) : Error
  deriving DecidableEq, Repr

/-- Function `errors.Wrapf` of `github.com/pkg/errors`: annotates a non-nil
error with a message, and returns nil when the error handed to it is nil. -/
def Wrapf : Option Error → String → Option Error
  | none, _ => none
  | some e, msg => some (Error.wrapped e msg)

/-! ## Rows (package `schema`) -/

/-- Modelled from the spec: `schema.Flow` (table `f_flow`) is not under `src/`;
the columns are those of the data model and of the statements of `m_flow.go`. -/
structure Flow where
  id : Int
  record_id : String
  code : String
  name : String
  version : Int
  type_code : String
  status : Int
  flag : Int
  memo : String
  created : Int
  deleted : Int
  deriving DecidableEq, Repr

/-- Modelled from the spec: `schema.Node` (table `f_node`) is not under `src/`. -/
structure Node where
  id : Int
  record_id : String
  flow_id : String
  code : String
  name : String
  type_code : String
  form_id : String
  order_num : Int
  created : Int
  deleted : Int
  deriving DecidableEq, Repr

/-- Modelled from the spec: `schema.NodeRouter` (table `f_node_router`) is not
under `src/`.  The column `order_num` is the one the routing rule of the spec
refers to. -/
structure NodeRouter where
  id : Int
  record_id : String
  source_node_id : String
  target_node_id : String
  expression : String
  explain : String
  order_num : Int
  created : Int
  deleted : Int
  deriving DecidableEq, Repr

/-- Modelled from the spec: `schema.NodeAssignment` (table `f_node_assignment`)
is not under `src/`. -/
structure NodeAssignment where
  id : Int
  record_id : String
  node_id : String
  expression : String
  created : Int
  deleted : Int
  deriving DecidableEq, Repr

/-- Modelled from the spec: `schema.NodeProperty` (table `f_node_property`) is
not under `src/`. -/
structure NodeProperty where
  id : Int
  record_id : String
  node_id : String
  name : String
  value : String
  created : Int
  deleted : Int
  deriving DecidableEq, Repr

/-- Modelled from the spec: `schema.Form` (table `f_form`) is not under `src/`. -/
structure Form where
  id : Int
  record_id : String
  flow_id : String
  type_code : String
  data : String
  created : Int
  deleted : Int
  deriving DecidableEq, Repr

/-- Modelled from the spec: `schema.FlowInstance` (table `f_flow_instance`) is
not under `src/`. -/
structure FlowInstance where
  id : Int
  record_id : String
  flow_id : String
  launcher : String
  launch_time : Int
  status : Int
  created : Int
  deleted : Int
  deriving DecidableEq, Repr

/-- Modelled from the spec: `schema.NodeInstance` (table `f_node_instance`) is
not under `src/`. -/
structure NodeInstance where
  id : Int
  record_id : String
  flow_instance_id : String
  node_id : String
  prev_node_instance_id : String
  input_data : String
  out_data : String
  processor : String
  process_time : Int
  status : Int
  created : Int
  updated : Int
  deleted : Int
  deriving DecidableEq, Repr

/-- Modelled from the spec: `schema.NodeCandidate` (table `f_node_candidate`)
is not under `src/`. -/
structure NodeCandidate where
  id : Int
  record_id : String
  node_instance_id : String
  candidate_id : String
  created : Int
  deleted : Int
  deriving DecidableEq, Repr

/-- The relational store: one list of rows per table, in physical order. -/
structure Store where
  flows : List Flow
  nodes : List Node
  routers : List NodeRouter
  assignments : List NodeAssignment
  properties : List NodeProperty
  forms : List Form
  flowInstances : List FlowInstance
  nodeInstances : List NodeInstance
  candidates : List NodeCandidate
  deriving DecidableEq, Repr

/-- The store with no row in any table. -/
def Store.empty : Store :=
  { flows := [], nodes := [], routers := [], assignments := [], properties := [],
    forms := [], flowInstances := [], nodeInstances := [], candidates := [] }

/-! ## Reads -/

/-- Method `DB.Select` of the driver wrapper: the rows of a multi-row query, or
the driver's error. -/
def dbSelect {α : Type} (drv : Option Error) (rows : List α) : List α × Option Error :=
  match drv with
  | some e => ([], some e)
  | none => (rows, none)

/-- Method `DB.SelectOne`: the single row of the query, `sql.ErrNoRows` when the
query has no row, an error when it has more than one, or the driver's error. -/
def dbSelectOne {α : Type} (drv : Option Error) (rows : List α) : Option α × Option Error :=
  match drv with
  | some e => (none, some e)
  | none =>
    match rows with
    | [] => (none, some Error.ErrNoRows)
    | [r] => (some r, none)
    | _ :: _ :: _ => (none, some (Error.driver "gorp: multiple rows returned"))

/-- Method `DB.SelectInt`: the integer of a single-value query, or the driver's
error. -/
def dbSelectInt (drv : Option Error) (n : Int) : Int × Option Error :=
  match drv with
  | some e => (0, some e)
  | none => (n, none)

/-- The query of `QueryNodeRouters`:
`SELECT * FROM f_node_router WHERE deleted=0 AND source_node_id=?`.  The
statement has no `ORDER BY`: the rows are listed as the table holds them, which
for rows inserted one after the other is the order of the primary key; SQL itself
promises no order. -/
def sqlNodeRouters (st : Store) (sourceNodeID : String) : List NodeRouter :=
  st.routers.filter (fun r => r.deleted = 0 ∧ r.source_node_id = sourceNodeID)

/-- Method `Flow.QueryNodeRouters` (m_flow.go 166-177). -/
def QueryNodeRouters (st : Store) (drv : Option Error) (sourceNodeID : String) :
    List NodeRouter × Option Error :=
  match dbSelect drv (sqlNodeRouters st sourceNodeID) with
  | (_, some err) => ([], Wrapf (some err) "查询节点路由发生错误")
  | (items, none) => (items, none)

/-! ## Transactions -/

/-- A value handed to `Insert`: a row of one of the nine tables. -/
inductive Row where
  | flow (r : Flow) : Row
  | node (r : Node) : Row
  | router (r : NodeRouter) : Row
  | assignment (r : NodeAssignment) : Row
  | property (r : NodeProperty) : Row
  | form (r : Form) : Row
  | flowInstance (r : FlowInstance) : Row
  | nodeInstance (r : NodeInstance) : Row
  | candidate (r : NodeCandidate) : Row
  deriving DecidableEq, Repr

/-- The value an auto-increment primary key takes on the next insertion. -/
def nextID (ids : List Int) : Int := ids.foldr max 0 + 1

/-- One `INSERT`: the row is appended to its table, its `id` column taken from
the auto-increment counter of the table. -/
def Store.insert (st : Store) : Row → Store
  | Row.flow r =>
    { st with flows := st.flows ++ [{ r with id := nextID (st.flows.map (·.id)) }] }
  | Row.node r =>
    { st with nodes := st.nodes ++ [{ r with id := nextID (st.nodes.map (·.id)) }] }
  | Row.router r =>
    { st with routers := st.routers ++ [{ r with id := nextID (st.routers.map (·.id)) }] }
  | Row.assignment r =>
    { st with assignments :=
        st.assignments ++ [{ r with id := nextID (st.assignments.map (·.id)) }] }
  | Row.property r =>
    { st with properties :=
        st.properties ++ [{ r with id := nextID (st.properties.map (·.id)) }] }
  | Row.form r =>
    { st with forms := st.forms ++ [{ r with id := nextID (st.forms.map (·.id)) }] }
  | Row.flowInstance r =>
    { st with flowInstances :=
        st.flowInstances ++ [{ r with id := nextID (st.flowInstances.map (·.id)) }] }
  | Row.nodeInstance r =>
    { st with nodeInstances :=
        st.nodeInstances ++ [{ r with id := nextID (st.nodeInstances.map (·.id)) }] }
  | Row.candidate r =>
    { st with candidates :=
        st.candidates ++ [{ r with id := nextID (st.candidates.map (·.id)) }] }

/-- The rows appended by a sequence of `INSERT`s, in order. -/
def Store.insertAll (st : Store) (rows : List Row) : Store :=
  rows.foldl Store.insert st

/-- An open transaction: the committed store `base`, the working copy `work`
the statements of the transaction act on, and the driver's answers still to
come. -/
structure Tx where
  base : Store
  work : Store
  script : List (Option Error)
  deriving DecidableEq, Repr

/-- Method `DB.Begin`: opens a transaction on the store, or fails. -/
def dbBegin (st : Store) (script : List (Option Error)) : Except Error Tx :=
  match script.headD none with
  | some e => Except.error e
  | none => Except.ok { base := st, work := st, script := script.tail }

/-- Method `Transaction.Insert(list...)`: one `INSERT` per value, in order,
stopping at the first one the driver refuses. -/
def Tx.Insert (tran : Tx) : List Row → Tx × Option Error
  | [] => (tran, none)
  | r :: rs =>
    match tran.script.headD none with
    | some e => ({ tran with script := tran.script.tail }, some e)
    | none =>
      Tx.Insert { tran with work := tran.work.insert r, script := tran.script.tail } rs

/-- Method `Transaction.Exec`: one `UPDATE` statement, given as the change it
makes to the tables. -/
def Tx.Exec (tran : Tx) (stmt : Store → Store) : Tx × Option Error :=
  match tran.script.headD none with
  | some e => ({ tran with script := tran.script.tail }, some e)
  | none => ({ tran with work := stmt tran.work, script := tran.script.tail }, none)

/-- Method `Transaction.Rollback`: the working copy is dropped; the committed
store is what it was at `Begin`, also when the driver reports an error. -/
def Tx.Rollback (tran : Tx) : Store × Option Error :=
  (tran.base, tran.script.headD none)

/-- Method `Transaction.Commit`: the working copy becomes the committed store,
unless the driver fails, in which case nothing of the transaction is kept. -/
def Tx.Commit (tran : Tx) : Store × Option Error :=
  match tran.script.headD none with
  | some e => (tran.base, some e)
  | none => (tran.work, none)

/-- Modelled from the spec: `schema.NodeOperating` is not under `src/`; it
carries the nodes, routers and assignments of a flow definition. -/
structure NodeOperating where
  NodeGroup : List Node
  RouterGroup : List NodeRouter
  AssignmentGroup : List NodeAssignment
  deriving DecidableEq, Repr

/-- Modelled from the spec: `NodeOperating.All` is not under `src/`; it lists
every row of the group as a value for `Insert`. -/
def NodeOperating.All (a : NodeOperating) : List Row :=
  a.NodeGroup.map Row.node ++ a.RouterGroup.map Row.router
    ++ a.AssignmentGroup.map Row.assignment

/-- Modelled from the spec: `schema.FormOperating` is not under `src/`; it
carries the forms of a flow definition. -/
structure FormOperating where
  FormGroup : List Form
  deriving DecidableEq, Repr

/-- Modelled from the spec: `FormOperating.All` is not under `src/`. -/
def FormOperating.All (a : FormOperating) : List Row :=
  a.FormGroup.map Row.form

/-- Method `Flow.CreateFlow` (m_flow.go 18-52). -/
def CreateFlow (st : Store) (script : List (Option Error)) (flow : Flow)
    (nodes : NodeOperating) (forms : FormOperating) : Option Error × Store :=
  match dbBegin st script with
  | Except.error err => (Wrapf (some err) "创建流程基础数据开启事物发生错误", st)
  | Except.ok tran =>
    match tran.Insert [Row.flow flow] with
    | (tran, some err) => (Wrapf (some err) "插入流程数据发生错误", tran.Rollback.1)
    | (tran, none) =>
      match (if nodes.All.length > 0 then tran.Insert nodes.All else (tran, none)) with
      | (tran, some err) => (Wrapf (some err) "插入节点数据发生错误", tran.Rollback.1)
      | (tran, none) =>
        match (if forms.All.length > 0 then tran.Insert forms.All else (tran, none)) with
        | (tran, some err) => (Wrapf (some err) "插入表单数据发生错误", tran.Rollback.1)
        | (tran, none) =>
          match tran.Commit with
          | (st1, some err) => (Wrapf (some err) "创建流程基础数据提交事物发生错误", st1)
          | (st1, none) => (none, st1)

/-- The failure branch shared by the insertions of `CreateNodeInstance` and
`CreateFlowInstance`: `err = tran.Rollback()`, then a wrapped rollback error if
`err != nil`, else `errors.Wrapf(err, insertMsg)` on that same `err`. -/
def rollbackAfterInsert (tran : Tx) (rollbackMsg insertMsg : String) : Option Error × Store :=
  let err := tran.Rollback.2
  if err ≠ none then (Wrapf err rollbackMsg, tran.Rollback.1)
  else (Wrapf err insertMsg, tran.Rollback.1)

/-- The loop `for _, c := range nodeCandidates` of `CreateNodeInstance`: the
transaction after all insertions, or the value the method returns early. -/
def CreateNodeInstance.loop (tran : Tx) : List NodeCandidate → Except (Option Error × Store) Tx
  | [] => Except.ok tran
  | c :: cs =>
    match tran.Insert [Row.candidate c] with
    | (tran, some _) =>
      Except.error (rollbackAfterInsert tran "创建流程节点实例回滚事物发生错误"
        "插入流程节点候选人数据发生错误")
    | (tran, none) => CreateNodeInstance.loop tran cs

/-- Method `Flow.CreateNodeInstance` (m_flow.go 192-224). -/
def CreateNodeInstance (st : Store) (script : List (Option Error))
    (nodeInstance : NodeInstance) (nodeCandidates : List NodeCandidate) : Option Error × Store :=
  match dbBegin st script with
  | Except.error err => (Wrapf (some err) "创建流程节点实例开启事物发生错误", st)
  | Except.ok tran =>
    match tran.Insert [Row.nodeInstance nodeInstance] with
    | (tran, some _) =>
      rollbackAfterInsert tran "创建流程节点实例回滚事物发生错误" "插入流程节点实例数据发生错误"
    | (tran, none) =>
      match CreateNodeInstance.loop tran nodeCandidates with
      | Except.error ret => ret
      | Except.ok tran =>
        match tran.Commit with
        | (st1, some err) => (Wrapf (some err) "创建流程节点实例提交事物发生错误", st1)
        | (st1, none) => (none, st1)

/-- The loop `for _, n := range nodeInstances` of `CreateFlowInstance`. -/
def CreateFlowInstance.loop (tran : Tx) : List NodeInstance → Except (Option Error × Store) Tx
  | [] => Except.ok tran
  | n :: ns =>
    match tran.Insert [Row.nodeInstance n] with
    | (tran, some _) =>
      Except.error (rollbackAfterInsert tran "创建流程实例回滚事物发生错误"
        "插入流程节点实例数据发生错误")
    | (tran, none) => CreateFlowInstance.loop tran ns

/-- Method `Flow.CreateFlowInstance` (m_flow.go 254-286). -/
def CreateFlowInstance (st : Store) (script : List (Option Error))
    (flowInstance : FlowInstance) (nodeInstances : List NodeInstance) : Option Error × Store :=
  match dbBegin st script with
  | Except.error err => (Wrapf (some err) "创建流程实例开启事物发生错误", st)
  | Except.ok tran =>
    match tran.Insert [Row.flowInstance flowInstance] with
    | (tran, some _) =>
      rollbackAfterInsert tran "创建流程实例回滚事物发生错误" "插入流程实例数据发生错误"
    | (tran, none) =>
      match CreateFlowInstance.loop tran nodeInstances with
      | Except.error ret => ret
      | Except.ok tran =>
        match tran.Commit with
        | (st1, some err) => (Wrapf (some err) "创建流程实例提交事物发生错误", st1)
        | (st1, none) => (none, st1)

/-! ## Updates by key -/

/-- The argument `info map[string]interface{}` of `UpdateNodeInstance`, as a
partial assignment of the columns of `f_node_instance`: `none` for a column the
map does not mention. -/
structure NodeInstanceInfo where
  input_data : Option String
  out_data : Option String
  processor : Option String
  process_time : Option Int
  status : Option Int
  updated : Option Int
  deleted : Option Int
  deriving DecidableEq, Repr

/-- The `SET` clause built from `info`, applied to one row. -/
def NodeInstanceInfo.set (info : NodeInstanceInfo) (r : NodeInstance) : NodeInstance :=
  { r with
    input_data := info.input_data.getD r.input_data
    out_data := info.out_data.getD r.out_data
    processor := info.processor.getD r.processor
    process_time := info.process_time.getD r.process_time
    status := info.status.getD r.status
    updated := info.updated.getD r.updated
    deleted := info.deleted.getD r.deleted }

/-- Modelled from the spec: `DB.UpdateByPK` is not under `src/`; called as
`UpdateByPK(f_node_instance, {"record_id": recordID}, info)` it is the partial
field update `UPDATE f_node_instance SET info WHERE record_id=?`, returning the
number of rows matched. -/
def dbUpdateNodeInstanceByPK (st : Store) (drv : Option Error) (recordID : String)
    (info : NodeInstanceInfo) : (Int × Option Error) × Store :=
  match drv with
  | some e => ((0, some e), st)
  | none =>
    (((st.nodeInstances.filter (fun r => r.record_id = recordID)).length, none),
      { st with nodeInstances :=
          st.nodeInstances.map (fun r => if r.record_id = recordID then info.set r else r) })

/-- Method `Flow.UpdateNodeInstance` (m_flow.go 226-233). -/
def UpdateNodeInstance (st : Store) (drv : Option Error) (recordID : String)
    (info : NodeInstanceInfo) : Option Error × Store :=
  match dbUpdateNodeInstanceByPK st drv recordID info with
  | ((_, some err), st1) => (Wrapf (some err) "更新节点实例信息发生错误", st1)
  | ((_, none), st1) => (none, st1)

/-! ## Single-table reads -/

/-- The query of `CheckFlowInstanceTodo`: `SELECT count(*) FROM f_node_instance
WHERE deleted=0 AND status=1 AND flow_instance_id=?`. -/
def sqlCountTodo (st : Store) (flowInstanceID : String) : Int :=
  (st.nodeInstances.filter
    (fun ni => ni.deleted = 0 ∧ ni.status = 1 ∧ ni.flow_instance_id = flowInstanceID)).length

/-- Method `Flow.CheckFlowInstanceTodo` (m_flow.go 235-243). -/
def CheckFlowInstanceTodo (st : Store) (drv : Option Error) (flowInstanceID : String) :
    Bool × Option Error :=
  match dbSelectInt drv (sqlCountTodo st flowInstanceID) with
  | (_, some err) => (false, Wrapf (some err) "检查流程待办事项发生错误")
  | (n, none) => (decide (n > 0), none)

/-- The query of `GetFlowByCode`: `SELECT * FROM f_flow WHERE deleted=0 AND
flag=1 AND status=1 AND code=? ORDER BY version DESC LIMIT 1`. -/
def sqlFlowByCode (st : Store) (code : String) : List Flow :=
  ((st.flows.filter (fun f => f.deleted = 0 ∧ f.flag = 1 ∧ f.status = 1 ∧ f.code = code)).insertionSort
    (fun a b => b.version ≤ a.version)).take 1

/-- Method `Flow.GetFlowByCode` (m_flow.go 70-84). -/
def GetFlowByCode (st : Store) (drv : Option Error) (code : String) :
    Option Flow × Option Error :=
  match dbSelectOne drv (sqlFlowByCode st code) with
  | (_, some err) =>
    if err = Error.ErrNoRows then (none, none)
    else (none, Wrapf (some err) "根据编号查询流程数据发生错误")
  | (flow, none) => (flow, none)

/-! ## Joins -/

/-- The clause `LEFT JOIN t ON cond`, for one row of the left side: the rows of
`t` that satisfy `cond`, or a single NULL row when none does. -/
def leftJoin {β : Type} (t : List β) (cond : β → Bool) : List (Option β) :=
  match t.filter cond with
  | [] => [none]
  | ms => ms.map some

/-- A row of the join of `QueryTodo`, before the columns are selected. -/
structure TodoJoin where
  ni : NodeInstance
  fi : FlowInstance
  n : Option Node
  f : Option Form
  deriving DecidableEq, Repr

/-- The `FROM` clause of `QueryTodo`: `f_node_instance ni JOIN f_flow_instance fi
ON ni.flow_instance_id = fi.record_id AND fi.deleted = ni.deleted LEFT JOIN
f_node n ON ni.node_id = n.record_id AND n.deleted = ni.deleted LEFT JOIN f_form
f ON n.form_id = f.record_id AND f.deleted = n.deleted`. -/
def sqlTodoFrom (st : Store) : List TodoJoin :=
  st.nodeInstances.flatMap fun ni =>
    (st.flowInstances.filter
      (fun fi => ni.flow_instance_id = fi.record_id ∧ fi.deleted = ni.deleted)).flatMap fun fi =>
      (leftJoin st.nodes (fun n => ni.node_id = n.record_id ∧ n.deleted = ni.deleted)).flatMap
        fun n =>
          (match n with
            | none => [none]
            | some n =>
              leftJoin st.forms (fun f => n.form_id = f.record_id ∧ f.deleted = n.deleted)).map
            fun f => { ni := ni, fi := fi, n := n, f := f }

/-- The subquery `SELECT node_instance_id FROM f_node_candidate WHERE deleted = 0
AND candidate_id = ?`. -/
def sqlCandidateNodeInstances (st : Store) (userID : String) : List String :=
  (st.candidates.filter (fun c => c.deleted = 0 ∧ c.candidate_id = userID)).map
    (·.node_instance_id)

/-- The subquery `SELECT record_id FROM f_flow WHERE deleted=0 AND flag=1 AND
code=?`. -/
def sqlFlowIDsByCode (st : Store) (flowCode : String) : List String :=
  (st.flows.filter (fun f => f.deleted = 0 ∧ f.flag = 1 ∧ f.code = flowCode)).map (·.record_id)

/-- The `WHERE` clause of `QueryTodo`, with the conjunct on the flow appended
when `flowCode != ""`. -/
def sqlTodoWhere (st : Store) (flowCode userID : String) (j : TodoJoin) : Bool :=
  let base : Bool := j.ni.deleted = 0 ∧ j.ni.status = 1 ∧ j.fi.status = 1
    ∧ j.ni.record_id ∈ sqlCandidateNodeInstances st userID
  if flowCode ≠ "" then base && decide (j.fi.flow_id ∈ sqlFlowIDsByCode st flowCode)
  else base

/-- The rows of the query of `QueryTodo`, in the order of `ORDER BY ni.id`,
before the columns are selected. -/
def sqlTodoRows (st : Store) (flowCode userID : String) : List TodoJoin :=
  ((sqlTodoFrom st).filter (sqlTodoWhere st flowCode userID)).insertionSort
    (fun a b => a.ni.id ≤ b.ni.id)

/-- Modelled from the spec: `schema.FlowTodoResult` is not under `src/`; one
field per selected column of `QueryTodo`, the columns of the left-joined tables
being NULL when the join found no row. -/
structure FlowTodoResult where
  record_id : String
  flow_instance_id : String
  input_data : String
  node_id : String
  form_data : Option String
  form_type : Option String
  launcher : String
  launch_time : Int
  node_code : Option String
  node_name : Option String
  deriving DecidableEq, Repr

/-- The `SELECT` list of `QueryTodo`. -/
def TodoJoin.select (j : TodoJoin) : FlowTodoResult :=
  { record_id := j.ni.record_id
    flow_instance_id := j.ni.flow_instance_id
    input_data := j.ni.input_data
    node_id := j.ni.node_id
    form_data := j.f.map (·.data)
    form_type := j.f.map (·.type_code)
    launcher := j.fi.launcher
    launch_time := j.fi.launch_time
    node_code := j.n.map (·.code)
    node_name := j.n.map (·.name) }

/-- Method `Flow.QueryTodo` (m_flow.go 301-336). -/
def QueryTodo (st : Store) (drv : Option Error) (flowCode userID : String) :
    List FlowTodoResult × Option Error :=
  match dbSelect drv ((sqlTodoRows st flowCode userID).map TodoJoin.select) with
  | (_, some err) => ([], Wrapf (some err) "查询用户的待办数据发生错误")
  | (items, none) => (items, none)

/-! ## History -/

/-- Modelled from the spec: `schema.FlowHistoryResult` is not under `src/`; one
field per selected column of `QueryHistory`. -/
structure FlowHistoryResult where
  record_id : String
  processor : String
  process_time : Int
  out_data : String
  status : Int
  node_code : String
  node_name : String
  deriving DecidableEq, Repr

/-- The `SELECT` list of `QueryHistory`. -/
def historySelect (j : NodeInstance × Node) : FlowHistoryResult :=
  { record_id := j.1.record_id
    processor := j.1.processor
    process_time := j.1.process_time
    out_data := j.1.out_data
    status := j.1.status
    node_code := j.2.code
    node_name := j.2.name }

/-- The clause `ORDER BY ni.status DESC, ni.process_time` as a relation on the
joined rows: `a` may stand before `b`. -/
def historyOrder (a b : NodeInstance × Node) : Prop :=
  b.1.status < a.1.status ∨ (a.1.status = b.1.status ∧ a.1.process_time ≤ b.1.process_time)

instance historyOrder.decidable : DecidableRel historyOrder :=
  fun a b => by unfold historyOrder; exact inferInstance

/-- The `FROM` and `WHERE` clauses of `QueryHistory`: `f_node_instance ni JOIN
f_node n ON ni.node_id=n.record_id AND n.deleted=ni.deleted WHERE ni.deleted=0
AND ni.flow_instance_id=? AND n.type_code='userTask'`. -/
def sqlHistoryFrom (st : Store) (flowInstanceID : String) : List (NodeInstance × Node) :=
  (st.nodeInstances.flatMap fun ni =>
    (st.nodes.filter (fun n => ni.node_id = n.record_id ∧ n.deleted = ni.deleted)).map
      fun n => (ni, n)).filter
    (fun j => j.1.deleted = 0 ∧ j.1.flow_instance_id = flowInstanceID ∧ j.2.type_code = "userTask")

/-- The rows of the query of `QueryHistory`: joined, filtered, ordered, and then
reduced to the selected columns. -/
def sqlHistory (st : Store) (flowInstanceID : String) : List FlowHistoryResult :=
  ((sqlHistoryFrom st flowInstanceID).insertionSort historyOrder).map historySelect

/-- Method `Flow.QueryHistory` (m_flow.go 434-444). -/
def QueryHistory (st : Store) (drv : Option Error) (flowInstanceID : String) :
    List FlowHistoryResult × Option Error :=
  match dbSelect drv (sqlHistory st flowInstanceID) with
  | (_, some err) => ([], Wrapf (some err) "查询流程实例历史数据发生错误")
  | (items, none) => (items, none)

/-! ## Deletion -/

/-- The subquery `SELECT record_id FROM f_node WHERE deleted=0 AND flow_id=?`. -/
def sqlLiveNodeIDs (st : Store) (flowID : String) : List String :=
  (st.nodes.filter (fun n => n.deleted = 0 ∧ n.flow_id = flowID)).map (·.record_id)

/-- Statement `UPDATE f_flow SET deleted=? WHERE deleted=0 AND record_id=?`. -/
def sqlDeleteFlow (ctimeUnix : Int) (flowID : String) (st : Store) : Store :=
  { st with flows := st.flows.map fun f =>
      if f.deleted = 0 ∧ f.record_id = flowID then { f with deleted := ctimeUnix } else f }

/-- Statement `UPDATE f_node_router SET deleted=? WHERE deleted=0 AND
source_node_id IN(SELECT record_id FROM f_node WHERE deleted=0 AND flow_id=?)`. -/
def sqlDeleteRouters (ctimeUnix : Int) (flowID : String) (st : Store) : Store :=
  { st with routers := st.routers.map fun r =>
      if r.deleted = 0 ∧ r.source_node_id ∈ sqlLiveNodeIDs st flowID
      then { r with deleted := ctimeUnix } else r }

/-- Statement `UPDATE f_node_assignment SET deleted=? WHERE deleted=0 AND node_id
IN(SELECT record_id FROM f_node WHERE deleted=0 AND flow_id=?)`. -/
def sqlDeleteAssignments (ctimeUnix : Int) (flowID : String) (st : Store) : Store :=
  { st with assignments := st.assignments.map fun r =>
      if r.deleted = 0 ∧ r.node_id ∈ sqlLiveNodeIDs st flowID
      then { r with deleted := ctimeUnix } else r }

/-- Statement `UPDATE f_node_property SET deleted=? WHERE deleted=0 AND node_id
IN(SELECT record_id FROM f_node WHERE deleted=0 AND flow_id=?)`. -/
def sqlDeleteProperties (ctimeUnix : Int) (flowID : String) (st : Store) : Store :=
  { st with properties := st.properties.map fun r =>
      if r.deleted = 0 ∧ r.node_id ∈ sqlLiveNodeIDs st flowID
      then { r with deleted := ctimeUnix } else r }

/-- Statement `UPDATE f_node SET deleted=? WHERE deleted=0 AND flow_id=?`. -/
def sqlDeleteNodes (ctimeUnix : Int) (flowID : String) (st : Store) : Store :=
  { st with nodes := st.nodes.map fun n =>
      if n.deleted = 0 ∧ n.flow_id = flowID then { n with deleted := ctimeUnix } else n }

/-- Statement `UPDATE f_form SET deleted=? WHERE deleted=0 AND flow_id=?`. -/
def sqlDeleteForms (ctimeUnix : Int) (flowID : String) (st : Store) : Store :=
  { st with forms := st.forms.map fun f =>
      if f.deleted = 0 ∧ f.flow_id = flowID then { f with deleted := ctimeUnix } else f }

/-- Method `Flow.DeleteFlow` (m_flow.go 383-432); `ctimeUnix` is the value of
`time.Now().Unix()` read after `Begin`. -/
def DeleteFlow (st : Store) (script : List (Option Error)) (ctimeUnix : Int)
    (flowID : String) : Option Error × Store :=
  match dbBegin st script with
  | Except.error err => (Wrapf (some err) "删除流程开启事物发生错误", st)
  | Except.ok tran =>
    match tran.Exec (sqlDeleteFlow ctimeUnix flowID) with
    | (tran, some err) => (Wrapf (some err) "删除流程发生错误", tran.Rollback.1)
    | (tran, none) =>
    match tran.Exec (sqlDeleteRouters ctimeUnix flowID) with
    | (tran, some err) => (Wrapf (some err) "删除流程节点路由发生错误", tran.Rollback.1)
    | (tran, none) =>
    match tran.Exec (sqlDeleteAssignments ctimeUnix flowID) with
    | (tran, some err) => (Wrapf (some err) "删除流程节点指派发生错误", tran.Rollback.1)
    | (tran, none) =>
    match tran.Exec (sqlDeleteProperties ctimeUnix flowID) with
    | (tran, some err) => (Wrapf (some err) "删除流程节点属性发生错误", tran.Rollback.1)
    | (tran, none) =>
    match tran.Exec (sqlDeleteNodes ctimeUnix flowID) with
    | (tran, some err) => (Wrapf (some err) "删除流程节点发生错误", tran.Rollback.1)
    | (tran, none) =>
    match tran.Exec (sqlDeleteForms ctimeUnix flowID) with
    | (tran, some err) => (Wrapf (some err) "删除流程表单发生错误", tran.Rollback.1)
    | (tran, none) =>
    match tran.Commit with
    | (st1, some err) => (Wrapf (some err) "删除流程提交事物发生错误", st1)
    | (st1, none) => (none, st1)

/-! ## Order relations of the `ORDER BY` clauses -/

instance flowVersionDesc.isTotal : IsTotal Flow (fun a b => b.version ≤ a.version) :=
  ⟨fun a b => le_total b.version a.version⟩

instance flowVersionDesc.isTrans : IsTrans Flow (fun a b => b.version ≤ a.version) :=
  ⟨fun _ _ _ hab hbc => le_trans hbc hab⟩

instance historyOrder.isTotal : IsTotal (NodeInstance × Node) historyOrder :=
  ⟨fun a b => by
    unfold historyOrder
    rcases lt_trichotomy a.1.status b.1.status with h | h | h
    · exact Or.inr (Or.inl h)
    · rcases le_total a.1.process_time b.1.process_time with h2 | h2
      · exact Or.inl (Or.inr ⟨h, h2⟩)
      · exact Or.inr (Or.inr ⟨h.symm, h2⟩)
    · exact Or.inl (Or.inl h)⟩

instance historyOrder.isTrans : IsTrans (NodeInstance × Node) historyOrder :=
  ⟨fun a b c hab hbc => by
    unfold historyOrder at *
    rcases hab with h1 | ⟨h1, h1t⟩ <;> rcases hbc with h2 | ⟨h2, h2t⟩
    · exact Or.inl (lt_trans h2 h1)
    · exact Or.inl (h2 ▸ h1)
    · exact Or.inl (h1 ▸ h2)
    · exact Or.inr ⟨h1.trans h2, le_trans h1t h2t⟩⟩

instance todoIdOrder.isTotal : IsTotal TodoJoin (fun a b => a.ni.id ≤ b.ni.id) :=
  ⟨fun a b => le_total a.ni.id b.ni.id⟩

instance todoIdOrder.isTrans : IsTrans TodoJoin (fun a b => a.ni.id ≤ b.ni.id) :=
  ⟨fun _ _ _ hab hbc => le_trans hab hbc⟩

instance todoIdLt.isAntisymm : IsAntisymm TodoJoin (fun a b => a.ni.id < b.ni.id) :=
  ⟨fun _ _ hab hba => absurd hab (lt_asymm hba)⟩

/-! ## Concrete stores -/

/-- A router row with the given position in the table, order number and
tombstone, leaving node `n1` for node `n2`. -/
def mkRouter (id : Int) (rid : String) (orderNum deleted : Int) : NodeRouter :=
  { id := id, record_id := rid, source_node_id := "n1", target_node_id := "n2",
    expression := "", explain := "", order_num := orderNum, created := 1, deleted := deleted }

/-- A store whose router table holds, in insertion order, a live router of
order number 2 and then a live router of order number 1, both leaving `n1`. -/
def routerStore : Store :=
  { Store.empty with routers := [mkRouter 1 "r1" 2 0, mkRouter 2 "r2" 1 0] }

/-- A node-instance row of flow-instance `fi1` on node `n1`. -/
def mkNodeInstance (id : Int) (rid : String) (status processTime deleted : Int) : NodeInstance :=
  { id := id, record_id := rid, flow_instance_id := "fi1", node_id := "n1",
    prev_node_instance_id := "", input_data := "",
    out_data := "", processor := "", process_time := processTime, status := status,
    created := 1, updated := 1, deleted := deleted }

/-- A candidate row naming `user` for node-instance `niID`. -/
def mkCandidate (id : Int) (rid niID user : String) : NodeCandidate :=
  { id := id, record_id := rid, node_instance_id := niID, candidate_id := user,
    created := 1, deleted := 0 }

/-- A running flow-instance row of flow `flowID`. -/
def mkFlowInstance (id : Int) (rid flowID : String) : FlowInstance :=
  { id := id, record_id := rid, flow_id := flowID, launcher := "T001", launch_time := 1,
    status := 1, created := 1, deleted := 0 }

/-- The update `HandleFlow` asks for: the node-instance becomes processed
(`status=2`) by `user` at time `now`. -/
def markProcessed (user : String) (now : Int) : NodeInstanceInfo :=
  { input_data := none, out_data := some "out", processor := some user,
    process_time := some now, status := some 2, updated := some now, deleted := none }

/-- A store with one node-instance, `ni1`, already processed (`status=2`). -/
def processedStore : Store :=
  { Store.empty with nodeInstances := [mkNodeInstance 1 "ni1" 2 50 0] }

/-- A store with one node-instance, `ni1`, pending (`status=1`). -/
def pendingStore : Store :=
  { Store.empty with nodeInstances := [mkNodeInstance 1 "ni1" 1 0 0] }

/-- The driver's answers `Begin` succeeds, the first `INSERT` fails; the
`Rollback` that follows, not being listed, succeeds. -/
def firstInsertFails : List (Option Error) :=
  [none, some (Error.driver "Error 1062: Duplicate entry")]

/-- The driver's answers `Begin` succeeds, the first `INSERT` succeeds, the
second `INSERT` fails; the `Rollback` that follows succeeds. -/
def secondInsertFails : List (Option Error) :=
  [none, none, some (Error.driver "Error 1062: Duplicate entry")]

/-- A flow row with the given code, version, flag, status and tombstone. -/
def mkFlow (id : Int) (rid code : String) (version flag status deleted : Int) : Flow :=
  { id := id, record_id := rid, code := code, name := "", version := version, type_code := "",
    status := status, flag := flag, memo := "", created := 1, deleted := deleted }

/-- A store in which flow `f1` of code `leave` has been superseded (`flag=0`)
while its flow-instance `fi1` still runs, with node-instance `ni1` pending for
candidate `T002`. -/
def supersededStore : Store :=
  { Store.empty with
    flows := [mkFlow 1 "f1" "leave" 1 0 1 0]
    flowInstances := [mkFlowInstance 1 "fi1" "f1"]
    nodeInstances := [mkNodeInstance 1 "ni1" 1 0 0]
    candidates := [mkCandidate 1 "c1" "ni1" "T002"] }

/-- The key constraints of the schema that the join of `QueryTodo` relies on:
the auto-increment `id` is the primary key of `f_node_instance`, and `record_id`
identifies a row of `f_flow_instance`, `f_node` and `f_form`. -/
def Store.KeysUnique (st : Store) : Prop :=
  (st.nodeInstances.map (·.id)).Nodup ∧ (st.flowInstances.map (·.record_id)).Nodup ∧
    (st.nodes.map (·.record_id)).Nodup ∧ (st.forms.map (·.record_id)).Nodup

instance Store.KeysUnique.decidable (st : Store) : Decidable st.KeysUnique := by
  unfold Store.KeysUnique; exact inferInstance

/-- A store with two running flow-instances of flow `f1` and three pending
node-instances for `T002`, held in the table in the order of ids 3, 1, 2. -/
def todoStore : Store :=
  { Store.empty with
    flows := [mkFlow 1 "f1" "leave" 1 1 1 0]
    flowInstances := [mkFlowInstance 1 "fi1" "f1", mkFlowInstance 2 "fi2" "f1"]
    nodeInstances := [mkNodeInstance 3 "ni3" 1 0 0, mkNodeInstance 1 "ni1" 1 0 0,
      { mkNodeInstance 2 "ni2" 1 0 0 with flow_instance_id := "fi2" }]
    candidates := [mkCandidate 1 "c1" "ni1" "T002", mkCandidate 2 "c2" "ni2" "T002",
      mkCandidate 3 "c3" "ni3" "T002"] }

/-- Two stores hold the same rows in every table, the physical order of the rows
within a table being possibly different. -/
def Store.SameRows (a b : Store) : Prop :=
  a.flows.Perm b.flows ∧ a.nodes.Perm b.nodes ∧ a.routers.Perm b.routers ∧
    a.assignments.Perm b.assignments ∧ a.properties.Perm b.properties ∧
    a.forms.Perm b.forms ∧ a.flowInstances.Perm b.flowInstances ∧
    a.nodeInstances.Perm b.nodeInstances ∧ a.candidates.Perm b.candidates

/-- The rows of `todoStore`, the node-instance table held in the order of ids
1, 2, 3 and the candidate table reversed. -/
def todoStoreReordered : Store :=
  { todoStore with
    nodeInstances := [mkNodeInstance 1 "ni1" 1 0 0,
      { mkNodeInstance 2 "ni2" 1 0 0 with flow_instance_id := "fi2" },
      mkNodeInstance 3 "ni3" 1 0 0]
    candidates := [mkCandidate 3 "c3" "ni3" "T002", mkCandidate 2 "c2" "ni2" "T002",
      mkCandidate 1 "c1" "ni1" "T002"] }

/-- A live node row of flow `flowID`. -/
def mkNode (id : Int) (rid flowID typeCode : String) : Node :=
  { id := id, record_id := rid, flow_id := flowID, code := rid, name := rid,
    type_code := typeCode, form_id := "", order_num := id, created := 1, deleted := 0 }

/-- A live assignment row on node `nodeID`. -/
def mkAssignment (id : Int) (rid nodeID : String) : NodeAssignment :=
  { id := id, record_id := rid, node_id := nodeID, expression := "bzr", created := 1,
    deleted := 0 }

/-- A live property row on node `nodeID`. -/
def mkProperty (id : Int) (rid nodeID : String) : NodeProperty :=
  { id := id, record_id := rid, node_id := nodeID, name := "k", value := "v", created := 1,
    deleted := 0 }

/-- A live form row of flow `flowID`. -/
def mkForm (id : Int) (rid flowID : String) : Form :=
  { id := id, record_id := rid, flow_id := flowID, type_code := "url", data := "", created := 1,
    deleted := 0 }

/-- A store with two flow definitions: `f1` with nodes `n1`, `n2`, a router and
a property on `n1`, an assignment on `n2` and a form; `f2` with node `m1` and a
router out of it. -/
def definitionStore : Store :=
  { Store.empty with
    flows := [mkFlow 1 "f1" "leave" 1 1 1 0, mkFlow 2 "f2" "travel" 1 1 1 0]
    nodes := [mkNode 1 "n1" "f1" "startEvent", mkNode 2 "n2" "f1" "userTask",
      mkNode 3 "m1" "f2" "startEvent"]
    routers := [mkRouter 1 "r1" 1 0, { mkRouter 2 "r2" 1 0 with source_node_id := "m1" }]
    assignments := [mkAssignment 1 "a1" "n2"]
    properties := [mkProperty 1 "p1" "n1"]
    forms := [mkForm 1 "fm1" "f1"] }

/-- A processed or pending task of flow-instance `fi1` on node `nodeID`, with
the processor and the output recorded on it. -/
def mkTask (id : Int) (rid nodeID processor outData : String) (status processTime : Int) :
    NodeInstance :=
  { mkNodeInstance id rid status processTime 0 with
    node_id := nodeID, processor := processor, out_data := outData }

/-- A row of the history list. -/
def historyRow (rid processor : String) (processTime : Int) (outData : String) (status : Int)
    (nodeCode nodeName : String) : FlowHistoryResult :=
  { record_id := rid, processor := processor, process_time := processTime, out_data := outData,
    status := status, node_code := nodeCode, node_name := nodeName }

/-- A store with the history of flow-instance `fi1`: the start event `n0`, the
tasks `n1` (code `bzr`) and `n2` (code `fdy`); a processed start, two processed
tasks of times 30 and 10, a pending task, a tombstoned task, a task on a
tombstoned copy of `n1`, and a processed task of another flow-instance. -/
def historyStore : Store :=
  { Store.empty with
    nodes := [mkNode 1 "n0" "f1" "startEvent",
      { mkNode 2 "n1" "f1" "userTask" with code := "bzr", name := "班主任审批" },
      { mkNode 3 "n2" "f1" "userTask" with code := "fdy", name := "辅导员审批" },
      { mkNode 4 "n1" "f1" "userTask" with code := "old", name := "旧节点", deleted := 5 }]
    nodeInstances := [mkTask 1 "ni0" "n0" "T001" "day=3" 2 5,
      mkTask 2 "ni1" "n1" "T002" "pass" 2 30,
      mkTask 3 "ni2" "n2" "" "" 1 0,
      mkTask 4 "ni3" "n2" "T003" "back" 2 10,
      { mkTask 5 "ni4" "n1" "T002" "gone" 2 20 with deleted := 7 },
      { mkTask 6 "ni5" "n1" "T009" "other" 2 1 with flow_instance_id := "fi2" }] }

/-! ## Further reads -/

/-- Method `Flow.GetFlow` (m_flow.go 54-68), on the query `SELECT * FROM f_flow
WHERE deleted=0 AND record_id=? LIMIT 1`. -/
def GetFlow (st : Store) (drv : Option Error) (recordID : String) : Option Flow × Option Error :=
  match dbSelectOne drv
      ((st.flows.filter (fun f => f.deleted = 0 ∧ f.record_id = recordID)).take 1) with
  | (_, some err) =>
    if err = Error.ErrNoRows then (none, none)
    else (none, Wrapf (some err) "获取流程数据发生错误")
  | (flow, none) => (flow, none)

/-- Method `Flow.GetNode` (m_flow.go 86-100), on the query `SELECT * FROM f_node
WHERE deleted=0 AND record_id=?`. -/
def GetNode (st : Store) (drv : Option Error) (recordID : String) : Option Node × Option Error :=
  match dbSelectOne drv (st.nodes.filter (fun n => n.deleted = 0 ∧ n.record_id = recordID)) with
  | (_, some err) =>
    if err = Error.ErrNoRows then (none, none)
    else (none, Wrapf (some err) "获取流程节点发生错误")
  | (item, none) => (item, none)

/-- Method `Flow.GetNodeByCode` (m_flow.go 102-116), on the query `SELECT * FROM
f_node WHERE deleted=0 AND flow_id=? AND code=? ORDER BY order_num LIMIT 1`. -/
def GetNodeByCode (st : Store) (drv : Option Error) (flowID nodeCode : String) :
    Option Node × Option Error :=
  match dbSelectOne drv
      (((st.nodes.filter
        (fun n => n.deleted = 0 ∧ n.flow_id = flowID ∧ n.code = nodeCode)).insertionSort
          (fun a b => a.order_num ≤ b.order_num)).take 1) with
  | (_, some err) =>
    if err = Error.ErrNoRows then (none, none)
    else (none, Wrapf (some err) "根据节点编号获取流程节点发生错误")
  | (item, none) => (item, none)

/-- Method `Flow.GetFlowInstance` (m_flow.go 118-132), on the query `SELECT * FROM
f_flow_instance WHERE deleted=0 AND record_id=? LIMIT 1`. -/
def GetFlowInstance (st : Store) (drv : Option Error) (recordID : String) :
    Option FlowInstance × Option Error :=
  match dbSelectOne drv
      ((st.flowInstances.filter (fun fi => fi.deleted = 0 ∧ fi.record_id = recordID)).take 1) with
  | (_, some err) =>
    if err = Error.ErrNoRows then (none, none)
    else (none, Wrapf (some err) "获取流程实例发生错误")
  | (item, none) => (item, none)

/-- Method `Flow.GetFlowInstanceByNode` (m_flow.go 134-148), on the query `SELECT *
FROM f_flow_instance WHERE deleted=0 AND record_id IN (SELECT flow_instance_id
FROM f_node_instance WHERE deleted=0 AND record_id=?) LIMIT 1`. -/
def GetFlowInstanceByNode (st : Store) (drv : Option Error) (nodeInstanceID : String) :
    Option FlowInstance × Option Error :=
  match dbSelectOne drv
      ((st.flowInstances.filter (fun fi => fi.deleted = 0 ∧ fi.record_id ∈
        (st.nodeInstances.filter
          (fun ni => ni.deleted = 0 ∧ ni.record_id = nodeInstanceID)).map
            (·.flow_instance_id))).take 1) with
  | (_, some err) =>
    if err = Error.ErrNoRows then (none, none)
    else (none, Wrapf (some err) "根据节点实例获取流程实例发生错误")
  | (item, none) => (item, none)

/-- Method `Flow.GetNodeInstance` (m_flow.go 150-164), on the query `SELECT * FROM
f_node_instance WHERE deleted=0 AND record_id=? LIMIT 1`. -/
def GetNodeInstance (st : Store) (drv : Option Error) (recordID : String) :
    Option NodeInstance × Option Error :=
  match dbSelectOne drv
      ((st.nodeInstances.filter (fun ni => ni.deleted = 0 ∧ ni.record_id = recordID)).take 1) with
  | (_, some err) =>
    if err = Error.ErrNoRows then (none, none)
    else (none, Wrapf (some err) "获取流程节点实例发生错误")
  | (item, none) => (item, none)

/-- Method `Flow.QueryNodeAssignments` (m_flow.go 179-190), on the query `SELECT *
FROM f_node_assignment WHERE deleted=0 AND node_id=?`. -/
def QueryNodeAssignments (st : Store) (drv : Option Error) (nodeID : String) :
    List NodeAssignment × Option Error :=
  match dbSelect drv (st.assignments.filter (fun a => a.deleted = 0 ∧ a.node_id = nodeID)) with
  | (_, some err) => ([], Wrapf (some err) "查询节点指派发生错误")
  | (items, none) => (items, none)

/-- Method `Flow.QueryNodeCandidates` (m_flow.go 288-299), on the query `SELECT *
FROM f_node_candidate WHERE deleted=0 AND node_instance_id=?`. -/
def QueryNodeCandidates (st : Store) (drv : Option Error) (nodeInstanceID : String) :
    List NodeCandidate × Option Error :=
  match dbSelect drv
      (st.candidates.filter (fun c => c.deleted = 0 ∧ c.node_instance_id = nodeInstanceID)) with
  | (_, some err) => ([], Wrapf (some err) "查询节点候选人发生错误")
  | (items, none) => (items, none)

/-- Method `Flow.GetForm` (m_flow.go 538-551), on the query `SELECT * FROM f_form
WHERE deleted=0 AND record_id=?`. -/
def GetForm (st : Store) (drv : Option Error) (formID : String) : Option Form × Option Error :=
  match dbSelectOne drv (st.forms.filter (fun f => f.deleted = 0 ∧ f.record_id = formID)) with
  | (_, some err) =>
    if err = Error.ErrNoRows then (none, none)
    else (none, Wrapf (some err) "获取流程表单发生错误")
  | (item, none) => (item, none)

/-- The argument `info map[string]interface{}` of `UpdateFlowInstance`, as a
partial assignment of the columns of `f_flow_instance`. -/
structure FlowInstanceInfo where
  status : Option Int
  deleted : Option Int
  deriving DecidableEq, Repr

/-- The `SET` clause built from `info`, applied to one row. -/
def FlowInstanceInfo.set (info : FlowInstanceInfo) (r : FlowInstance) : FlowInstance :=
  { r with
    status := info.status.getD r.status
    deleted := info.deleted.getD r.deleted }

/-- Method `Flow.UpdateFlowInstance` (m_flow.go 245-252), on `DB.UpdateByPK`
modelled from the spec as for `UpdateNodeInstance`: the partial field update
`UPDATE f_flow_instance SET info WHERE record_id=?`. -/
def UpdateFlowInstance (st : Store) (drv : Option Error) (recordID : String)
    (info : FlowInstanceInfo) : Option Error × Store :=
  match drv with
  | some err => (Wrapf (some err) "更新流程实例信息发生错误", st)
  | none =>
    (none, { st with
      flowInstances := st.flowInstances.map
        (fun r => if r.record_id = recordID then info.set r else r) })

/-! ## Done list -/

/-- A row of the join of `QueryDone`, before the columns are selected. -/
structure DoneJoin where
  ni : NodeInstance
  fi : FlowInstance
  n : Option Node
  f : Option Form
  fw : Option Flow
  deriving DecidableEq, Repr

/-- The `FROM` clause of `QueryDone`: that of `QueryTodo` followed by `LEFT JOIN
f_flow fw ON n.flow_id = fw.record_id AND fw.deleted=n.deleted`. -/
def sqlDoneFrom (st : Store) : List DoneJoin :=
  (sqlTodoFrom st).flatMap fun j =>
    (match j.n with
      | none => [none]
      | some n =>
        leftJoin st.flows (fun fw => n.flow_id = fw.record_id ∧ fw.deleted = n.deleted)).map
      fun fw => { ni := j.ni, fi := j.fi, n := j.n, f := j.f, fw := fw }

/-- The `WHERE` clause of `QueryDone`: `ni.deleted = 0 AND ni.status = 2 AND
ni.processor=?`, with the conjunct on the flow when `flowCode != ""` and the
conjunct `ni.id<?` when `lastID > 0`. -/
def sqlDoneWhere (st : Store) (flowCode userID : String) (lastID : Int) (j : DoneJoin) : Bool :=
  let w0 : Bool := j.ni.deleted = 0 ∧ j.ni.status = 2 ∧ j.ni.processor = userID
  let w1 : Bool :=
    if flowCode ≠ "" then w0 && decide (j.fi.flow_id ∈ sqlFlowIDsByCode st flowCode) else w0
  if lastID > 0 then w1 && decide (j.ni.id < lastID) else w1

/-- Modelled from the spec: `schema.FlowDoneResult` is not under `src/`; one
field per selected column of `QueryDone`. -/
structure FlowDoneResult where
  id : Int
  record_id : String
  flow_instance_id : String
  out_data : String
  process_time : Int
  form_data : Option String
  form_type : Option String
  flow_status : Int
  launcher : String
  launch_time : Int
  node_name : Option String
  flow_name : Option String
  deriving DecidableEq, Repr

/-- The `SELECT` list of `QueryDone`. -/
def DoneJoin.select (j : DoneJoin) : FlowDoneResult :=
  { id := j.ni.id
    record_id := j.ni.record_id
    flow_instance_id := j.ni.flow_instance_id
    out_data := j.ni.out_data
    process_time := j.ni.process_time
    form_data := j.f.map (·.data)
    form_type := j.f.map (·.type_code)
    flow_status := j.fi.status
    launcher := j.fi.launcher
    launch_time := j.fi.launch_time
    node_name := j.n.map (·.name)
    flow_name := j.fw.map (·.name) }

/-- The rows of the query of `QueryDone`, `ORDER BY ni.id DESC LIMIT count`,
before the columns are selected. -/
def sqlDoneRows (st : Store) (flowCode userID : String) (lastID : Int) (count : Nat) :
    List DoneJoin :=
  (((sqlDoneFrom st).filter (sqlDoneWhere st flowCode userID lastID)).insertionSort
    (fun a b => b.ni.id ≤ a.ni.id)).take count

/-- Method `Flow.QueryDone` (m_flow.go 338-381).  The Go `int` `count` is
printed into `LIMIT %d`; a negative limit is a syntax error of the statement. -/
def QueryDone (st : Store) (drv : Option Error) (flowCode userID : String) (lastID : Int)
    (count : Int) : List FlowDoneResult × Option Error :=
  let stmt : Option Error := if count < 0 then some (Error.driver "Error 1064: syntax") else drv
  match dbSelect stmt ((sqlDoneRows st flowCode userID lastID count.toNat).map DoneJoin.select) with
  | (_, some err) => ([], Wrapf (some err) "查询用户的已办数据发生错误")
  | (items, none) => (items, none)

/-! ## Paged queries -/

/-- Modelled from the spec: `schema.FlowQueryParam` is not under `src/`; the
fields are those `QueryGroupFlowPage` reads. -/
structure FlowQueryParam where
  Code : String
  Name : String
  TypeCode : String
  Status : Int
  deriving DecidableEq, Repr

/-- Modelled from the spec: `schema.FlowQueryResult` is not under `src/`; one
field per column selected by `GetFlowQueryResultByCodeAndVersion`. -/
structure FlowQueryResult where
  id : Int
  record_id : String
  created : Int
  code : String
  name : String
  version : Int
  type_code : String
  status : Int
  memo : String
  deriving DecidableEq, Repr

/-- The escape character of `LIKE`, the backslash (the default of MySQL). -/
def likeEscape : Char := Char.ofNat 92

/-- The SQL operator `LIKE` on characters: `%` stands for any run of
characters, `_` for any one character, the escape character followed by a
character for that character itself, and every other character (an escape
character at the end of the pattern included) for itself. -/
def sqlLike : List Char → List Char → Bool
  | [], s => s.isEmpty
  | c :: p, s =>
    if c = '%' then s.tails.any (fun t => sqlLike p t)
    else if c = likeEscape then
      match p with
      | [] =>
        match s with
        | [] => false
        | d :: s1 => decide (c = d) && s1.isEmpty
      | e :: p1 =>
        match s with
        | [] => false
        | d :: s1 => decide (e = d) && sqlLike p1 s1
    else
      match s with
      | [] => false
      | d :: s1 => (decide (c = '_') || decide (c = d)) && sqlLike p s1

/-- The `WHERE` clause of `QueryGroupFlowPage`: `deleted=0 AND flag=1`, then
`code LIKE ?` on `%code%`, `name LIKE ?` on `%name%`, `type_code=?` and
`status=?`, each appended when the parameter is set. -/
def sqlGroupWhere (params : FlowQueryParam) (f : Flow) : Bool :=
  let w0 : Bool := f.deleted = 0 ∧ f.flag = 1
  let w1 : Bool :=
    if params.Code ≠ "" then w0 && sqlLike ("%" ++ params.Code ++ "%").data f.code.data else w0
  let w2 : Bool :=
    if params.Name ≠ "" then w1 && sqlLike ("%" ++ params.Name ++ "%").data f.name.data else w1
  let w3 : Bool := if params.TypeCode ≠ "" then w2 && decide (f.type_code = params.TypeCode) else w2
  if params.Status > 0 then w3 && decide (f.status = params.Status) else w3

/-- The zero value of `schema.Flow`, into which the selected columns of a query
are scanned. -/
def Flow.zero : Flow :=
  { id := 0, record_id := "", code := "", name := "", version := 0, type_code := "",
    status := 0, flag := 0, memo := "", created := 0, deleted := 0 }

/-- The query of `QueryGroupFlowPage`: `SELECT code,MAX(version)'version' FROM
f_flow WHERE ... GROUP BY code ORDER BY code`, one row per code of the filtered
rows, ordered by code (character by character). -/
def sqlGroupFlows (st : Store) (params : FlowQueryParam) : List Flow :=
  let rows := st.flows.filter (sqlGroupWhere params)
  ((rows.map (·.code)).dedup.insertionSort (fun a b => a.data ≤ b.data)).map fun c =>
    { Flow.zero with
      code := c
      version := (((rows.filter (fun f => f.code = c)).map (·.version)).max?).getD 0 }

/-- Method `Flow.GetFlowQueryResultByCodeAndVersion` (m_flow.go 673-685), on the
query `SELECT id,record_id,created,code,name,version,type_code,status,memo FROM
f_flow WHERE deleted=0 AND flag=1 AND code=? AND version=?`: the row, or the
wrapped error of `SelectOne` (`sql.ErrNoRows` included). -/
def GetFlowQueryResultByCodeAndVersion (st : Store) (drv : Option Error) (code : String)
    (version : Int) : Except Error FlowQueryResult :=
  match dbSelectOne drv
      ((st.flows.filter
        (fun f => f.deleted = 0 ∧ f.flag = 1 ∧ f.code = code ∧ f.version = version)).map
        (fun f => ({ id := f.id, record_id := f.record_id, created := f.created, code := f.code,
                     name := f.name, version := f.version, type_code := f.type_code,
                     status := f.status, memo := f.memo } : FlowQueryResult))) with
  | (some item, none) => Except.ok item
  | (_, some err) => Except.error (Error.wrapped err "查询流程结果发生错误")
  | (none, none) => Except.error (Error.wrapped Error.ErrNoRows "查询流程结果发生错误")

/-- The number of values of the Go types `uint` and `int` (64 bits). -/
def wordSize : Nat := 2 ^ 64

/-- The conversion `int(u)` of a `uint`: the same 64 bits read as a signed
integer. -/
def toInt (u : Nat) : Int :=
  if u % wordSize < 2 ^ 63 then ((u % wordSize : Nat) : Int) else ((u % wordSize : Nat) : Int) - 2 ^ 64

/-- The value of an `int` expression after wrap-around. -/
def wrapInt (x : Int) : Int := (x + 2 ^ 63) % 2 ^ 64 - 2 ^ 63

/-- The statement `start := int((pageIndex - 1) * pageSize)`, in `uint`
arithmetic. -/
def pageStart (pageIndex pageSize : Nat) : Int :=
  toInt (((pageIndex % wordSize + wordSize - 1) % wordSize * (pageSize % wordSize)) % wordSize)

/-- The statement `end := int(start + int(pageSize))`. -/
def pageEnd (pageIndex pageSize : Nat) : Int :=
  wrapInt (pageStart pageIndex pageSize + toInt pageSize)

/-- The slice expression `items[lo:hi]` of a slice filled to its capacity: the
elements from `lo` up to `hi`, or a run-time panic when the bounds are not
`0 <= lo <= hi <= len(items)`. -/
def goSlice {α : Type} (items : List α) (lo hi : Int) : Except String (List α) :=
  if 0 ≤ lo ∧ lo ≤ hi ∧ hi ≤ items.length then
    Except.ok ((items.drop lo.toNat).take (hi.toNat - lo.toNat))
  else Except.error "runtime error: slice bounds out of range"

/-- The statements that pick the page out of `items` (m_flow.go 649-659). -/
def pageData {α : Type} (items : List α) (pageIndex pageSize : Nat) : Except String (List α) :=
  let start := pageStart pageIndex pageSize
  let end_ := pageEnd pageIndex pageSize
  let l : Int := items.length
  if l > start then
    if l > end_ then goSlice items start end_
    else goSlice items start l
  else Except.ok []

/-- The loop `for i, item := range data` of `QueryGroupFlowPage`: the results,
or the error of the first lookup that fails. -/
def QueryGroupFlowPage.loop (st : Store) : List (Option Error) → List Flow →
    Except Error (List FlowQueryResult)
  | _, [] => Except.ok []
  | script, item :: rest =>
    match GetFlowQueryResultByCodeAndVersion st (script.headD none) item.code item.version with
    | Except.error verr => Except.error verr
    | Except.ok flowResult =>
      match QueryGroupFlowPage.loop st script.tail rest with
      | Except.error verr => Except.error verr
      | Except.ok result => Except.ok (flowResult :: result)

/-- Method `Flow.QueryGroupFlowPage` (m_flow.go 612-671).  `script` lists the
answers of the driver to the group query and to the lookups that follow; the
outer `Except` is a run-time panic. -/
def QueryGroupFlowPage (st : Store) (script : List (Option Error)) (params : FlowQueryParam)
    (pageIndex pageSize : Nat) : Except String (Int × List FlowQueryResult × Option Error) :=
  match dbSelect (script.headD none) (sqlGroupFlows st params) with
  | (_, some err) => Except.ok (0, [], Wrapf (some err) "查询分页数据发生错误")
  | (items, none) =>
    if items.length = 0 then Except.ok (0, [], none)
    else
      match pageData items pageIndex pageSize with
      | Except.error p => Except.error p
      | Except.ok data =>
        match QueryGroupFlowPage.loop st script.tail data with
        | Except.error verr => Except.ok (0, [], some verr)
        | Except.ok result => Except.ok ((items.length : Int), result, none)

instance codeOrder.isTotal : IsTotal String (fun a b => a.data ≤ b.data) :=
  ⟨fun a b => le_total a.data b.data⟩

instance codeOrder.isTrans : IsTrans String (fun a b => a.data ≤ b.data) :=
  ⟨fun _ _ _ h1 h2 => le_trans h1 h2⟩

/-- The parameters that set no filter. -/
def noFilter : FlowQueryParam := { Code := "", Name := "", TypeCode := "", Status := 0 }

/-- The lookup of `QueryGroupFlowPage` for the group `g` goes through and
yields `r`. -/
def Resolves (st : Store) (g : Flow) (r : FlowQueryResult) : Prop :=
  GetFlowQueryResultByCodeAndVersion st none g.code g.version = Except.ok r

/-- The results of page `pageIndex` when no call of the driver fails; empty
when the method returns an error or panics. -/
def groupPage (st : Store) (params : FlowQueryParam) (pageIndex pageSize : Nat) :
    List FlowQueryResult :=
  match QueryGroupFlowPage st [] params pageIndex pageSize with
  | Except.ok (_, result, _) => result
  | Except.error _ => []

/-- A store with three flow groups, `apply`, `leave` and `travel`, the group
`leave` holding the versions 1 (superseded) and 2. -/
def groupStore : Store :=
  { Store.empty with
    flows := [mkFlow 1 "f1" "leave" 1 0 1 0, mkFlow 2 "f2" "travel" 1 1 1 0,
      mkFlow 3 "f3" "leave" 2 1 1 0, mkFlow 4 "f4" "apply" 1 1 1 0] }

/-- The result row of the flow `f2` of `groupStore`. -/
def travelResult : FlowQueryResult :=
  { id := 2, record_id := "f2", created := 1, code := "travel", name := "", version := 1,
    type_code := "", status := 1, memo := "" }

/-! ## Engine -/

/-- Modelled from the spec: the error kinds of the engine (section 7); the
engine itself is not under `src/`.  `ErrFuel` is the model running out of steps
on a cycle of gateways. -/
inductive EngineError where
  | ErrFlowNotFound : EngineError
  | ErrNodeNotFound : EngineError
  | ErrNodeInstanceNotActionable : EngineError
  | ErrNotCandidate : EngineError
  | ErrNoRouteSatisfied : EngineError
  | ErrNoCandidate : EngineError
  | ErrTransient (e : Error) : EngineError
  | ErrFuel : EngineError
  deriving DecidableEq, Repr

/-- Modelled from the spec: the collaborators of the engine.  `evalGuard` and
`evalCandidates` are the `Execer` applied to a guard and to an assignment rule
against the variable blob (`none` is `ErrExprEval`); `mergeJSON prior incoming`
is the shallow merge in which incoming wins; `uuid` mints record ids; `now` is
the clock. -/
structure Env where
  evalGuard : String → String → Option Bool
  evalCandidates : String → String → Option (List String)
  mergeJSON : String → String → String
  uuid : Nat → String
  now : Int

/-- Modelled from the spec: an entry of `HandleResult.NextNodes`. -/
structure NextNode where
  nodeID : String
  nodeCode : String
  nodeInstanceID : String
  candidateIDs : List String
  deriving DecidableEq, Repr

/-- Modelled from the spec: `HandleResult`. -/
structure HandleResult where
  IsEnd : Bool
  NextNodes : List NextNode
  flowInstanceID : String
  deriving DecidableEq, Repr

/-- Modelled from the spec: the state the engine works on, the store together
with the number of record ids minted so far; the engine is not under `src/`. -/
structure EngineState where
  store : Store
  seq : Nat
  deriving DecidableEq, Repr

/-- Modelled from the spec: `R = QueryNodeRouters(currentNode.id)` ordered by
`order_num`. -/
def routersInOrder (st : Store) (nodeID : String) : List NodeRouter :=
  (QueryNodeRouters st none nodeID).1.insertionSort (fun a b => a.order_num ≤ b.order_num)

/-- Modelled from the spec: a guard holds when it is empty or evaluates to true;
a guard that fails to evaluate counts as false. -/
def guardHolds (env : Env) (vars : String) (r : NodeRouter) : Bool :=
  decide (r.expression = "") || (env.evalGuard r.expression vars == some true)

/-- Modelled from the spec: the branching policy by the type of the node.  A
`parallelGateway` fires all its routers; an `inclusiveGateway` fires those whose
guard holds, at least one; every other node fires the first router, in order,
whose guard holds. -/
def selectRouters (env : Env) (st : Store) (vars : String) (node : Node) :
    Except EngineError (List NodeRouter) :=
  if node.type_code = "parallelGateway" then Except.ok (routersInOrder st node.record_id)
  else if node.type_code = "inclusiveGateway" then
    match (routersInOrder st node.record_id).filter (guardHolds env vars) with
    | [] => Except.error EngineError.ErrNoRouteSatisfied
    | rs => Except.ok rs
  else Except.ok (((routersInOrder st node.record_id).filter (guardHolds env vars)).take 1)

/-- Modelled from the spec: candidate resolution (section 4.6): the rules of
`QueryNodeAssignments(node.id)` are evaluated against the variables, the union
is deduplicated, and it must be non-empty. -/
def resolveCandidates (env : Env) (st : Store) (vars : String) (node : Node) :
    Except EngineError (List String) :=
  match ((QueryNodeAssignments st none node.record_id).1.flatMap
      (fun a => (env.evalCandidates a.expression vars).getD [])).dedup with
  | [] => Except.error EngineError.ErrNoCandidate
  | ids => Except.ok ids

/-- Modelled from the spec: the candidate rows of a new node-instance, one per
resolved candidate, with record ids minted from `seq` on. -/
def candidateRows (env : Env) (seq : Nat) (nodeInstanceID : String) :
    List String → List NodeCandidate
  | [] => []
  | c :: cs =>
    { id := 0, record_id := env.uuid seq, node_instance_id := nodeInstanceID, candidate_id := c,
      created := env.now, deleted := 0 } :: candidateRows env (seq + 1) nodeInstanceID cs

/-- Modelled from the spec: the pending node-instance of a `userTask` successor:
`status=1`, the variables as `input_data`, the node-instance just processed as
`prev_node_instance_id`. -/
def pendingRow (env : Env) (seq : Nat) (flowInstanceID prev vars : String) (node : Node) :
    NodeInstance :=
  { id := 0, record_id := env.uuid seq, flow_instance_id := flowInstanceID,
    node_id := node.record_id, prev_node_instance_id := prev, input_data := vars,
    out_data := "", processor := "", process_time := 0, status := 1, created := env.now,
    updated := env.now, deleted := 0 }

/-- Modelled from the spec: the entry of `NextNodes` for a node-instance of
`node` minted at `seq`. -/
def taskEntry (env : Env) (seq : Nat) (node : Node) (cands : List String) : NextNode :=
  { nodeID := node.record_id, nodeCode := node.code, nodeInstanceID := env.uuid seq,
    candidateIDs := cands }

/-- Modelled from the spec: a `userTask` successor is persisted as a pending
node-instance with its candidates, through `CreateNodeInstance`, and reported
as a next node. -/
def createPending (env : Env) (es : EngineState) (flowInstanceID prev vars : String)
    (node : Node) (cands : List String) : Except EngineError (NextNode × EngineState) :=
  match CreateNodeInstance es.store [] (pendingRow env es.seq flowInstanceID prev vars node)
      (candidateRows env (es.seq + 1) (env.uuid es.seq) cands) with
  | (some err, _) => Except.error (EngineError.ErrTransient err)
  | (none, st1) =>
    Except.ok (taskEntry env es.seq node cands, { store := st1, seq := es.seq + 1 + cands.length })

/-- Modelled from the spec: the inflows of a node, as the query `SELECT * FROM
f_node_router WHERE deleted=0 AND target_node_id=?`. -/
def sqlNodeInflows (st : Store) (nodeID : String) : List NodeRouter :=
  st.routers.filter (fun r => r.deleted = 0 ∧ r.target_node_id = nodeID)

/-- Modelled from the spec: the pending node-instances of a flow-instance that
were created from the same node-instance as `ni`, its siblings of one fork, as
the query `SELECT * FROM f_node_instance WHERE deleted=0 AND status=1 AND
flow_instance_id=? AND prev_node_instance_id=?`. -/
def sqlPendingSiblings (st : Store) (flowInstanceID : String) (ni : NodeInstance) :
    List NodeInstance :=
  st.nodeInstances.filter (fun x => x.deleted = 0 ∧ x.status = 1 ∧
    x.flow_instance_id = flowInstanceID ∧ x.prev_node_instance_id = ni.prev_node_instance_id)

/-- Modelled from the spec: join semantics.  A `parallelGateway` on the target
side of several inflows waits until all sibling node-instances have reached it:
the siblings are the node-instances created from the same node-instance as the
one just processed (`prev`), one per outflow of the fork, and the join waits
while one of them is pending.  A gateway gets no row of its own. -/
def joinWaits (st : Store) (flowInstanceID prev : String) (target : Node) : Bool :=
  decide (target.type_code = "parallelGateway") &&
    decide (2 ≤ (sqlNodeInflows st target.record_id).length) &&
    (match (GetNodeInstance st none prev).1 with
      | none => false
      | some ni => !(sqlPendingSiblings st flowInstanceID ni).isEmpty)

/-- Modelled from the spec: the loop of `Advance` over the successors still to be
resolved, in order.  A `userTask` is persisted as pending and reported; an
`endEvent` ends its branch and is never persisted; a join that waits is
dropped; any other gateway is resolved at once, its own successors taking its
place.  One unit of `fuel` is spent per successor.

The flow-instance is marked `status=2`, and `IsEnd` set, by the step after the
iteration (`finishAdvance`), when no pending node-instance remains: the rule
"endEvent: mark FlowInstance.status=2, return IsEnd=true" is read together with
the lifecycle of the flow-instance (section 3: status 2 when no active
node-instance remains) and with invariant 1 of section 8, so that an end event
reached while a task of another branch is pending does not complete the
flow-instance; an end event reached with nothing pending does, at once. -/
def advanceAll (env : Env) (flowInstanceID prev vars : String) :
    Nat → EngineState → HandleResult → List NodeRouter →
      Except EngineError (HandleResult × EngineState)
  | _, es, acc, [] => Except.ok (acc, es)
  | 0, _, _, _ :: _ => Except.error EngineError.ErrFuel
  | fuel + 1, es, acc, r :: rest =>
    match (GetNode es.store none r.target_node_id).1 with
    | none => Except.error EngineError.ErrNodeNotFound
    | some target =>
      if target.type_code = "userTask" then
        match resolveCandidates env es.store vars target with
        | Except.error e => Except.error e
        | Except.ok cands =>
          match createPending env es flowInstanceID prev vars target cands with
          | Except.error e => Except.error e
          | Except.ok (next, es1) =>
            advanceAll env flowInstanceID prev vars fuel es1
              { acc with NextNodes := acc.NextNodes ++ [next] } rest
      else if target.type_code = "endEvent" then
        advanceAll env flowInstanceID prev vars fuel es acc rest
      else if joinWaits es.store flowInstanceID prev target then
        advanceAll env flowInstanceID prev vars fuel es acc rest
      else
        match selectRouters env es.store vars target with
        | Except.error e => Except.error e
        | Except.ok rs => advanceAll env flowInstanceID prev vars fuel es acc (rs ++ rest)

/-- Modelled from the spec: the step after the iteration of `Advance`: when no
pending node-instance remains for the flow-instance (`CheckFlowInstanceTodo` is
false), the flow-instance is set to `status=2` and `IsEnd` to true. -/
def finishAdvance (flowInstanceID : String) (r : HandleResult × EngineState) :
    Except EngineError (HandleResult × EngineState) :=
  match CheckFlowInstanceTodo r.2.store none flowInstanceID with
  | (_, some err) => Except.error (EngineError.ErrTransient err)
  | (true, none) => Except.ok r
  | (false, none) =>
    match UpdateFlowInstance r.2.store none flowInstanceID
        { status := some 2, deleted := none } with
    | (some err, _) => Except.error (EngineError.ErrTransient err)
    | (none, st1) => Except.ok ({ r.1 with IsEnd := true }, { r.2 with store := st1 })

/-- Modelled from the spec: `Advance(currentNode, vars, flowInstance,
prevNodeInstanceID)`.  An `endEvent` has no successor to resolve; from any
other node the routers selected by the branching policy are resolved in order;
in both cases the step after the iteration decides the end of the
flow-instance. -/
def Advance (env : Env) (fuel : Nat) (es : EngineState) (flowInstanceID prev vars : String)
    (currentNode : Node) : Except EngineError (HandleResult × EngineState) :=
  if currentNode.type_code = "endEvent" then
    finishAdvance flowInstanceID
      ({ IsEnd := false, NextNodes := [], flowInstanceID := flowInstanceID }, es)
  else
    match selectRouters env es.store vars currentNode with
    | Except.error e => Except.error e
    | Except.ok rs =>
      match advanceAll env flowInstanceID prev vars fuel es
          { IsEnd := false, NextNodes := [], flowInstanceID := flowInstanceID } rs with
      | Except.error e => Except.error e
      | Except.ok r => finishAdvance flowInstanceID r

/-- Modelled from the spec: the flow-instance of step 3 of `StartFlow`:
`launcher=userID, status=1`. -/
def startedFlowInstance (env : Env) (seq : Nat) (flow : Flow) (userID : String) : FlowInstance :=
  { id := 0, record_id := env.uuid seq, flow_id := flow.record_id, launcher := userID,
    launch_time := env.now, status := 1, created := env.now, deleted := 0 }

/-- Modelled from the spec: the start node-instance of step 4 of `StartFlow`:
`status=2, input_data=inputData, out_data=inputData, processor=userID`. -/
def startedNodeInstance (env : Env) (seq : Nat) (node : Node) (userID inputData : String) :
    NodeInstance :=
  { id := 0, record_id := env.uuid (seq + 1), flow_instance_id := env.uuid seq,
    node_id := node.record_id, prev_node_instance_id := "", input_data := inputData,
    out_data := inputData, processor := userID, process_time := env.now, status := 2,
    created := env.now, updated := env.now, deleted := 0 }

/-- Modelled from the spec: `StartFlow(flowCode, startNodeCode, userID,
inputData)` (section 4.5); the engine is not under `src/`, only the wrapper of
`flow.go` is.  An error leaves the store as it was. -/
def StartFlow (env : Env) (fuel : Nat) (es : EngineState)
    (flowCode nodeCode userID inputData : String) :
    Except EngineError (HandleResult × EngineState) :=
  match (GetFlowByCode es.store none flowCode).1 with
  | none => Except.error EngineError.ErrFlowNotFound
  | some flow =>
    match (GetNodeByCode es.store none flow.record_id nodeCode).1 with
    | none => Except.error EngineError.ErrNodeNotFound
    | some node =>
      match CreateFlowInstance es.store [] (startedFlowInstance env es.seq flow userID)
          [startedNodeInstance env es.seq node userID inputData] with
      | (some err, _) => Except.error (EngineError.ErrTransient err)
      | (none, st1) =>
        Advance env fuel { store := st1, seq := es.seq + 2 } (env.uuid es.seq)
          (env.uuid (es.seq + 1)) inputData node

/-- Modelled from the spec: the update of step 4 of `HandleFlow`: `status=2,
processor=userID, process_time=now, out_data=<merged>`. -/
def processedInfo (env : Env) (ni : NodeInstance) (userID inputData : String) :
    NodeInstanceInfo :=
  { input_data := none, out_data := some (env.mergeJSON ni.input_data inputData),
    processor := some userID, process_time := some env.now, status := some 2,
    updated := some env.now, deleted := none }

/-- Modelled from the spec: `HandleFlow(nodeInstanceID, userID, inputData)`
(section 4.5); the engine is not under `src/`, only the wrapper of `flow.go`
is.  An error leaves the store as it was. -/
def HandleFlow (env : Env) (fuel : Nat) (es : EngineState)
    (nodeInstanceID userID inputData : String) :
    Except EngineError (HandleResult × EngineState) :=
  match (GetNodeInstance es.store none nodeInstanceID).1 with
  | none => Except.error EngineError.ErrNodeInstanceNotActionable
  | some ni =>
    if ni.status ≠ 1 then Except.error EngineError.ErrNodeInstanceNotActionable
    else if userID ∉ (QueryNodeCandidates es.store none ni.record_id).1.map (·.candidate_id) then
      Except.error EngineError.ErrNotCandidate
    else
      match UpdateNodeInstance es.store none ni.record_id
          (processedInfo env ni userID inputData) with
      | (some err, _) => Except.error (EngineError.ErrTransient err)
      | (none, st1) =>
        match (GetNode st1 none ni.node_id).1, (GetFlowInstanceByNode st1 none ni.record_id).1 with
        | some node, some fi =>
          Advance env fuel { es with store := st1 } fi.record_id ni.record_id
            (env.mergeJSON ni.input_data inputData) node
        | _, _ => Except.error EngineError.ErrNodeNotFound

/-! ## Concrete flows -/

/-- A live router from `src` to `tgt` with the given guard. -/
def mkEdge (id : Int) (src tgt guard : String) : NodeRouter :=
  { id := id, record_id := src ++ ">" ++ tgt, source_node_id := src, target_node_id := tgt,
    expression := guard, explain := "", order_num := id, created := 1, deleted := 0 }

/-- A live assignment rule of node `nodeID`. -/
def mkRule (id : Int) (nodeID rule : String) : NodeAssignment :=
  { id := id, record_id := "a" ++ nodeID, node_id := nodeID, expression := rule, created := 1,
    deleted := 0 }

/-- A record-id generator: the `k`-th id is `k + 1` letters `i`. -/
def testUUID (k : Nat) : String := String.mk (List.replicate (k + 1) 'i')

/-- A fake `Execer` for the scenarios: the guards `day<=2` and `day>2` are
decided on the variable blobs `day=1` and `day=3`; an assignment rule is the
literal user id, except `bzr`, which names `T002`, and `fdy`, which names
`T003`; the merge keeps the incoming blob. -/
def testEnv : Env :=
  { evalGuard := fun guard vars =>
      if guard = "day<=2" then some (decide (vars = "day=1"))
      else if guard = "day>2" then some (decide (vars = "day=3"))
      else none
    evalCandidates := fun rule _ =>
      if rule = "bzr" then some ["T002"] else if rule = "fdy" then some ["T003"] else some [rule]
    mergeJSON := fun _ incoming => incoming
    uuid := testUUID
    now := 100 }

/-- The flow of scenario S5 with three branches: `s` → fork `fk` → user tasks
`t1`, `t2`, `t3` → join `jn` → end `e`, each task assigned to its own user. -/
def parallelStore : Store :=
  { Store.empty with
    flows := [mkFlow 1 "fp" "parallel" 1 1 1 0]
    nodes := [mkNode 1 "s" "fp" "startEvent", mkNode 2 "fk" "fp" "parallelGateway",
      mkNode 3 "t1" "fp" "userTask", mkNode 4 "t2" "fp" "userTask",
      mkNode 5 "t3" "fp" "userTask", mkNode 6 "jn" "fp" "parallelGateway",
      mkNode 7 "e" "fp" "endEvent"]
    routers := [mkEdge 1 "s" "fk" "", mkEdge 2 "fk" "t1" "", mkEdge 3 "fk" "t2" "",
      mkEdge 4 "fk" "t3" "", mkEdge 5 "t1" "jn" "", mkEdge 6 "t2" "jn" "",
      mkEdge 7 "t3" "jn" "", mkEdge 8 "jn" "e" ""]
    assignments := [mkRule 1 "t1" "H001", mkRule 2 "t2" "H002", mkRule 3 "t3" "H003"] }

/-- The leave flow of scenario S1: `s` → user task `bzr` → exclusive gateway
`gw`, from which `day<=2` leads to the end `e` and `day>2` to the user task
`fdy`, which leads to `e`. -/
def leaveStore : Store :=
  { Store.empty with
    flows := [mkFlow 1 "fl" "leave" 1 1 1 0]
    nodes := [mkNode 1 "s" "fl" "startEvent", mkNode 2 "bzr" "fl" "userTask",
      mkNode 3 "gw" "fl" "exclusiveGateway", mkNode 4 "fdy" "fl" "userTask",
      mkNode 5 "e" "fl" "endEvent"]
    routers := [mkEdge 1 "s" "bzr" "", mkEdge 2 "bzr" "gw" "", mkEdge 3 "gw" "e" "day<=2",
      mkEdge 4 "gw" "fdy" "day>2", mkEdge 5 "fdy" "e" ""]
    assignments := [mkRule 1 "bzr" "bzr", mkRule 2 "fdy" "fdy"] }

/-- A flow whose two parallel branches end apart: `s` → fork `fk` → user tasks
`a` and `b`, `a` leading to the end `e1` and `b` to the end `e2`. -/
def twoEndsStore : Store :=
  { Store.empty with
    flows := [mkFlow 1 "f2e" "twoends" 1 1 1 0]
    nodes := [mkNode 1 "s" "f2e" "startEvent", mkNode 2 "fk" "f2e" "parallelGateway",
      mkNode 3 "a" "f2e" "userTask", mkNode 4 "b" "f2e" "userTask",
      mkNode 5 "e1" "f2e" "endEvent", mkNode 6 "e2" "f2e" "endEvent"]
    routers := [mkEdge 1 "s" "fk" "", mkEdge 2 "fk" "a" "", mkEdge 3 "fk" "b" "",
      mkEdge 4 "a" "e1" "", mkEdge 5 "b" "e2" ""]
    assignments := [mkRule 1 "a" "U1", mkRule 2 "b" "U2"] }

/-- The state of the engine after a call, or the state before it when the call
fails. -/
def stateAfter (es : EngineState) (r : Except EngineError (HandleResult × EngineState)) :
    EngineState :=
  match r with
  | Except.ok (_, es1) => es1
  | Except.error _ => es

/-- The `IsEnd` flag of a call, `none` when the call fails. -/
def isEndOf (r : Except EngineError (HandleResult × EngineState)) : Option Bool :=
  match r with
  | Except.ok (res, _) => some res.IsEnd
  | Except.error _ => none

/-- The next nodes of a call, empty when the call fails. -/
def nextNodesOf (r : Except EngineError (HandleResult × EngineState)) : List NextNode :=
  match r with
  | Except.ok (res, _) => res.NextNodes
  | Except.error _ => []

/-- The engine on `twoEndsStore` after `StartFlow`: the tasks `a` (node-instance
`iii`, candidate `U1`) and `b` (node-instance `iiiii`, candidate `U2`) are
pending in the flow-instance `i`. -/
def twoEndsStarted : EngineState :=
  stateAfter { store := twoEndsStore, seq := 0 }
    (StartFlow testEnv 10 { store := twoEndsStore, seq := 0 } "twoends" "s" "T001" "x")

/-- The engine on `twoEndsStarted` after `U1` has passed the task `a`: the branch
of `a` has reached the end event `e1`, the task `b` is still pending. -/
def twoEndsHandled : EngineState :=
  stateAfter twoEndsStarted (HandleFlow testEnv 10 twoEndsStarted "iii" "U1" "x")

/-- The flow-instance `flowInstanceID` is completed: a live row carries the id,
and every row that carries it has `status=2`. -/
def Completed (flowInstanceID : String) (st : Store) : Prop :=
  (∃ fi ∈ st.flowInstances, fi.deleted = 0 ∧ fi.record_id = flowInstanceID) ∧
    ∀ fi ∈ st.flowInstances, fi.record_id = flowInstanceID → fi.status = 2

/-- The number written by the decimal digits at the head of `cs`, continuing
`acc`. -/
def leadingNat : List Char → Nat → Nat
  | [], acc => acc
  | c :: cs, acc => if c.isDigit then leadingNat cs (10 * acc + (c.toNat - 48)) else acc

/-- The variable `day` of a blob written `day=<digits>...`; `none` for a blob
that is not written so. -/
def dayOf (vars : String) : Option Nat :=
  match vars.data with
  | 'd' :: 'a' :: 'y' :: '=' :: c :: cs =>
    if c.isDigit then some (leadingNat (c :: cs) 0) else none
  | _ => none

/-- A fake `Execer` for the leave flow, which reads the variable `day` of the
blob: the guard `day<=2` is true when `day` is at most 2 and `day>2` when it is
greater, and neither evaluates on a blob without `day`; the merge keeps the
incoming blob when it sets `day` and the prior one otherwise; the assignment
rules, the record ids and the clock are those of `testEnv`. -/
def leaveEnv : Env :=
  { testEnv with
    evalGuard := fun guard vars =>
      if guard = "day<=2" then (dayOf vars).map (fun d => decide (d ≤ 2))
      else if guard = "day>2" then (dayOf vars).map (fun d => decide (2 < d))
      else none
    mergeJSON := fun prior incoming => if (dayOf incoming).isSome then incoming else prior }

/-- The engine on `leaveStore` after `StartFlow` by `T001` with `day=1`: the
task `bzr` (node-instance `iii`, candidate `T002`) is pending in the
flow-instance `i`. -/
def leaveStarted : EngineState :=
  stateAfter { store := leaveStore, seq := 0 }
    (StartFlow leaveEnv 10 { store := leaveStore, seq := 0 } "leave" "s" "T001" "day=1")

/-- The engine on `leaveStore` after `StartFlow` by `T001` with `day=3`. -/
def leaveStartedLong : EngineState :=
  stateAfter { store := leaveStore, seq := 0 }
    (StartFlow leaveEnv 10 { store := leaveStore, seq := 0 } "leave" "s" "T001" "day=3")

/-- The leave flow of scenario S1 as the engine sees it through the repository:
the start node found by its code leads, by one unguarded router, to the user
task of the approver; the assignment rules of the task resolve to the one
candidate `approver`; the task leads, by one unguarded router, to an exclusive
gateway; the first router of the gateway, in order, is `pass`, guarded by
`day<=2`, and leads to the end event; `more` are the other routers of the
gateway. -/
structure LeaveShape (env : Env) (st : Store) (flowCode nodeCode : String) (flow : Flow)
    (start task gate stop : Node) (approver : String) (pass : NodeRouter)
    (more : List NodeRouter) : Prop where
  flow_found : (GetFlowByCode st none flowCode).1 = some flow
  start_found : (GetNodeByCode st none flow.record_id nodeCode).1 = some start
  start_kind : start.type_code = "startEvent"
  start_out : ∃ r, routersInOrder st start.record_id = [r] ∧ r.expression = "" ∧
    r.target_node_id = task.record_id
  task_found : (GetNode st none task.record_id).1 = some task
  task_kind : task.type_code = "userTask"
  task_user : ∀ vars, resolveCandidates env st vars task = Except.ok [approver]
  task_out : ∃ r, routersInOrder st task.record_id = [r] ∧ r.expression = "" ∧
    r.target_node_id = gate.record_id
  gate_found : (GetNode st none gate.record_id).1 = some gate
  gate_kind : gate.type_code = "exclusiveGateway"
  gate_out : routersInOrder st gate.record_id = pass :: more
  pass_guard : pass.expression = "day<=2"
  pass_target : pass.target_node_id = stop.record_id
  stop_found : (GetNode st none stop.record_id).1 = some stop
  stop_kind : stop.type_code = "endEvent"

/-! ## The fork and join shape -/

/-- A flow of the shape start, parallel fork, `n` user tasks, parallel join,
end, as the engine sees it through the repository: the start node found by its
code leads, by one unguarded router, to the fork; the fork has one inflow and
`n` outflows, to the user tasks `task 0`, ..., `task (n-1)`; the assignment
rules of `task i` resolve to the one candidate `user i`; each task leads, by one
unguarded router, to the join; the join has `n` inflows and one outflow, to the
end event. -/
structure ForkJoinShape (env : Env) (st : Store) (n : Nat) (flowCode nodeCode : String)
    (flow : Flow) (start fork join stop : Node) (task : Nat → Node) (user : Nat → String) :
    Prop where
  flow_found : (GetFlowByCode st none flowCode).1 = some flow
  start_found : (GetNodeByCode st none flow.record_id nodeCode).1 = some start
  start_kind : start.type_code = "startEvent"
  start_out : ∃ r, routersInOrder st start.record_id = [r] ∧ r.expression = "" ∧
    r.target_node_id = fork.record_id
  fork_found : (GetNode st none fork.record_id).1 = some fork
  fork_kind : fork.type_code = "parallelGateway"
  fork_inflows : (sqlNodeInflows st fork.record_id).length < 2
  fork_out : (routersInOrder st fork.record_id).map (·.target_node_id) =
    (List.range n).map (fun i => (task i).record_id)
  task_found : ∀ i, i < n → (GetNode st none (task i).record_id).1 = some (task i)
  task_kind : ∀ i, i < n → (task i).type_code = "userTask"
  task_user : ∀ i, i < n → ∀ vars, resolveCandidates env st vars (task i) = Except.ok [user i]
  task_out : ∀ i, i < n → ∃ r, routersInOrder st (task i).record_id = [r] ∧ r.expression = "" ∧
    r.target_node_id = join.record_id
  join_found : (GetNode st none join.record_id).1 = some join
  join_kind : join.type_code = "parallelGateway"
  join_inflows : (sqlNodeInflows st join.record_id).length = n
  join_out : ∃ r, routersInOrder st join.record_id = [r] ∧ r.target_node_id = stop.record_id
  stop_found : (GetNode st none stop.record_id).1 = some stop
  stop_kind : stop.type_code = "endEvent"

/-- The record ids the engine mints from `seq` on are new to the node-instance
table: no row carries one as its record id or as its flow-instance id. -/
def FreshIDs (env : Env) (es : EngineState) : Prop :=
  ∀ ni ∈ es.store.nodeInstances, ∀ k, es.seq ≤ k →
    ni.record_id ≠ env.uuid k ∧ ni.flow_instance_id ≠ env.uuid k

/-- The node-instance `row` is the pending row of the next node `x`, in the
flow-instance `fid`, created from the node-instance `sid`. -/
def IsPendingRow (fid sid : String) (x : NextNode) (row : NodeInstance) : Prop :=
  row.record_id = x.nodeInstanceID ∧ row.deleted = 0 ∧ row.status = 1 ∧
    row.flow_instance_id = fid ∧ row.node_id = x.nodeID ∧ row.prev_node_instance_id = sid

/-- The calls of `HandleFlow` on the next nodes of a list, one after another,
each by the first candidate of the node, with the `IsEnd` flag of each call
(`none` for a call that fails). -/
def handleEach (env : Env) (fuel : Nat) (input : NextNode → String) :
    EngineState → List NextNode → List (Option Bool)
  | _, [] => []
  | es, x :: rest =>
    isEndOf (HandleFlow env fuel es x.nodeInstanceID (x.candidateIDs.headD "") (input x)) ::
      handleEach env fuel input
        (stateAfter es
          (HandleFlow env fuel es x.nodeInstanceID (x.candidateIDs.headD "") (input x))) rest

/-- What the engine has done between the states `es0` and `es1` when it has
persisted the next nodes `entries` as pending: one row per entry appended to the
node-instance table, under record ids minted in increasing order, with a
candidate row for the first candidate of each entry, and no other table
touched. -/
structure TasksCreated (env : Env) (fid sid : String) (es0 es1 : EngineState)
    (entries : List NextNode) : Prop where
  rows : ∃ rows, List.Forall₂ (IsPendingRow fid sid) entries rows ∧
    es1.store.nodeInstances = es0.store.nodeInstances ++ rows
  ids : ∃ ks : List Nat, entries.map (·.nodeInstanceID) = ks.map env.uuid ∧
    ks.Pairwise (· < ·) ∧ ∀ k ∈ ks, es0.seq ≤ k ∧ k < es1.seq
  seq_le : es0.seq ≤ es1.seq
  cands_keep : ∀ c ∈ es0.store.candidates, c ∈ es1.store.candidates
  cands_new : ∀ x ∈ entries, ∃ c ∈ es1.store.candidates,
    c.deleted = 0 ∧ c.node_instance_id = x.nodeInstanceID ∧
      c.candidate_id = x.candidateIDs.headD ""
  nodes_eq : es1.store.nodes = es0.store.nodes
  routers_eq : es1.store.routers = es0.store.routers
  assignments_eq : es1.store.assignments = es0.store.assignments
  flowInstances_eq : es1.store.flowInstances = es0.store.flowInstances

/-- The state of a flow-instance `fid` of the shape between two calls of
`HandleFlow`: the definition tables are those of `st`, the flow-instance is
live, and the pending node-instances of `fid` are exactly the rows of the next
nodes `P`, each the pending row of a user task of the shape, created from the
node-instance `sid`, with its candidate. -/
structure TasksPending (env : Env) (st : Store) (n : Nat) (task : Nat → Node)
    (user : Nat → String) (fid sid : String) (es : EngineState) (P : List NextNode) : Prop where
  nodes_eq : es.store.nodes = st.nodes
  routers_eq : es.store.routers = st.routers
  flow_instance : ∃ fi ∈ es.store.flowInstances, fi.deleted = 0 ∧ fi.record_id = fid
  entry : ∀ x ∈ P, ∃ i, i < n ∧ x.nodeID = (task i).record_id ∧ x.candidateIDs = [user i]
  row_exists : ∀ x ∈ P, ∃ row ∈ es.store.nodeInstances, row.record_id = x.nodeInstanceID
  row_pending : ∀ x ∈ P, ∀ row ∈ es.store.nodeInstances,
    row.record_id = x.nodeInstanceID → IsPendingRow fid sid x row
  candidate : ∀ x ∈ P, ∃ c ∈ es.store.candidates,
    c.deleted = 0 ∧ c.node_instance_id = x.nodeInstanceID ∧
      c.candidate_id = x.candidateIDs.headD ""
  only_pending : ∀ row ∈ es.store.nodeInstances,
    row.deleted = 0 → row.status = 1 → row.flow_instance_id = fid →
      ∃ x ∈ P, row.record_id = x.nodeInstanceID
  ids_nodup : (P.map (·.nodeInstanceID)).Nodup
  count_le : P.length ≤ n

/-- The user tasks of `parallelStore`, by position. -/
def parallelTask (i : Nat) : Node :=
  match i with
  | 0 => mkNode 3 "t1" "fp" "userTask"
  | 1 => mkNode 4 "t2" "fp" "userTask"
  | _ => mkNode 5 "t3" "fp" "userTask"

/-- The candidates of the user tasks of `parallelStore`, by position. -/
def parallelUser (i : Nat) : String :=
  match i with
  | 0 => "H001"
  | 1 => "H002"
  | _ => "H003"

/-- The engine on `parallelStore` after `StartFlow`: the tasks `t1`, `t2`, `t3`
are pending under the node-instances `iii`, `iiiii`, `iiiiiii`. -/
def parallelStarted : EngineState :=
  stateAfter { store := parallelStore, seq := 0 }
    (StartFlow testEnv 10 { store := parallelStore, seq := 0 } "parallel" "s" "H000" "form")

/-! ## Theorems -/

/-- Claim C1, as stated, fails: on a store whose two live routers out of `n1`
were inserted with order numbers 2 and then 1 (primary keys 1 and 2),
`QueryNodeRouters`, whose statement has no `ORDER BY`, lists them as the table
holds them, order numbers `[2, 1]`, which is not ascending. -/
theorem QueryNodeRouters_not_ordered_by_order_num :
    (QueryNodeRouters routerStore none "n1").2 = none ∧
    (QueryNodeRouters routerStore none "n1").1.map (·.order_num) = [2, 1] ∧
    ¬ ((QueryNodeRouters routerStore none "n1").1.map (·.order_num)).Sorted (· ≤ ·) := by
  refine ⟨rfl, by decide, ?_⟩
  have h : (QueryNodeRouters routerStore none "n1").1.map (·.order_num) = [2, 1] := by decide
  rw [h]
  decide

/-- Claim C1, amended: when its statement goes through, `QueryNodeRouters`
returns no error and exactly the live (deleted=0) routers whose source_node_id
is the given node, each as often as the router table holds it; nothing is said
of the order of the list. -/
theorem QueryNodeRouters_exactly_live_routers (st : Store) (sourceNodeID : String) :
    (QueryNodeRouters st none sourceNodeID).2 = none ∧
    (∀ r, r ∈ (QueryNodeRouters st none sourceNodeID).1 ↔
      r ∈ st.routers ∧ r.deleted = 0 ∧ r.source_node_id = sourceNodeID) ∧
    (∀ r, (QueryNodeRouters st none sourceNodeID).1.count r =
      if r.deleted = 0 ∧ r.source_node_id = sourceNodeID then st.routers.count r else 0) := by
  refine ⟨rfl, fun r => ?_, fun r => ?_⟩
  · simp [QueryNodeRouters, dbSelect, sqlNodeRouters]
  · show (st.routers.filter _).count r = _
    by_cases h : r.deleted = 0 ∧ r.source_node_id = sourceNodeID
    · rw [if_pos h, List.count_filter]
      simpa using h
    · rw [if_neg h]
      refine List.count_eq_zero.2 fun hm => h ?_
      simpa using (List.mem_filter.1 hm).2

/-- Claim C2, the code at the failing input: when `Begin` succeeds, the
`INSERT` of the node-instance fails and the `Rollback` succeeds,
`CreateNodeInstance` returns a nil error, whatever the store and the rows; so
does `CreateFlowInstance` when the `INSERT` of the flow-instance fails. -/
theorem CreateNodeInstance_failed_insert_returns_nil (st : Store) (e : Error)
    (nodeInstance : NodeInstance) (nodeCandidates : List NodeCandidate)
    (flowInstance : FlowInstance) (nodeInstances : List NodeInstance) :
    (CreateNodeInstance st [none, some e] nodeInstance nodeCandidates).1 = none ∧
    (CreateFlowInstance st [none, some e] flowInstance nodeInstances).1 = none := by
  constructor
  · simp [CreateNodeInstance, dbBegin, Tx.Insert, rollbackAfterInsert, Tx.Rollback, Wrapf]
  · simp [CreateFlowInstance, dbBegin, Tx.Insert, rollbackAfterInsert, Tx.Rollback, Wrapf]

/-- Claim C9, the code at the failing input: on the empty store,
`CreateNodeInstance` whose second `INSERT` (the candidate) fails and
`CreateFlowInstance` whose second `INSERT` (the node-instance) fails both
return a nil error and leave the store empty, so that no error is returned and
yet none of the rows passed to the call is stored. -/
theorem CreateNodeInstance_reports_success_without_rows :
    CreateNodeInstance Store.empty secondInsertFails (mkNodeInstance 0 "ni1" 1 0 0)
      [mkCandidate 0 "c1" "ni1" "T002"] = (none, Store.empty) ∧
    CreateFlowInstance Store.empty secondInsertFails (mkFlowInstance 0 "fi1" "f1")
      [mkNodeInstance 0 "ni1" 1 0 0] = (none, Store.empty) ∧
    CreateNodeInstance Store.empty firstInsertFails (mkNodeInstance 0 "ni1" 1 0 0)
      [mkCandidate 0 "c1" "ni1" "T002"] = (none, Store.empty) := by
  refine ⟨?_, ?_, ?_⟩
  · simp [CreateNodeInstance, CreateNodeInstance.loop, secondInsertFails, dbBegin, Tx.Insert,
      rollbackAfterInsert, Tx.Rollback, Wrapf]
  · simp [CreateFlowInstance, CreateFlowInstance.loop, secondInsertFails, dbBegin, Tx.Insert,
      rollbackAfterInsert, Tx.Rollback, Wrapf]
  · simp [CreateNodeInstance, firstInsertFails, dbBegin, Tx.Insert,
      rollbackAfterInsert, Tx.Rollback, Wrapf]

/-- Claim C3, as stated, fails: on a node-instance whose status is already 2
the update reports success and rewrites the row; on a record id no row carries
it reports success too; and of two successive attempts to mark the pending
node-instance `ni1` processed, the second is accepted and overwrites the
processor the first one wrote. -/
theorem UpdateNodeInstance_not_compare_and_set :
    (UpdateNodeInstance processedStore none "ni1" (markProcessed "T003" 99)).1 = none ∧
    (UpdateNodeInstance processedStore none "ni1" (markProcessed "T003" 99)).2 ≠ processedStore ∧
    (UpdateNodeInstance processedStore none "absent" (markProcessed "T003" 99)).1 = none ∧
    (UpdateNodeInstance (UpdateNodeInstance pendingStore none "ni1" (markProcessed "T002" 60)).2
      none "ni1" (markProcessed "T003" 99)).1 = none ∧
    ((UpdateNodeInstance (UpdateNodeInstance pendingStore none "ni1" (markProcessed "T002" 60)).2
      none "ni1" (markProcessed "T003" 99)).2.nodeInstances.map (·.processor)) = ["T003"] := by
  refine ⟨rfl, by decide, rfl, rfl, by decide⟩

/-- Claim C3, amended: `UpdateNodeInstance` is an update keyed on record_id
alone.  For every store, when the statement goes through it reports success,
sets the given fields on every node-instance row carrying that record_id,
whatever the status of the row, and leaves every other row and table as it was
(so the store is unchanged when no row carries the record_id); a second
attempt on the resulting store reports success as well. -/
theorem UpdateNodeInstance_keyed_on_record_id_only (st : Store) (recordID : String)
    (info : NodeInstanceInfo) :
    (UpdateNodeInstance st none recordID info).1 = none ∧
    (UpdateNodeInstance st none recordID info).2 =
      { st with nodeInstances :=
          st.nodeInstances.map (fun r => if r.record_id = recordID then info.set r else r) } ∧
    ((∀ r ∈ st.nodeInstances, r.record_id ≠ recordID) →
      (UpdateNodeInstance st none recordID info).2 = st) ∧
    (UpdateNodeInstance (UpdateNodeInstance st none recordID info).2 none recordID info).1
      = none := by
  refine ⟨rfl, rfl, fun h => ?_, rfl⟩
  have hmap : st.nodeInstances.map (fun r => if r.record_id = recordID then info.set r else r)
      = st.nodeInstances := by
    conv_rhs => rw [← List.map_id st.nodeInstances]
    apply List.map_congr_left
    intro r hr
    simp [h r hr]
  simp [UpdateNodeInstance, dbUpdateNodeInstanceByPK, hmap]

/-- Witness for C3: on the store whose only node-instance is `ni1`, no row
carries the record id `absent`, and the update leaves the store unchanged. -/
theorem UpdateNodeInstance_keyed_on_record_id_only_witness :
    (UpdateNodeInstance processedStore none "absent" (markProcessed "T003" 99)).2
      = processedStore :=
  (UpdateNodeInstance_keyed_on_record_id_only processedStore "absent"
    (markProcessed "T003" 99)).2.2.1 (by decide)

/-- Claim C4: when the count query goes through, `CheckFlowInstanceTodo`
returns no error, and returns true if and only if the store holds a live
(deleted=0) node-instance with status=1 whose flow_instance_id is the given
id. -/
theorem CheckFlowInstanceTodo_iff_pending_exists (st : Store) (flowInstanceID : String) :
    (CheckFlowInstanceTodo st none flowInstanceID).2 = none ∧
    ((CheckFlowInstanceTodo st none flowInstanceID).1 = true ↔
      ∃ ni ∈ st.nodeInstances,
        ni.deleted = 0 ∧ ni.status = 1 ∧ ni.flow_instance_id = flowInstanceID) := by
  refine ⟨rfl, ?_⟩
  simp only [CheckFlowInstanceTodo, dbSelectInt, sqlCountTodo, decide_eq_true_eq]
  rw [gt_iff_lt, Int.natCast_pos, List.length_pos_iff_exists_mem]
  simp [List.mem_filter]

/-! ### Ordering lemmas -/

/-- The first row of an `ORDER BY` result stands before every row of the
input. -/
theorem head_insertionSort_le {α : Type} (r : α → α → Prop) [DecidableRel r] [IsTotal α r]
    [IsTrans α r] (l : List α) (a : α) (t : List α) (h : l.insertionSort r = a :: t) :
    a ∈ l ∧ ∀ b ∈ l, r a b := by
  have hs : (a :: t).Sorted r := h ▸ List.sorted_insertionSort r l
  have hmem : ∀ b, b ∈ l ↔ b ∈ a :: t := fun b => by rw [← h, List.mem_insertionSort]
  refine ⟨(hmem a).2 (List.mem_cons_self a t), fun b hb => ?_⟩
  rcases List.mem_cons.1 ((hmem b).1 hb) with rfl | hbt
  · exact (IsTotal.total b b).elim id id
  · exact List.rel_of_sorted_cons hs b hbt

/-- Claim C5: when its statement goes through, `GetFlowByCode` returns no
error; the flow it returns is a row with the given code, flag=1, status=1 and
deleted=0 whose version is at least that of every such row; and it returns no
flow exactly when the store holds no such row. -/
theorem GetFlowByCode_greatest_version (st : Store) (code : String) :
    (GetFlowByCode st none code).2 = none ∧
    (∀ f, (GetFlowByCode st none code).1 = some f →
      (f ∈ st.flows ∧ f.deleted = 0 ∧ f.flag = 1 ∧ f.status = 1 ∧ f.code = code) ∧
      ∀ g ∈ st.flows, g.deleted = 0 ∧ g.flag = 1 ∧ g.status = 1 ∧ g.code = code →
        g.version ≤ f.version) ∧
    ((GetFlowByCode st none code).1 = none ↔
      ∀ g ∈ st.flows, ¬ (g.deleted = 0 ∧ g.flag = 1 ∧ g.status = 1 ∧ g.code = code)) := by
  generalize hl : st.flows.filter
    (fun f => f.deleted = 0 ∧ f.flag = 1 ∧ f.status = 1 ∧ f.code = code) = l
  have hmem : ∀ g, g ∈ l ↔
      g ∈ st.flows ∧ g.deleted = 0 ∧ g.flag = 1 ∧ g.status = 1 ∧ g.code = code := by
    intro g
    rw [← hl]
    simp [List.mem_filter]
  cases hsort : l.insertionSort (fun a b => b.version ≤ a.version) with
  | nil =>
    have hnil : l = [] := by
      have := List.length_insertionSort (fun a b : Flow => b.version ≤ a.version) l
      rw [hsort] at this
      exact List.length_eq_zero.1 this.symm
    have hres : GetFlowByCode st none code = (none, none) := by
      unfold GetFlowByCode sqlFlowByCode
      rw [hl, hsort]
      rfl
    rw [hres]
    refine ⟨rfl, fun f hf => by simp at hf, ?_⟩
    simp only [true_iff]
    intro g hg hc
    have : g ∈ l := (hmem g).2 ⟨hg, hc⟩
    simp [hnil] at this
  | cons a t =>
    have hres : GetFlowByCode st none code = (some a, none) := by
      unfold GetFlowByCode sqlFlowByCode
      rw [hl, hsort]
      rfl
    obtain ⟨ha, hmax⟩ := head_insertionSort_le _ l a t hsort
    rw [hres]
    refine ⟨rfl, fun f hf => ?_, ?_⟩
    · have hfa : a = f := by simpa using hf
      subst hfa
      exact ⟨(hmem a).1 ha, fun g hg hc => hmax g ((hmem g).2 ⟨hg, hc⟩)⟩
    · simp only [false_iff, reduceCtorEq]
      intro hall
      exact hall a ((hmem a).1 ha).1 ((hmem a).1 ha).2

/-- Witness for C5: of the live, active, enabled rows of code `leave`, versions
1 and 2, `GetFlowByCode` returns one of version at least 2. -/
theorem GetFlowByCode_greatest_version_witness :
    (GetFlowByCode { Store.empty with flows :=
        [mkFlow 1 "f1" "leave" 1 1 1 0, mkFlow 2 "f2" "leave" 2 1 1 0] } none "leave").1
      = some (mkFlow 2 "f2" "leave" 2 1 1 0) ∧
    (2 : Int) ≤ (mkFlow 2 "f2" "leave" 2 1 1 0).version :=
  ⟨by decide,
    ((GetFlowByCode_greatest_version { Store.empty with flows :=
        [mkFlow 1 "f1" "leave" 1 1 1 0, mkFlow 2 "f2" "leave" 2 1 1 0] } "leave").2.1
      (mkFlow 2 "f2" "leave" 2 1 1 0) (by decide)).2
      (mkFlow 2 "f2" "leave" 2 1 1 0) (by decide) (by decide)⟩

/-- The joined rows of `QueryHistory` are the pairs of a live node-instance of
the flow-instance and a live `userTask` node it stands on. -/
theorem mem_sqlHistoryFrom (st : Store) (flowInstanceID : String) (ni : NodeInstance) (n : Node) :
    (ni, n) ∈ sqlHistoryFrom st flowInstanceID ↔
      ni ∈ st.nodeInstances ∧ n ∈ st.nodes ∧ ni.node_id = n.record_id ∧ ni.deleted = 0 ∧
        n.deleted = 0 ∧ ni.flow_instance_id = flowInstanceID ∧ n.type_code = "userTask" := by
  simp only [sqlHistoryFrom, List.mem_filter, List.mem_flatMap, List.mem_map, Prod.mk.injEq,
    decide_eq_true_eq]
  constructor
  · rintro ⟨⟨ni1, hni, n1, ⟨hn, hid, hdel⟩, rfl, rfl⟩, hd, hf, ht⟩
    exact ⟨hni, hn, hid, hd, hdel.trans hd, hf, ht⟩
  · rintro ⟨hni, hn, hid, hd, hnd, hf, ht⟩
    exact ⟨⟨ni, hni, n, ⟨hn, hid, hnd.trans hd.symm⟩, rfl, rfl⟩, hd, hf, ht⟩

/-- The join of `QueryHistory` has, for each live node-instance of the
flow-instance, one row per live `userTask` node of its node_id. -/
theorem sqlHistoryFrom_length (st : Store) (flowInstanceID : String) :
    (sqlHistoryFrom st flowInstanceID).length =
      ((st.nodeInstances.filter
        (fun ni => ni.deleted = 0 ∧ ni.flow_instance_id = flowInstanceID)).map
          (fun ni => (st.nodes.filter (fun n => n.record_id = ni.node_id ∧ n.deleted = 0 ∧
            n.type_code = "userTask")).length)).sum := by
  have key : ∀ ni : NodeInstance,
      (((st.nodes.filter (fun n => ni.node_id = n.record_id ∧ n.deleted = ni.deleted)).map
        fun n => (ni, n)).filter (fun j => j.1.deleted = 0 ∧
          j.1.flow_instance_id = flowInstanceID ∧ j.2.type_code = "userTask")).length =
      if ni.deleted = 0 ∧ ni.flow_instance_id = flowInstanceID then
        (st.nodes.filter (fun n => n.record_id = ni.node_id ∧ n.deleted = 0 ∧
          n.type_code = "userTask")).length
      else 0 := by
    intro ni
    rw [List.filter_map, List.length_map, List.filter_filter]
    split
    · next h =>
      congr 1
      refine List.filter_congr fun n _ => ?_
      rw [Bool.eq_iff_iff]
      simp only [Function.comp, Bool.and_eq_true, decide_eq_true_eq]
      constructor
      · rintro ⟨⟨_, _, c⟩, a, b⟩
        exact ⟨a.symm, b.trans h.1, c⟩
      · rintro ⟨a, b, c⟩
        exact ⟨⟨h.1, h.2, c⟩, a.symm, b.trans h.1.symm⟩
    · next h =>
      rw [List.length_eq_zero]
      refine List.filter_eq_nil_iff.2 fun n _ => ?_
      simp only [Function.comp, Bool.and_eq_true, decide_eq_true_eq]
      rintro ⟨⟨a, b, _⟩, _⟩
      exact h ⟨a, b⟩
  unfold sqlHistoryFrom
  induction st.nodeInstances with
  | nil => rfl
  | cons ni l ih =>
    rw [List.flatMap_cons, List.filter_append, List.length_append, ih, key ni]
    by_cases h : ni.deleted = 0 ∧ ni.flow_instance_id = flowInstanceID
    · rw [if_pos h, List.filter_cons_of_pos (by simpa using h), List.map_cons, List.sum_cons]
    · rw [if_neg h, List.filter_cons_of_neg (by simpa using h), Nat.zero_add]

/-- Claim C10: when its statement goes through, `QueryHistory` returns no
error; its rows are exactly the rows carrying the record_id, processor,
process_time, out_data and status of a live node-instance of the flow-instance
and the code and name of the live `userTask` node it stands on, one row for each
such pair; and of two rows of the list the earlier one has the greater status
or, the status being equal, a process_time that is not later. -/
theorem QueryHistory_status_desc_process_time_asc (st : Store) (flowInstanceID : String) :
    (QueryHistory st none flowInstanceID).2 = none ∧
    (∀ r, r ∈ (QueryHistory st none flowInstanceID).1 ↔
      ∃ ni ∈ st.nodeInstances, ∃ n ∈ st.nodes,
        ni.node_id = n.record_id ∧ ni.deleted = 0 ∧ n.deleted = 0 ∧
        ni.flow_instance_id = flowInstanceID ∧ n.type_code = "userTask" ∧
        r.record_id = ni.record_id ∧ r.processor = ni.processor ∧
        r.process_time = ni.process_time ∧ r.out_data = ni.out_data ∧ r.status = ni.status ∧
        r.node_code = n.code ∧ r.node_name = n.name) ∧
    (QueryHistory st none flowInstanceID).1.length =
      ((st.nodeInstances.filter
        (fun ni => ni.deleted = 0 ∧ ni.flow_instance_id = flowInstanceID)).map
          (fun ni => (st.nodes.filter (fun n => n.record_id = ni.node_id ∧ n.deleted = 0 ∧
            n.type_code = "userTask")).length)).sum ∧
    (QueryHistory st none flowInstanceID).1.Pairwise
      (fun a b => b.status < a.status ∨ (a.status = b.status ∧ a.process_time ≤ b.process_time)) := by
  have hres : (QueryHistory st none flowInstanceID).1 =
      ((sqlHistoryFrom st flowInstanceID).insertionSort historyOrder).map historySelect := rfl
  refine ⟨rfl, fun r => ?_, ?_, ?_⟩
  · rw [hres]
    simp only [List.mem_map, List.mem_insertionSort]
    constructor
    · rintro ⟨⟨ni, n⟩, hj, rfl⟩
      obtain ⟨h1, h2, h3, h4, h5, h6, h7⟩ := (mem_sqlHistoryFrom st flowInstanceID ni n).1 hj
      exact ⟨ni, h1, n, h2, h3, h4, h5, h6, h7, rfl, rfl, rfl, rfl, rfl, rfl, rfl⟩
    · rintro ⟨ni, h1, n, h2, h3, h4, h5, h6, h7, e1, e2, e3, e4, e5, e6, e7⟩
      refine ⟨(ni, n), (mem_sqlHistoryFrom st flowInstanceID ni n).2 ⟨h1, h2, h3, h4, h5, h6, h7⟩, ?_⟩
      cases r
      simp only [historySelect] at *
      simp only [e1, e2, e3, e4, e5, e6, e7]
  · rw [hres, List.length_map, List.length_insertionSort]
    exact sqlHistoryFrom_length st flowInstanceID
  · rw [hres, List.pairwise_map]
    exact List.sorted_insertionSort historyOrder _

/-- Claim C10 on the store `historyStore`: of the six node-instances the list
holds the three live ones of `fi1` that stand on a live `userTask` node, with
their own columns and the code and name of their node, the processed ones
(status 2) by ascending process_time before the pending one (status 1). -/
theorem QueryHistory_status_desc_process_time_asc_witness :
    (QueryHistory historyStore none "fi1").1 =
      [historyRow "ni3" "T003" 10 "back" 2 "fdy" "辅导员审批",
       historyRow "ni1" "T002" 30 "pass" 2 "bzr" "班主任审批",
       historyRow "ni2" "" 0 "" 1 "fdy" "辅导员审批"] ∧
    (QueryHistory historyStore none "fi1").1.length = 3 ∧
    (QueryHistory historyStore none "fi1").1.Pairwise
      (fun a b => b.status < a.status ∨ (a.status = b.status ∧ a.process_time ≤ b.process_time)) :=
  ⟨by decide,
   (QueryHistory_status_desc_process_time_asc historyStore "fi1").2.2.1.trans (by decide),
   (QueryHistory_status_desc_process_time_asc historyStore "fi1").2.2.2⟩

/-! ### The join of `QueryTodo` -/

/-- A `LEFT JOIN` yields at least one row for each row of its left side. -/
theorem exists_mem_leftJoin {β : Type} (t : List β) (cond : β → Bool) :
    ∃ x, x ∈ leftJoin t cond := by
  unfold leftJoin
  split
  · exact ⟨none, List.mem_singleton.2 rfl⟩
  · rename_i ms hne
    cases hms : t.filter cond with
    | nil => exact absurd hms hne
    | cons a l => exact ⟨some a, by simp⟩

/-- The rows of the `FROM` clause of `QueryTodo` pair each node-instance with
each flow-instance of the same tombstone that it names. -/
theorem exists_mem_sqlTodoFrom (st : Store) (ni : NodeInstance) (fi : FlowInstance) :
    (∃ j ∈ sqlTodoFrom st, j.ni = ni ∧ j.fi = fi) ↔
      ni ∈ st.nodeInstances ∧ fi ∈ st.flowInstances ∧
        ni.flow_instance_id = fi.record_id ∧ fi.deleted = ni.deleted := by
  simp only [sqlTodoFrom, List.mem_flatMap, List.mem_filter, List.mem_map, decide_eq_true_eq]
  constructor
  · rintro ⟨j, ⟨ni1, hni, fi1, ⟨hfi, hid, hdel⟩, n, -, f, -, rfl⟩, rfl, rfl⟩
    exact ⟨hni, hfi, hid, hdel⟩
  · rintro ⟨hni, hfi, hid, hdel⟩
    obtain ⟨n, hn⟩ := exists_mem_leftJoin st.nodes
      (fun n => ni.node_id = n.record_id ∧ n.deleted = ni.deleted)
    have hf : ∃ f, f ∈ (match n with
        | none => [none]
        | some n =>
          leftJoin st.forms (fun f => n.form_id = f.record_id ∧ f.deleted = n.deleted)) := by
      cases n with
      | none => exact ⟨none, List.mem_singleton.2 rfl⟩
      | some n => exact exists_mem_leftJoin _ _
    obtain ⟨f, hf⟩ := hf
    exact ⟨{ ni := ni, fi := fi, n := n, f := f },
      ⟨ni, hni, fi, ⟨hfi, hid, hdel⟩, n, hn, f, hf, rfl⟩, rfl, rfl⟩

/-- Claim C6, as stated, fails: in a store where the flow of code `leave` has
been superseded (`flag=0`), the pending node-instance `ni1` of its running
flow-instance, of which `T002` is a candidate, is returned for an empty
flowCode but not for flowCode `leave`, although the flow of its flow-instance
has code `leave`. -/
theorem QueryTodo_flow_code_filter_needs_flag :
    (QueryTodo supersededStore none "leave" "T002").1 = [] ∧
    (QueryTodo supersededStore none "" "T002").1.map (·.record_id) = ["ni1"] ∧
    (∃ ni ∈ supersededStore.nodeInstances, ni.record_id = "ni1" ∧ ni.deleted = 0 ∧ ni.status = 1 ∧
      (∃ c ∈ supersededStore.candidates,
        c.deleted = 0 ∧ c.node_instance_id = ni.record_id ∧ c.candidate_id = "T002") ∧
      ∃ fi ∈ supersededStore.flowInstances,
        fi.record_id = ni.flow_instance_id ∧ fi.deleted = 0 ∧ fi.status = 1 ∧
        ∃ fl ∈ supersededStore.flows, fl.record_id = fi.flow_id ∧ fl.code = "leave") := by
  refine ⟨by decide, by decide, by decide⟩

/-- Claim C6, amended: when its statement goes through, `QueryTodo` returns no
error and the selected columns of its joined rows, and the node-instances of
those rows are exactly the live node-instances with status=1 that belong to a
live flow-instance with status=1 and have userID among their live candidates,
where, when flowCode is non-empty, the flow of that flow-instance is a live
flow with flag=1 and code flowCode, and when flowCode is empty nothing is asked
of the flow. -/
theorem QueryTodo_pending_for_candidate (st : Store) (flowCode userID : String) :
    QueryTodo st none flowCode userID =
      ((sqlTodoRows st flowCode userID).map TodoJoin.select, none) ∧
    ∀ ni, ni ∈ (sqlTodoRows st flowCode userID).map (·.ni) ↔
      ni ∈ st.nodeInstances ∧ ni.deleted = 0 ∧ ni.status = 1 ∧
      (∃ c ∈ st.candidates,
        c.deleted = 0 ∧ c.node_instance_id = ni.record_id ∧ c.candidate_id = userID) ∧
      ∃ fi ∈ st.flowInstances,
        fi.record_id = ni.flow_instance_id ∧ fi.deleted = 0 ∧ fi.status = 1 ∧
        (flowCode = "" ∨ ∃ fl ∈ st.flows,
          fl.record_id = fi.flow_id ∧ fl.deleted = 0 ∧ fl.flag = 1 ∧ fl.code = flowCode) := by
  refine ⟨rfl, fun ni => ?_⟩
  have hcand : ∀ x : String, x ∈ sqlCandidateNodeInstances st userID ↔
      ∃ c ∈ st.candidates, c.deleted = 0 ∧ c.node_instance_id = x ∧ c.candidate_id = userID := by
    intro x
    simp only [sqlCandidateNodeInstances, List.mem_map, List.mem_filter, decide_eq_true_eq]
    constructor
    · rintro ⟨c, ⟨hc, hd, hu⟩, rfl⟩
      exact ⟨c, hc, hd, rfl, hu⟩
    · rintro ⟨c, hc, hd, rfl, hu⟩
      exact ⟨c, ⟨hc, hd, hu⟩, rfl⟩
  have hflow : ∀ x : String, x ∈ sqlFlowIDsByCode st flowCode ↔
      ∃ fl ∈ st.flows, fl.record_id = x ∧ fl.deleted = 0 ∧ fl.flag = 1 ∧ fl.code = flowCode := by
    intro x
    simp only [sqlFlowIDsByCode, List.mem_map, List.mem_filter, decide_eq_true_eq]
    constructor
    · rintro ⟨fl, ⟨hfl, hd, hg, hc⟩, rfl⟩
      exact ⟨fl, hfl, rfl, hd, hg, hc⟩
    · rintro ⟨fl, hfl, rfl, hd, hg, hc⟩
      exact ⟨fl, ⟨hfl, hd, hg, hc⟩, rfl⟩
  have hwhere : ∀ j : TodoJoin, sqlTodoWhere st flowCode userID j = true ↔
      j.ni.deleted = 0 ∧ j.ni.status = 1 ∧ j.fi.status = 1 ∧
        j.ni.record_id ∈ sqlCandidateNodeInstances st userID ∧
        (flowCode = "" ∨ j.fi.flow_id ∈ sqlFlowIDsByCode st flowCode) := by
    intro j
    unfold sqlTodoWhere
    by_cases hc : flowCode = ""
    · simp [hc]
    · simp [hc, and_assoc]
  simp only [sqlTodoRows, List.mem_map, List.mem_insertionSort, List.mem_filter, hwhere]
  constructor
  · rintro ⟨j, ⟨hj, hd, hs, hfs, hcd, hfl⟩, rfl⟩
    obtain ⟨hni, hfi, hid, hdel⟩ :=
      (exists_mem_sqlTodoFrom st j.ni j.fi).1 ⟨j, hj, rfl, rfl⟩
    refine ⟨hni, hd, hs, (hcand _).1 hcd, j.fi, hfi, hid.symm, hdel.trans hd, hfs, ?_⟩
    exact hfl.imp id (fun h => (hflow _).1 h)
  · rintro ⟨hni, hd, hs, hcd, fi, hfi, hid, hfd, hfs, hfl⟩
    obtain ⟨j, hj, rfl, rfl⟩ :=
      (exists_mem_sqlTodoFrom st ni fi).2 ⟨hni, hfi, hid.symm, hfd.trans hd.symm⟩
    exact ⟨j, ⟨hj, hd, hs, hfs, (hcand _).2 hcd, hfl.imp id (fun h => (hflow _).2 h)⟩, rfl⟩

/-! ### Multiplicity of the join of `QueryTodo` -/

/-- A `WHERE` clause that fixes a unique key matches at most one row. -/
theorem filter_length_le_one_of_nodup_key {α κ : Type} (k : α → κ) (v : κ) (p : α → Bool)
    (l : List α) (hnd : (l.map k).Nodup) (hp : ∀ x, p x = true → k x = v) :
    (l.filter p).length ≤ 1 := by
  induction l with
  | nil => simp
  | cons a l ih =>
    rw [List.map_cons, List.nodup_cons] at hnd
    by_cases hpa : p a = true
    · have hnil : l.filter p = [] := by
        rw [List.filter_eq_nil_iff]
        intro x hx hpx
        exact hnd.1 (List.mem_map.2 ⟨x, hx, (hp x hpx).trans (hp a hpa).symm⟩)
      simp [List.filter_cons, hpa, hnil]
    · simpa [List.filter_cons, hpa] using ih hnd.2

/-- A `LEFT JOIN` on a unique key yields at most one row. -/
theorem leftJoin_length_le_one {β : Type} (t : List β) (cond : β → Bool)
    (h : (t.filter cond).length ≤ 1) : (leftJoin t cond).length ≤ 1 := by
  cases hms : t.filter cond with
  | nil => simp [leftJoin, hms]
  | cons a l =>
    rw [hms] at h
    simpa [leftJoin, hms] using h

/-- Joining at most one row with at most one row each yields at most one row. -/
theorem flatMap_length_le_one {α β : Type} (l : List α) (g : α → List β)
    (hl : l.length ≤ 1) (hg : ∀ a ∈ l, (g a).length ≤ 1) : (l.flatMap g).length ≤ 1 := by
  match l, hl, hg with
  | [], _, _ => simp
  | [a], _, hg => simpa using hg a (List.mem_singleton.2 rfl)
  | _ :: _ :: _, hl, _ => simp at hl

/-- When each row of the left side joins with at most one row, and the join
keeps the key of the left row, the keys of the join are a sublist of the keys of
the left side. -/
theorem map_flatMap_sublist {α β κ : Type} (l : List α) (g : α → List β) (key : β → κ)
    (key' : α → κ) (h : ∀ a ∈ l, (g a).length ≤ 1 ∧ ∀ b ∈ g a, key b = key' a) :
    ((l.flatMap g).map key).Sublist (l.map key') := by
  induction l with
  | nil => simp
  | cons a l ih =>
    have ih' := ih (fun x hx => h x (List.mem_cons_of_mem a hx))
    obtain ⟨hlen, hkey⟩ := h a (List.mem_cons_self a l)
    rw [List.flatMap_cons, List.map_append, List.map_cons]
    match hga : g a, hlen, hkey with
    | [], _, _ => simpa using ih'.cons _
    | [b], _, hkey =>
      have hb : key b = key' a := hkey b (List.mem_singleton.2 rfl)
      simpa [hb] using ih'.cons₂ (key' a)
    | _ :: _ :: _, hlen, _ => simp [hga] at hlen

/-- Under the key constraints every node-instance occurs at most once in the
`FROM` clause of `QueryTodo`: the ids of the joined rows are a sublist of the ids
of the node-instance table. -/
theorem sqlTodoFrom_ids_sublist (st : Store) (h : st.KeysUnique) :
    ((sqlTodoFrom st).map (fun j => j.ni.id)).Sublist (st.nodeInstances.map (·.id)) := by
  obtain ⟨-, hfi, hn, hf⟩ := h
  unfold sqlTodoFrom
  apply map_flatMap_sublist
  intro ni _
  constructor
  · apply flatMap_length_le_one
    · exact filter_length_le_one_of_nodup_key (·.record_id) ni.flow_instance_id _ _ hfi
        (fun x hx => by simp only [decide_eq_true_eq] at hx; exact hx.1.symm)
    · intro fi _
      apply flatMap_length_le_one
      · exact leftJoin_length_le_one _ _
          (filter_length_le_one_of_nodup_key (·.record_id) ni.node_id _ _ hn
            (fun x hx => by simp only [decide_eq_true_eq] at hx; exact hx.1.symm))
      · intro n _
        rw [List.length_map]
        cases n with
        | none => simp
        | some n =>
          exact leftJoin_length_le_one _ _
            (filter_length_le_one_of_nodup_key (·.record_id) n.form_id _ _ hf
              (fun x hx => by simp only [decide_eq_true_eq] at hx; exact hx.1.symm))
  · intro j hj
    simp only [List.mem_flatMap, List.mem_map] at hj
    obtain ⟨fi, -, n, -, f, -, rfl⟩ := hj
    rfl

/-- Under the key constraints the rows of `QueryTodo` stand in strictly
ascending order of the id of their node-instance. -/
theorem sqlTodoRows_ids_strictly_sorted (st : Store) (flowCode userID : String)
    (h : st.KeysUnique) :
    ((sqlTodoRows st flowCode userID).map (fun j => j.ni.id)).Sorted (· < ·) := by
  apply List.Sorted.lt_of_le
  · unfold sqlTodoRows
    rw [List.Sorted, List.pairwise_map]
    exact List.sorted_insertionSort (fun a b : TodoJoin => a.ni.id ≤ b.ni.id) _
  · have hperm := (List.perm_insertionSort (fun a b : TodoJoin => a.ni.id ≤ b.ni.id)
      ((sqlTodoFrom st).filter (sqlTodoWhere st flowCode userID))).map (fun j => j.ni.id)
    unfold sqlTodoRows
    rw [hperm.nodup_iff]
    exact (((List.filter_sublist _).map _).trans (sqlTodoFrom_ids_sublist st h)).nodup h.1

/-! ### Independence of the physical order of the rows -/

/-- A `LEFT JOIN` against a reordered table yields the same rows, reordered. -/
theorem leftJoin_perm {β : Type} {t t' : List β} (cond : β → Bool) (h : t.Perm t') :
    (leftJoin t cond).Perm (leftJoin t' cond) := by
  have hf := h.filter cond
  cases h1 : t.filter cond with
  | nil =>
    rw [h1] at hf
    have h2 : t'.filter cond = [] := hf.symm.eq_nil
    simp [leftJoin, h1, h2]
  | cons x l =>
    cases h2 : t'.filter cond with
    | nil =>
      rw [h2] at hf
      rw [hf.eq_nil] at h1
      exact absurd h1 (by simp)
    | cons y l' =>
      rw [h1, h2] at hf
      simpa [leftJoin, h1, h2] using hf.map some

/-- The `FROM` clause of `QueryTodo` on a reordered store yields the same rows,
reordered. -/
theorem sqlTodoFrom_perm (a b : Store) (h : a.SameRows b) :
    (sqlTodoFrom a).Perm (sqlTodoFrom b) := by
  obtain ⟨-, hn, -, -, -, hf, hfi, hni, -⟩ := h
  unfold sqlTodoFrom
  refine (List.Perm.flatMap_right _ hni).trans (List.Perm.flatMap_left _ fun ni _ => ?_)
  refine (List.Perm.flatMap_right _ (hfi.filter _)).trans
    (List.Perm.flatMap_left _ fun fi _ => ?_)
  refine (List.Perm.flatMap_right _ (leftJoin_perm _ hn)).trans
    (List.Perm.flatMap_left _ fun n _ => ?_)
  apply List.Perm.map
  cases n with
  | none => exact List.Perm.refl _
  | some n => exact leftJoin_perm _ hf

/-- The `WHERE` clause of `QueryTodo` does not depend on the physical order of
the rows. -/
theorem sqlTodoWhere_sameRows (a b : Store) (h : a.SameRows b) (flowCode userID : String) :
    sqlTodoWhere a flowCode userID = sqlTodoWhere b flowCode userID := by
  obtain ⟨hfl, -, -, -, -, -, -, -, hc⟩ := h
  funext j
  have h1 : ∀ x, x ∈ sqlCandidateNodeInstances a userID ↔
      x ∈ sqlCandidateNodeInstances b userID :=
    fun x => ((hc.filter _).map _).mem_iff
  have h2 : ∀ x, x ∈ sqlFlowIDsByCode a flowCode ↔ x ∈ sqlFlowIDsByCode b flowCode :=
    fun x => ((hfl.filter _).map _).mem_iff
  unfold sqlTodoWhere
  simp only [h1, h2]

/-- The key constraints do not depend on the physical order of the rows. -/
theorem KeysUnique_sameRows (a b : Store) (h : a.SameRows b) (hk : a.KeysUnique) :
    b.KeysUnique := by
  obtain ⟨-, hn, -, -, -, hf, hfi, hni, -⟩ := h
  exact ⟨(hni.map _).nodup_iff.1 hk.1, (hfi.map _).nodup_iff.1 hk.2.1,
    (hn.map _).nodup_iff.1 hk.2.2.1, (hf.map _).nodup_iff.1 hk.2.2.2⟩

/-- Under the key constraints the ordered rows of `QueryTodo` are the same on
two stores that hold the same rows. -/
theorem sqlTodoRows_sameRows (a b : Store) (h : a.SameRows b) (hk : a.KeysUnique)
    (flowCode userID : String) :
    sqlTodoRows a flowCode userID = sqlTodoRows b flowCode userID := by
  have hsa := sqlTodoRows_ids_strictly_sorted a flowCode userID hk
  have hsb := sqlTodoRows_ids_strictly_sorted b flowCode userID (KeysUnique_sameRows a b h hk)
  rw [List.Sorted, List.pairwise_map] at hsa hsb
  refine List.eq_of_perm_of_sorted ?_ hsa hsb
  unfold sqlTodoRows
  refine (List.perm_insertionSort _ _).trans (List.Perm.trans ?_ (List.perm_insertionSort _ _).symm)
  rw [sqlTodoWhere_sameRows a b h]
  exact (sqlTodoFrom_perm a b h).filter _

/-- Claim C7: on a store that meets the key constraints of the schema (id is
the primary key of the node-instances; record_id identifies flow-instances,
nodes and forms), the list `QueryTodo` returns is the selection of rows whose
node-instance ids are strictly ascending, and the list is the same on every
store holding the same rows, whatever their physical order. -/
theorem QueryTodo_strictly_ascending_by_id (st : Store) (flowCode userID : String)
    (h : st.KeysUnique) :
    QueryTodo st none flowCode userID =
      ((sqlTodoRows st flowCode userID).map TodoJoin.select, none) ∧
    ((sqlTodoRows st flowCode userID).map (fun j => j.ni.id)).Sorted (· < ·) ∧
    ∀ st1, st.SameRows st1 →
      QueryTodo st1 none flowCode userID = QueryTodo st none flowCode userID := by
  refine ⟨rfl, sqlTodoRows_ids_strictly_sorted st flowCode userID h, fun st1 hs => ?_⟩
  have hrows := sqlTodoRows_sameRows st st1 hs h flowCode userID
  show ((sqlTodoRows st1 flowCode userID).map TodoJoin.select, none)
    = ((sqlTodoRows st flowCode userID).map TodoJoin.select, none)
  rw [hrows]

/-- Witness for C7: `todoStore`, whose node-instance table holds ids 3, 1, 2,
meets the key constraints; `QueryTodo` lists the three pending node-instances
of `T002` in the order of ids 1, 2, 3, and returns the same list on the
reordered store. -/
theorem QueryTodo_strictly_ascending_by_id_witness :
    todoStore.KeysUnique ∧
    (QueryTodo todoStore none "leave" "T002").1.map (·.record_id) = ["ni1", "ni2", "ni3"] ∧
    ((sqlTodoRows todoStore "leave" "T002").map (fun j => j.ni.id)).Sorted (· < ·) ∧
    QueryTodo todoStoreReordered none "leave" "T002" = QueryTodo todoStore none "leave" "T002" :=
  have hk : todoStore.KeysUnique := by decide
  have hs : todoStore.SameRows todoStoreReordered :=
    ⟨List.Perm.refl _, List.Perm.refl _, List.Perm.refl _, List.Perm.refl _, List.Perm.refl _,
      List.Perm.refl _, List.Perm.refl _,
      (List.Perm.swap _ _ _).trans ((List.Perm.swap _ _ _).cons _),
      ((List.Perm.swap _ _ _).cons _).trans
        ((List.Perm.swap _ _ _).trans ((List.Perm.swap _ _ _).cons _))⟩
  ⟨hk, by decide,
    (QueryTodo_strictly_ascending_by_id todoStore "leave" "T002" hk).2.1,
    (QueryTodo_strictly_ascending_by_id todoStore "leave" "T002" hk).2.2 todoStoreReordered hs⟩

/-! ### Deletion -/

/-- A transaction opened by `Begin` starts from the committed store. -/
theorem dbBegin_ok {st : Store} {script : List (Option Error)} {tran : Tx}
    (h : dbBegin st script = Except.ok tran) : tran.work = st := by
  unfold dbBegin at h
  split at h
  · exact absurd h (by simp)
  · injection h with h
    rw [← h]

/-- A statement that goes through has run on the working copy. -/
theorem Tx.Exec_ok {tran tran1 : Tx} {stmt : Store → Store}
    (h : tran.Exec stmt = (tran1, none)) : tran1.work = stmt tran.work := by
  unfold Tx.Exec at h
  split at h
  · simp at h
  · injection h with h _
    rw [← h]

/-- A commit that goes through publishes the working copy. -/
theorem Tx.Commit_ok {tran : Tx} {st1 : Store} (h : tran.Commit = (st1, none)) :
    st1 = tran.work := by
  unfold Tx.Commit at h
  split at h
  · simp at h
  · injection h with h _
    exact h.symm

/-- The store `DeleteFlow` leaves when every call goes through: the six
statements applied in the order of the source. -/
theorem DeleteFlow_error_or_store (st : Store) (script : List (Option Error)) (ctimeUnix : Int)
    (flowID : String) :
    (DeleteFlow st script ctimeUnix flowID).1 ≠ none ∨
    (DeleteFlow st script ctimeUnix flowID).2 =
      sqlDeleteForms ctimeUnix flowID (sqlDeleteNodes ctimeUnix flowID
        (sqlDeleteProperties ctimeUnix flowID (sqlDeleteAssignments ctimeUnix flowID
          (sqlDeleteRouters ctimeUnix flowID (sqlDeleteFlow ctimeUnix flowID st))))) := by
  unfold DeleteFlow
  split
  · exact Or.inl (by simp [Wrapf])
  rename_i tran0 h0
  split
  · exact Or.inl (by simp [Wrapf])
  rename_i tran1 h1
  split
  · exact Or.inl (by simp [Wrapf])
  rename_i tran2 h2
  split
  · exact Or.inl (by simp [Wrapf])
  rename_i tran3 h3
  split
  · exact Or.inl (by simp [Wrapf])
  rename_i tran4 h4
  split
  · exact Or.inl (by simp [Wrapf])
  rename_i tran5 h5
  split
  · exact Or.inl (by simp [Wrapf])
  rename_i tran6 h6
  split
  · exact Or.inl (by simp [Wrapf])
  rename_i st1 h7
  refine Or.inr ?_
  show st1 = _
  rw [Tx.Commit_ok h7, Tx.Exec_ok h6, Tx.Exec_ok h5, Tx.Exec_ok h4, Tx.Exec_ok h3, Tx.Exec_ok h2,
    Tx.Exec_ok h1, dbBegin_ok h0]

/-- A property of the rows of a table after a conditional `UPDATE`, from the
property of the updated and of the untouched rows. -/
theorem forall_mem_update {α : Type} (l : List α) (c : α → Prop) [DecidablePred c]
    (upd : α → α) (P : α → Prop) (h1 : ∀ a ∈ l, c a → P (upd a)) (h2 : ∀ a ∈ l, ¬ c a → P a) :
    ∀ x ∈ l.map (fun a => if c a then upd a else a), P x := by
  intro x hx
  obtain ⟨a, ha, rfl⟩ := List.mem_map.1 hx
  by_cases hc : c a
  · simpa [hc] using h1 a ha hc
  · simpa [hc] using h2 a ha hc

/-- Claim C8: when `DeleteFlow` returns no error and the current time is
positive, the store it leaves holds no live flow of that record_id, no live
node or form of that flow_id, and no live router (by source_node_id),
assignment or property (by node_id) on a node that was a live node of the flow
before the call; and every row of these six tables is a row the store held
before the call or carries the current time as its tombstone. -/
theorem DeleteFlow_tombstones_flow_and_owned_rows (st : Store) (script : List (Option Error))
    (ctimeUnix : Int) (flowID : String) (ht : 0 < ctimeUnix)
    (hok : (DeleteFlow st script ctimeUnix flowID).1 = none) :
    (∀ f ∈ (DeleteFlow st script ctimeUnix flowID).2.flows,
      f.record_id = flowID → f.deleted ≠ 0) ∧
    (∀ n ∈ (DeleteFlow st script ctimeUnix flowID).2.nodes, n.flow_id = flowID → n.deleted ≠ 0) ∧
    (∀ f ∈ (DeleteFlow st script ctimeUnix flowID).2.forms, f.flow_id = flowID → f.deleted ≠ 0) ∧
    (∀ r ∈ (DeleteFlow st script ctimeUnix flowID).2.routers,
      (∃ n ∈ st.nodes, n.deleted = 0 ∧ n.flow_id = flowID ∧ n.record_id = r.source_node_id) →
        r.deleted ≠ 0) ∧
    (∀ r ∈ (DeleteFlow st script ctimeUnix flowID).2.assignments,
      (∃ n ∈ st.nodes, n.deleted = 0 ∧ n.flow_id = flowID ∧ n.record_id = r.node_id) →
        r.deleted ≠ 0) ∧
    (∀ r ∈ (DeleteFlow st script ctimeUnix flowID).2.properties,
      (∃ n ∈ st.nodes, n.deleted = 0 ∧ n.flow_id = flowID ∧ n.record_id = r.node_id) →
        r.deleted ≠ 0) ∧
    (∀ f ∈ (DeleteFlow st script ctimeUnix flowID).2.flows, f ∈ st.flows ∨ f.deleted = ctimeUnix) ∧
    (∀ n ∈ (DeleteFlow st script ctimeUnix flowID).2.nodes, n ∈ st.nodes ∨ n.deleted = ctimeUnix) ∧
    (∀ f ∈ (DeleteFlow st script ctimeUnix flowID).2.forms, f ∈ st.forms ∨ f.deleted = ctimeUnix) ∧
    (∀ r ∈ (DeleteFlow st script ctimeUnix flowID).2.routers,
      r ∈ st.routers ∨ r.deleted = ctimeUnix) ∧
    (∀ r ∈ (DeleteFlow st script ctimeUnix flowID).2.assignments,
      r ∈ st.assignments ∨ r.deleted = ctimeUnix) ∧
    (∀ r ∈ (DeleteFlow st script ctimeUnix flowID).2.properties,
      r ∈ st.properties ∨ r.deleted = ctimeUnix) := by
  have hst := (DeleteFlow_error_or_store st script ctimeUnix flowID).resolve_left
    (fun h => h hok)
  have hne : ctimeUnix ≠ 0 := ne_of_gt ht
  have hlive : ∀ x : String, (∃ n ∈ st.nodes, n.deleted = 0 ∧ n.flow_id = flowID ∧
      n.record_id = x) → x ∈ sqlLiveNodeIDs st flowID := by
    rintro x ⟨n, hn, hd, hf, rfl⟩
    exact List.mem_map.2 ⟨n, List.mem_filter.2 ⟨hn, by simp [hd, hf]⟩, rfl⟩
  rw [hst]
  refine ⟨?_, ?_, ?_, ?_, ?_, ?_, ?_, ?_, ?_, ?_, ?_, ?_⟩
  · exact forall_mem_update st.flows _ _ _ (fun _ _ _ _ => hne)
      (fun a _ hc hid hd => hc ⟨hd, hid⟩)
  · exact forall_mem_update st.nodes _ _ _ (fun _ _ _ _ => hne)
      (fun a _ hc hid hd => hc ⟨hd, hid⟩)
  · exact forall_mem_update st.forms _ _ _ (fun _ _ _ _ => hne)
      (fun a _ hc hid hd => hc ⟨hd, hid⟩)
  · exact forall_mem_update st.routers _ _ _ (fun _ _ _ _ => hne)
      (fun a _ hc hid hd => hc ⟨hd, hlive _ hid⟩)
  · exact forall_mem_update st.assignments _ _ _ (fun _ _ _ _ => hne)
      (fun a _ hc hid hd => hc ⟨hd, hlive _ hid⟩)
  · exact forall_mem_update st.properties _ _ _ (fun _ _ _ _ => hne)
      (fun a _ hc hid hd => hc ⟨hd, hlive _ hid⟩)
  · exact forall_mem_update st.flows _ _ _ (fun _ _ _ => Or.inr rfl) (fun a ha _ => Or.inl ha)
  · exact forall_mem_update st.nodes _ _ _ (fun _ _ _ => Or.inr rfl) (fun a ha _ => Or.inl ha)
  · exact forall_mem_update st.forms _ _ _ (fun _ _ _ => Or.inr rfl) (fun a ha _ => Or.inl ha)
  · exact forall_mem_update st.routers _ _ _ (fun _ _ _ => Or.inr rfl) (fun a ha _ => Or.inl ha)
  · exact forall_mem_update st.assignments _ _ _ (fun _ _ _ => Or.inr rfl)
      (fun a ha _ => Or.inl ha)
  · exact forall_mem_update st.properties _ _ _ (fun _ _ _ => Or.inr rfl)
      (fun a ha _ => Or.inl ha)

/-- Witness for C8: at time 100 and with every call going through,
`DeleteFlow` of `f1` on `definitionStore` returns no error, and the tombstones
of the flows, nodes and routers it leaves are 100 for the rows of `f1` and 0
for the rows of `f2`. -/
theorem DeleteFlow_tombstones_flow_and_owned_rows_witness :
    (0 : Int) < 100 ∧ (DeleteFlow definitionStore [] 100 "f1").1 = none ∧
    (DeleteFlow definitionStore [] 100 "f1").2.flows.map (·.deleted) = [100, 0] ∧
    (DeleteFlow definitionStore [] 100 "f1").2.nodes.map (·.deleted) = [100, 100, 0] ∧
    (DeleteFlow definitionStore [] 100 "f1").2.routers.map (·.deleted) = [100, 0] ∧
    (∀ f ∈ (DeleteFlow definitionStore [] 100 "f1").2.flows,
      f.record_id = "f1" → f.deleted ≠ 0) :=
  ⟨by decide, rfl, by decide, by decide, by decide,
    (DeleteFlow_tombstones_flow_and_owned_rows definitionStore [] 100 "f1" (by decide) rfl).1⟩

/-! ### Atomicity of the creations -/

/-- A transaction opened by `Begin` keeps the committed store aside. -/
theorem dbBegin_base {st : Store} {script : List (Option Error)} {tran : Tx}
    (h : dbBegin st script = Except.ok tran) : tran.base = st := by
  unfold dbBegin at h
  split at h
  · exact absurd h (by simp)
  · injection h with h
    rw [← h]

/-- Insertions leave the committed store aside, and when they all go through
the working copy holds every row. -/
theorem Tx.Insert_spec (rows : List Row) (tran tran1 : Tx) (e : Option Error)
    (h : tran.Insert rows = (tran1, e)) :
    tran1.base = tran.base ∧ (e = none → tran1.work = tran.work.insertAll rows) := by
  induction rows generalizing tran with
  | nil =>
    simp only [Tx.Insert, Prod.mk.injEq] at h
    obtain ⟨rfl, rfl⟩ := h
    exact ⟨rfl, fun _ => rfl⟩
  | cons r rs ih =>
    unfold Tx.Insert at h
    split at h
    · simp only [Prod.mk.injEq] at h
      obtain ⟨rfl, rfl⟩ := h
      exact ⟨rfl, fun he => by simp at he⟩
    · obtain ⟨hb, hw⟩ := ih _ h
      exact ⟨hb, fun he => by rw [hw he]; rfl⟩

/-- A commit yields the working copy, or the committed store when it fails. -/
theorem Tx.Commit_spec (tran : Tx) :
    (tran.Commit = (tran.base, tran.Commit.2) ∧ tran.Commit.2 ≠ none) ∨
      tran.Commit = (tran.work, none) := by
  unfold Tx.Commit
  split
  · exact Or.inl ⟨rfl, by simp⟩
  · exact Or.inr rfl

/-- The store `CreateFlow` leaves is the store before the call or that store
with every row of the call inserted, and it is the latter whenever the call
returns no error. -/
theorem CreateFlow_all_or_nothing (st : Store) (script : List (Option Error)) (flow : Flow)
    (nodes : NodeOperating) (forms : FormOperating) :
    ((CreateFlow st script flow nodes forms).1 ≠ none ∧
      (CreateFlow st script flow nodes forms).2 = st) ∨
    (CreateFlow st script flow nodes forms).2 =
      ((st.insertAll [Row.flow flow]).insertAll nodes.All).insertAll forms.All := by
  unfold CreateFlow
  split
  · exact Or.inl ⟨by simp [Wrapf], rfl⟩
  rename_i tran0 h0
  split
  · rename_i tran1 err h1
    exact Or.inl ⟨by simp [Wrapf], ((Tx.Insert_spec _ _ _ _ h1).1).trans (dbBegin_base h0)⟩
  rename_i tran1 h1
  obtain ⟨hb1, hw1⟩ := Tx.Insert_spec _ _ _ _ h1
  have hw1 := hw1 rfl
  rw [dbBegin_ok h0] at hw1
  have hnodes : ∀ (tr : Tx) (e : Option Error),
      (if nodes.All.length > 0 then tran1.Insert nodes.All else (tran1, none)) = (tr, e) →
      tr.base = tran1.base ∧ (e = none → tr.work = tran1.work.insertAll nodes.All) := by
    intro tr e h
    split at h
    · exact Tx.Insert_spec _ _ _ _ h
    · rename_i hlen
      simp only [Prod.mk.injEq] at h
      obtain ⟨rfl, rfl⟩ := h
      have : nodes.All = [] := List.length_eq_zero.1 (by omega)
      exact ⟨rfl, fun _ => by rw [this]; rfl⟩
  split
  · rename_i tran2 err h2
    exact Or.inl ⟨by simp [Wrapf], ((hnodes _ _ h2).1.trans hb1).trans (dbBegin_base h0)⟩
  rename_i tran2 h2
  obtain ⟨hb2, hw2⟩ := hnodes _ _ h2
  have hw2 := hw2 rfl
  have hforms : ∀ (tr : Tx) (e : Option Error),
      (if forms.All.length > 0 then tran2.Insert forms.All else (tran2, none)) = (tr, e) →
      tr.base = tran2.base ∧ (e = none → tr.work = tran2.work.insertAll forms.All) := by
    intro tr e h
    split at h
    · exact Tx.Insert_spec _ _ _ _ h
    · rename_i hlen
      simp only [Prod.mk.injEq] at h
      obtain ⟨rfl, rfl⟩ := h
      have : forms.All = [] := List.length_eq_zero.1 (by omega)
      exact ⟨rfl, fun _ => by rw [this]; rfl⟩
  split
  · rename_i tran3 err h3
    exact Or.inl ⟨by simp [Wrapf],
      (((hforms _ _ h3).1.trans hb2).trans hb1).trans (dbBegin_base h0)⟩
  rename_i tran3 h3
  obtain ⟨hb3, hw3⟩ := hforms _ _ h3
  have hw3 := hw3 rfl
  rcases Tx.Commit_spec tran3 with ⟨hc, hne⟩ | hc
  · split
    · rename_i st1 err h4
      refine Or.inl ⟨by simp [Wrapf], ?_⟩
      rw [hc] at h4
      simp only [Prod.mk.injEq] at h4
      rw [← h4.1, hb3, hb2, hb1, dbBegin_base h0]
    · rename_i st1 h4
      rw [h4] at hne
      exact absurd rfl hne
  · split
    · rename_i st1 err h4
      rw [hc] at h4
      simp at h4
    · rename_i st1 h4
      rw [hc] at h4
      simp only [Prod.mk.injEq, and_true] at h4
      refine Or.inr ?_
      show st1 = _
      rw [← h4, hw3, hw2, hw1]

/-- The failure branch of an insertion returns the committed store. -/
theorem rollbackAfterInsert_store (tran : Tx) (rollbackMsg insertMsg : String) :
    (rollbackAfterInsert tran rollbackMsg insertMsg).2 = tran.base := by
  unfold rollbackAfterInsert
  dsimp only [Tx.Rollback]
  split <;> rfl

/-- The loop of `CreateNodeInstance` returns early with the committed store, or
goes on with every candidate in the working copy. -/
theorem CreateNodeInstance_loop_spec (cands : List NodeCandidate) (tran : Tx) :
    (∀ ret, CreateNodeInstance.loop tran cands = Except.error ret → ret.2 = tran.base) ∧
    (∀ tran1, CreateNodeInstance.loop tran cands = Except.ok tran1 →
      tran1.base = tran.base ∧ tran1.work = tran.work.insertAll (cands.map Row.candidate)) := by
  induction cands generalizing tran with
  | nil =>
    refine ⟨fun ret h => by simp [CreateNodeInstance.loop] at h, fun tran1 h => ?_⟩
    simp only [CreateNodeInstance.loop, Except.ok.injEq] at h
    subst h
    exact ⟨rfl, rfl⟩
  | cons c cs ih =>
    unfold CreateNodeInstance.loop
    split
    · rename_i tran2 err h1
      refine ⟨fun ret h => ?_, fun tran1 h => by simp at h⟩
      simp only [Except.error.injEq] at h
      subst h
      exact (rollbackAfterInsert_store _ _ _).trans (Tx.Insert_spec _ _ _ _ h1).1
    · rename_i tran2 h1
      obtain ⟨hb, hw⟩ := Tx.Insert_spec _ _ _ _ h1
      have hw := hw rfl
      refine ⟨fun ret h => ((ih tran2).1 ret h).trans hb, fun tran1 h => ?_⟩
      obtain ⟨hb2, hw2⟩ := (ih tran2).2 tran1 h
      exact ⟨hb2.trans hb, by rw [hw2, hw]; rfl⟩

/-- The store `CreateNodeInstance` leaves is the store before the call, or that
store with the node-instance and every candidate inserted, the call then
returning no error. -/
theorem CreateNodeInstance_all_or_nothing (st : Store) (script : List (Option Error))
    (nodeInstance : NodeInstance) (nodeCandidates : List NodeCandidate) :
    (CreateNodeInstance st script nodeInstance nodeCandidates).2 = st ∨
    CreateNodeInstance st script nodeInstance nodeCandidates =
      (none, (st.insertAll [Row.nodeInstance nodeInstance]).insertAll
        (nodeCandidates.map Row.candidate)) := by
  unfold CreateNodeInstance
  split
  · exact Or.inl rfl
  rename_i tran0 h0
  split
  · rename_i tran1 err h1
    refine Or.inl ?_
    exact ((rollbackAfterInsert_store _ _ _).trans (Tx.Insert_spec _ _ _ _ h1).1).trans
      (dbBegin_base h0)
  rename_i tran1 h1
  obtain ⟨hb1, hw1⟩ := Tx.Insert_spec _ _ _ _ h1
  have hw1 := hw1 rfl
  rw [dbBegin_ok h0] at hw1
  split
  · rename_i ret h2
    exact Or.inl ((((CreateNodeInstance_loop_spec _ _).1 ret h2).trans hb1).trans
      (dbBegin_base h0))
  rename_i tran2 h2
  obtain ⟨hb2, hw2⟩ := (CreateNodeInstance_loop_spec _ _).2 tran2 h2
  rcases Tx.Commit_spec tran2 with ⟨hc, hne⟩ | hc
  · refine Or.inl ?_
    split
    · rename_i st1 err h4
      rw [hc] at h4
      simp only [Prod.mk.injEq] at h4
      show st1 = st
      rw [← h4.1, hb2, hb1, dbBegin_base h0]
    · rename_i st1 h4
      rw [h4] at hne
      exact absurd rfl hne
  · refine Or.inr ?_
    split
    · rename_i st1 err h4
      rw [hc] at h4
      simp at h4
    · rename_i st1 h4
      rw [hc] at h4
      simp only [Prod.mk.injEq, and_true] at h4
      rw [← h4, hw2, hw1]

/-- The loop of `CreateFlowInstance` returns early with the committed store, or
goes on with every node-instance in the working copy. -/
theorem CreateFlowInstance_loop_spec (nis : List NodeInstance) (tran : Tx) :
    (∀ ret, CreateFlowInstance.loop tran nis = Except.error ret → ret.2 = tran.base) ∧
    (∀ tran1, CreateFlowInstance.loop tran nis = Except.ok tran1 →
      tran1.base = tran.base ∧ tran1.work = tran.work.insertAll (nis.map Row.nodeInstance)) := by
  induction nis generalizing tran with
  | nil =>
    refine ⟨fun ret h => by simp [CreateFlowInstance.loop] at h, fun tran1 h => ?_⟩
    simp only [CreateFlowInstance.loop, Except.ok.injEq] at h
    subst h
    exact ⟨rfl, rfl⟩
  | cons n ns ih =>
    unfold CreateFlowInstance.loop
    split
    · rename_i tran2 err h1
      refine ⟨fun ret h => ?_, fun tran1 h => by simp at h⟩
      simp only [Except.error.injEq] at h
      subst h
      exact (rollbackAfterInsert_store _ _ _).trans (Tx.Insert_spec _ _ _ _ h1).1
    · rename_i tran2 h1
      obtain ⟨hb, hw⟩ := Tx.Insert_spec _ _ _ _ h1
      have hw := hw rfl
      refine ⟨fun ret h => ((ih tran2).1 ret h).trans hb, fun tran1 h => ?_⟩
      obtain ⟨hb2, hw2⟩ := (ih tran2).2 tran1 h
      exact ⟨hb2.trans hb, by rw [hw2, hw]; rfl⟩

/-- The store `CreateFlowInstance` leaves is the store before the call, or that
store with the flow-instance and every node-instance inserted, the call then
returning no error. -/
theorem CreateFlowInstance_all_or_nothing (st : Store) (script : List (Option Error))
    (flowInstance : FlowInstance) (nodeInstances : List NodeInstance) :
    (CreateFlowInstance st script flowInstance nodeInstances).2 = st ∨
    CreateFlowInstance st script flowInstance nodeInstances =
      (none, (st.insertAll [Row.flowInstance flowInstance]).insertAll
        (nodeInstances.map Row.nodeInstance)) := by
  unfold CreateFlowInstance
  split
  · exact Or.inl rfl
  rename_i tran0 h0
  split
  · rename_i tran1 err h1
    refine Or.inl ?_
    exact ((rollbackAfterInsert_store _ _ _).trans (Tx.Insert_spec _ _ _ _ h1).1).trans
      (dbBegin_base h0)
  rename_i tran1 h1
  obtain ⟨hb1, hw1⟩ := Tx.Insert_spec _ _ _ _ h1
  have hw1 := hw1 rfl
  rw [dbBegin_ok h0] at hw1
  split
  · rename_i ret h2
    exact Or.inl ((((CreateFlowInstance_loop_spec _ _).1 ret h2).trans hb1).trans
      (dbBegin_base h0))
  rename_i tran2 h2
  obtain ⟨hb2, hw2⟩ := (CreateFlowInstance_loop_spec _ _).2 tran2 h2
  rcases Tx.Commit_spec tran2 with ⟨hc, hne⟩ | hc
  · refine Or.inl ?_
    split
    · rename_i st1 err h4
      rw [hc] at h4
      simp only [Prod.mk.injEq] at h4
      show st1 = st
      rw [← h4.1, hb2, hb1, dbBegin_base h0]
    · rename_i st1 h4
      rw [h4] at hne
      exact absurd rfl hne
  · refine Or.inr ?_
    split
    · rename_i st1 err h4
      rw [hc] at h4
      simp at h4
    · rename_i st1 h4
      rw [hc] at h4
      simp only [Prod.mk.injEq, and_true] at h4
      rw [← h4, hw2, hw1]

/-! ### Tombstones and reads -/

/-- The row `SelectOne` binds is a row of the query. -/
theorem dbSelectOne_mem {α : Type} (drv : Option Error) (rows : List α) (item : Option α)
    (r : α) (h : dbSelectOne drv rows = (item, none)) (hr : item = some r) : r ∈ rows := by
  subst hr
  unfold dbSelectOne at h
  split at h
  · simp at h
  · split at h
    · simp at h
    · simp only [Prod.mk.injEq, Option.some.injEq, and_true] at h
      subst h
      exact List.mem_singleton.2 rfl
    · simp at h

/-- The rows `Select` binds are rows of the query. -/
theorem dbSelect_mem {α : Type} (drv : Option Error) (rows : List α) (r : α)
    (h : r ∈ (dbSelect drv rows).1) : r ∈ rows := by
  unfold dbSelect at h
  split at h
  · simp at h
  · exact h

/-- A non-NULL row of a `LEFT JOIN` is a row of the table that meets the
condition. -/
theorem mem_leftJoin_some {β : Type} (t : List β) (cond : β → Bool) (x : β)
    (h : some x ∈ leftJoin t cond) : x ∈ t ∧ cond x = true := by
  unfold leftJoin at h
  split at h
  · simp at h
  · simp only [List.mem_map, Option.some.injEq, exists_eq_right] at h
    exact List.mem_filter.1 h

/-- Every row of the `FROM` clause of `QueryTodo` joins rows of one tombstone. -/
theorem sqlTodoFrom_deleted (st : Store) (j : TodoJoin) (h : j ∈ sqlTodoFrom st) :
    j.fi.deleted = j.ni.deleted ∧ (∀ n ∈ j.n, n.deleted = j.ni.deleted) ∧
      (∀ f ∈ j.f, f.deleted = j.ni.deleted) := by
  simp only [sqlTodoFrom, List.mem_flatMap, List.mem_filter, List.mem_map,
    decide_eq_true_eq] at h
  obtain ⟨ni, -, fi, ⟨-, -, hfd⟩, n, hn, f, hf, rfl⟩ := h
  refine ⟨hfd, ?_, ?_⟩
  · intro n1 hn1
    obtain rfl : n = some n1 := hn1
    have := (mem_leftJoin_some _ _ _ hn).2
    simp only [decide_eq_true_eq] at this
    exact this.2
  · intro f1 hf1
    obtain rfl : f = some f1 := hf1
    cases n with
    | none => simp at hf
    | some n1 =>
      have h1 := (mem_leftJoin_some _ _ _ hn).2
      have h2 := (mem_leftJoin_some _ _ _ hf).2
      simp only [decide_eq_true_eq] at h1 h2
      exact h2.2.trans h1.2

/-- Claim C11: for every store, every answer of the driver and every argument,
each row returned by a read of the repository is live.  The single-row reads
and the single-table queries return rows with deleted=0; each row of
`QueryTodo` and `QueryDone` is the selection of a joined row whose
node-instance, flow-instance and, when present, node, form and flow have
deleted=0; each row of `QueryHistory` is the selection of a node-instance and
a node with deleted=0. -/
theorem reads_return_live_rows (st : Store) (drv : Option Error) :
    (∀ x r, (GetFlow st drv x).1 = some r → r.deleted = 0) ∧
    (∀ x r, (GetFlowByCode st drv x).1 = some r → r.deleted = 0) ∧
    (∀ x r, (GetNode st drv x).1 = some r → r.deleted = 0) ∧
    (∀ x y r, (GetNodeByCode st drv x y).1 = some r → r.deleted = 0) ∧
    (∀ x r, (GetFlowInstance st drv x).1 = some r → r.deleted = 0) ∧
    (∀ x r, (GetFlowInstanceByNode st drv x).1 = some r → r.deleted = 0) ∧
    (∀ x r, (GetNodeInstance st drv x).1 = some r → r.deleted = 0) ∧
    (∀ x r, (GetForm st drv x).1 = some r → r.deleted = 0) ∧
    (∀ x, ∀ r ∈ (QueryNodeRouters st drv x).1, r.deleted = 0) ∧
    (∀ x, ∀ r ∈ (QueryNodeAssignments st drv x).1, r.deleted = 0) ∧
    (∀ x, ∀ r ∈ (QueryNodeCandidates st drv x).1, r.deleted = 0) ∧
    (∀ flowCode userID, ∀ r ∈ (QueryTodo st drv flowCode userID).1,
      ∃ j ∈ sqlTodoFrom st, r = j.select ∧ j.ni.deleted = 0 ∧ j.fi.deleted = 0 ∧
        (∀ n ∈ j.n, n.deleted = 0) ∧ (∀ f ∈ j.f, f.deleted = 0)) ∧
    (∀ flowCode userID lastID count, ∀ r ∈ (QueryDone st drv flowCode userID lastID count).1,
      ∃ j ∈ sqlDoneFrom st, r = j.select ∧ j.ni.deleted = 0 ∧ j.fi.deleted = 0 ∧
        (∀ n ∈ j.n, n.deleted = 0) ∧ (∀ f ∈ j.f, f.deleted = 0) ∧
        (∀ fw ∈ j.fw, fw.deleted = 0)) ∧
    (∀ x, ∀ r ∈ (QueryHistory st drv x).1,
      ∃ ni ∈ st.nodeInstances, ∃ n ∈ st.nodes,
        r = historySelect (ni, n) ∧ ni.deleted = 0 ∧ n.deleted = 0) := by
  refine ⟨?_, ?_, ?_, ?_, ?_, ?_, ?_, ?_, ?_, ?_, ?_, ?_, ?_, ?_⟩
  · intro x r h
    unfold GetFlow at h
    split at h
    · split at h <;> simp at h
    · rename_i item heq
      have hm := dbSelectOne_mem _ _ _ r heq h
      have hf := (List.mem_filter.1 ((List.take_sublist _ _).subset hm)).2
      simp only [decide_eq_true_eq] at hf
      exact hf.1
  · intro x r h
    unfold GetFlowByCode at h
    split at h
    · split at h <;> simp at h
    · rename_i item heq
      have hm := dbSelectOne_mem _ _ _ r heq h
      unfold sqlFlowByCode at hm
      have hf := (List.mem_filter.1
        ((List.mem_insertionSort _).1 ((List.take_sublist _ _).subset hm))).2
      simp only [decide_eq_true_eq] at hf
      exact hf.1
  · intro x r h
    unfold GetNode at h
    split at h
    · split at h <;> simp at h
    · rename_i item heq
      have hm := dbSelectOne_mem _ _ _ r heq h
      have hf := (List.mem_filter.1 hm).2
      simp only [decide_eq_true_eq] at hf
      exact hf.1
  · intro x y r h
    unfold GetNodeByCode at h
    split at h
    · split at h <;> simp at h
    · rename_i item heq
      have hm := dbSelectOne_mem _ _ _ r heq h
      have hf := (List.mem_filter.1
        ((List.mem_insertionSort _).1 ((List.take_sublist _ _).subset hm))).2
      simp only [decide_eq_true_eq] at hf
      exact hf.1
  · intro x r h
    unfold GetFlowInstance at h
    split at h
    · split at h <;> simp at h
    · rename_i item heq
      have hm := dbSelectOne_mem _ _ _ r heq h
      have hf := (List.mem_filter.1 ((List.take_sublist _ _).subset hm)).2
      simp only [decide_eq_true_eq] at hf
      exact hf.1
  · intro x r h
    unfold GetFlowInstanceByNode at h
    split at h
    · split at h <;> simp at h
    · rename_i item heq
      have hm := dbSelectOne_mem _ _ _ r heq h
      have hf := (List.mem_filter.1 ((List.take_sublist _ _).subset hm)).2
      simp only [decide_eq_true_eq] at hf
      exact hf.1
  · intro x r h
    unfold GetNodeInstance at h
    split at h
    · split at h <;> simp at h
    · rename_i item heq
      have hm := dbSelectOne_mem _ _ _ r heq h
      have hf := (List.mem_filter.1 ((List.take_sublist _ _).subset hm)).2
      simp only [decide_eq_true_eq] at hf
      exact hf.1
  · intro x r h
    unfold GetForm at h
    split at h
    · split at h <;> simp at h
    · rename_i item heq
      have hm := dbSelectOne_mem _ _ _ r heq h
      have hf := (List.mem_filter.1 hm).2
      simp only [decide_eq_true_eq] at hf
      exact hf.1
  · intro x r h
    unfold QueryNodeRouters at h
    split at h
    · simp at h
    · rename_i items heq
      have hm := dbSelect_mem _ _ r (by rw [heq]; exact h)
      unfold sqlNodeRouters at hm
      have hf := (List.mem_filter.1 hm).2
      simp only [decide_eq_true_eq] at hf
      exact hf.1
  · intro x r h
    unfold QueryNodeAssignments at h
    split at h
    · simp at h
    · rename_i items heq
      have hm := dbSelect_mem _ _ r (by rw [heq]; exact h)
      have hf := (List.mem_filter.1 hm).2
      simp only [decide_eq_true_eq] at hf
      exact hf.1
  · intro x r h
    unfold QueryNodeCandidates at h
    split at h
    · simp at h
    · rename_i items heq
      have hm := dbSelect_mem _ _ r (by rw [heq]; exact h)
      have hf := (List.mem_filter.1 hm).2
      simp only [decide_eq_true_eq] at hf
      exact hf.1
  · intro flowCode userID r h
    unfold QueryTodo at h
    split at h
    · simp at h
    · rename_i items heq
      have hm := dbSelect_mem _ _ r (by rw [heq]; exact h)
      obtain ⟨j, hj, rfl⟩ := List.mem_map.1 hm
      have hj2 := List.mem_filter.1 ((List.mem_insertionSort _).1 hj)
      obtain ⟨hfd, hn, hf⟩ := sqlTodoFrom_deleted st j hj2.1
      have hd : j.ni.deleted = 0 := by
        have hw := hj2.2
        unfold sqlTodoWhere at hw
        split at hw <;> simp only [Bool.and_eq_true, decide_eq_true_eq] at hw
        · exact hw.1.1
        · exact hw.1
      exact ⟨j, hj2.1, rfl, hd, hfd.trans hd, fun n hn1 => (hn n hn1).trans hd,
        fun f hf1 => (hf f hf1).trans hd⟩
  · intro flowCode userID lastID count r h
    unfold QueryDone at h
    dsimp only at h
    generalize (if count < 0 then some (Error.driver "Error 1064: syntax") else drv) = stmt at h
    split at h
    · simp at h
    · rename_i items heq
      have hm := dbSelect_mem _ _ r (by rw [heq]; exact h)
      obtain ⟨j, hj, rfl⟩ := List.mem_map.1 hm
      have hj2 := List.mem_filter.1
        ((List.mem_insertionSort _).1 ((List.take_sublist _ _).subset hj))
      have hd : j.ni.deleted = 0 := by
        have hw := hj2.2
        unfold sqlDoneWhere at hw
        dsimp only at hw
        split at hw <;> split at hw <;>
          simp only [Bool.and_eq_true, decide_eq_true_eq] at hw
        · exact hw.1.1.1
        · exact hw.1.1
        · exact hw.1.1
        · exact hw.1
      have hfrom := hj2.1
      simp only [sqlDoneFrom, List.mem_flatMap, List.mem_map] at hfrom
      obtain ⟨j0, hj0, fw, hfw, rfl⟩ := hfrom
      obtain ⟨hfd, hn, hf⟩ := sqlTodoFrom_deleted st j0 hj0
      refine ⟨_, hj2.1, rfl, hd, hfd.trans hd, fun n hn1 => (hn n hn1).trans hd,
        fun f hf1 => (hf f hf1).trans hd, ?_⟩
      intro fw1 hfw1
      obtain rfl : fw = some fw1 := hfw1
      cases hjn : j0.n with
      | none => rw [hjn] at hfw; simp at hfw
      | some n1 =>
        rw [hjn] at hfw
        have h2 := (mem_leftJoin_some _ _ _ hfw).2
        simp only [decide_eq_true_eq] at h2
        exact h2.2.trans ((hn n1 (by rw [hjn]; rfl)).trans hd)
  · intro x r h
    unfold QueryHistory at h
    split at h
    · simp at h
    · rename_i items heq
      have hm := dbSelect_mem _ _ r (by rw [heq]; exact h)
      obtain ⟨⟨ni, n⟩, hj, rfl⟩ := List.mem_map.1 hm
      obtain ⟨h1, h2, -, h4, h5, -, -⟩ :=
        (mem_sqlHistoryFrom st x ni n).1 ((List.mem_insertionSort _).1 hj)
      exact ⟨ni, h1, n, h2, rfl, h4, h5⟩

/-- Witness for C11: `GetNode` on `definitionStore` returns the live node `n1`. -/
theorem reads_return_live_rows_witness :
    (GetNode definitionStore none "n1").1 = some (mkNode 1 "n1" "f1" "startEvent") ∧
    (mkNode 1 "n1" "f1" "startEvent").deleted = 0 :=
  ⟨by decide, (reads_return_live_rows definitionStore none).2.2.1 "n1" _ (by decide)⟩

/-! ### Paging -/

/-- The operator `LIKE` on examples: `%` and `_` are wildcards, and after the
escape character they stand for themselves. -/
theorem sqlLike_examples :
    sqlLike "%ea%".data "leave".data = true ∧
    sqlLike "%ae%".data "leave".data = false ∧
    sqlLike "l_ave".data "leave".data = true ∧
    sqlLike ['%', 'a', likeEscape, '%', '%'] "xa%y".data = true ∧
    sqlLike ['%', 'a', likeEscape, '%', '%'] "xaby".data = false ∧
    sqlLike ['a', likeEscape, '_'] "a_".data = true ∧
    sqlLike ['a', likeEscape, '_'] "ab".data = false ∧
    sqlLike ['a', likeEscape] ['a', likeEscape] = true := by
  refine ⟨by decide, by decide, by decide, by decide, by decide, by decide, by decide, by decide⟩

/-- Claim C14, the code at the failing input: for `pageIndex = 0` and
`pageSize = 1` the `uint` expression `(pageIndex - 1) * pageSize` wraps to
`2^64 - 1`, so `start` is -1 and `end` is 0; on every non-empty list both
guards `l > start` and `l > end` pass and the slice `items[-1:0]` panics; so
does `QueryGroupFlowPage` on a store with two flow groups. -/
theorem QueryGroupFlowPage_page_zero_panics :
    pageStart 0 1 = -1 ∧ pageEnd 0 1 = 0 ∧
    (∀ (a : Flow) (items : List Flow), pageData (a :: items) 0 1 =
      Except.error "runtime error: slice bounds out of range") ∧
    QueryGroupFlowPage definitionStore [] noFilter 0 1 =
      Except.error "runtime error: slice bounds out of range" := by
  have h1 : pageStart 0 1 = -1 := by decide
  have h2 : pageEnd 0 1 = 0 := by decide
  refine ⟨h1, h2, fun a items => ?_, by rfl⟩
  unfold pageData
  simp only [h1, h2, List.length_cons]
  have hpos : ((items.length + 1 : Nat) : Int) > 0 := by omega
  have hpos1 : ((items.length + 1 : Nat) : Int) > -1 := by omega
  rw [if_pos hpos1, if_pos hpos]
  simp [goSlice]

/-- Without overflow `start` is `(pageIndex - 1) * pageSize`. -/
theorem pageStart_eq (pageIndex pageSize : Nat) (h1 : 1 ≤ pageIndex) (h2 : 1 ≤ pageSize)
    (h3 : pageIndex * pageSize < 2 ^ 63) :
    pageStart pageIndex pageSize = (((pageIndex - 1) * pageSize : Nat) : Int) := by
  have hpi : pageIndex < 2 ^ 63 := lt_of_le_of_lt (Nat.le_mul_of_pos_right pageIndex h2) h3
  have hps : pageSize < 2 ^ 63 := lt_of_le_of_lt (Nat.le_mul_of_pos_left pageSize h1) h3
  have ha : (pageIndex - 1) * pageSize + pageSize = pageIndex * pageSize := by
    rw [← Nat.succ_mul]
    congr 1
    omega
  generalize hga : (pageIndex - 1) * pageSize = a at ha ⊢
  have e1 : pageIndex % 2 ^ 64 = pageIndex := Nat.mod_eq_of_lt (by omega)
  have e2 : (pageIndex + 2 ^ 64 - 1) % 2 ^ 64 = pageIndex - 1 := by omega
  have e3 : pageSize % 2 ^ 64 = pageSize := Nat.mod_eq_of_lt (by omega)
  have e4 : a % 2 ^ 64 = a := Nat.mod_eq_of_lt (by omega)
  unfold pageStart toInt wordSize
  rw [e1, e2, e3, hga, e4, e4, if_pos (by omega)]

/-- Without overflow `end` is `pageIndex * pageSize`. -/
theorem pageEnd_eq (pageIndex pageSize : Nat) (h1 : 1 ≤ pageIndex) (h2 : 1 ≤ pageSize)
    (h3 : pageIndex * pageSize < 2 ^ 63) :
    pageEnd pageIndex pageSize = ((pageIndex * pageSize : Nat) : Int) := by
  have hps : pageSize < 2 ^ 63 := lt_of_le_of_lt (Nat.le_mul_of_pos_left pageSize h1) h3
  have ha : (pageIndex - 1) * pageSize + pageSize = pageIndex * pageSize := by
    rw [← Nat.succ_mul]
    congr 1
    omega
  have e3 : pageSize % 2 ^ 64 = pageSize := Nat.mod_eq_of_lt (by omega)
  have hp : toInt pageSize = (pageSize : Int) := by
    unfold toInt wordSize
    rw [e3, if_pos hps]
  unfold pageEnd
  rw [pageStart_eq pageIndex pageSize h1 h2 h3, hp]
  generalize pageIndex * pageSize = b at ha h3 ⊢
  generalize (pageIndex - 1) * pageSize = a at ha ⊢
  unfold wrapInt
  omega

/-- Without overflow the page is the run of `pageSize` items that starts at
position `(pageIndex - 1) * pageSize`, cut at the end of the list. -/
theorem pageData_eq {α : Type} (items : List α) (pageIndex pageSize : Nat) (h1 : 1 ≤ pageIndex)
    (h2 : 1 ≤ pageSize) (h3 : pageIndex * pageSize < 2 ^ 63) :
    pageData items pageIndex pageSize =
      Except.ok ((items.drop ((pageIndex - 1) * pageSize)).take pageSize) := by
  have ha : (pageIndex - 1) * pageSize + pageSize = pageIndex * pageSize := by
    rw [← Nat.succ_mul]
    congr 1
    omega
  unfold pageData
  simp only [pageStart_eq pageIndex pageSize h1 h2 h3, pageEnd_eq pageIndex pageSize h1 h2 h3]
  generalize pageIndex * pageSize = b at ha
  generalize (pageIndex - 1) * pageSize = a at ha
  by_cases hl : (items.length : Int) > (a : Int)
  · rw [if_pos hl]
    by_cases hl2 : (items.length : Int) > (b : Int)
    · rw [if_pos hl2]
      unfold goSlice
      rw [if_pos (by omega)]
      have : (b : Int).toNat - (a : Int).toNat = pageSize := by
        simp only [Int.toNat_ofNat]
        omega
      rw [this, Int.toNat_ofNat]
    · rw [if_neg hl2]
      unfold goSlice
      rw [if_pos (by omega)]
      simp only [Int.toNat_ofNat]
      rw [List.take_of_length_le (by rw [List.length_drop]),
        List.take_of_length_le (by rw [List.length_drop]; omega)]
  · rw [if_neg hl]
    rw [List.drop_eq_nil_of_le (by omega), List.take_nil]

/-- With every call of the driver going through, the loop returns one result
for each item it can resolve, in order. -/
theorem QueryGroupFlowPage_loop_ok (st : Store) (data : List Flow)
    (h : ∀ g ∈ data, ∃ r, Resolves st g r) :
    ∃ result, QueryGroupFlowPage.loop st [] data = Except.ok result ∧
      List.Forall₂ (Resolves st) data result := by
  induction data with
  | nil => exact ⟨[], rfl, List.Forall₂.nil⟩
  | cons g rest ih =>
    obtain ⟨r, hr⟩ := h g (List.mem_cons_self g rest)
    obtain ⟨result, hres, hall⟩ := ih (fun x hx => h x (List.mem_cons_of_mem g hx))
    refine ⟨r :: result, ?_, List.Forall₂.cons hr hall⟩
    have hr1 : GetFlowQueryResultByCodeAndVersion st none g.code g.version = Except.ok r := hr
    simp only [QueryGroupFlowPage.loop, List.headD_nil, List.tail_nil, hr1, hres]

/-- Without overflow, on a non-empty list of resolvable groups and with every
call of the driver going through, `QueryGroupFlowPage` returns the number of
groups and the results of the groups of the page. -/
theorem QueryGroupFlowPage_page_ok (st : Store) (params : FlowQueryParam)
    (pageIndex pageSize : Nat) (h1 : 1 ≤ pageIndex) (h2 : 1 ≤ pageSize)
    (h3 : pageIndex * pageSize < 2 ^ 63) (hl : sqlGroupFlows st params ≠ [])
    (hres : ∀ g ∈ sqlGroupFlows st params, ∃ r, Resolves st g r) :
    ∃ result,
      QueryGroupFlowPage st [] params pageIndex pageSize =
        Except.ok (((sqlGroupFlows st params).length : Int), result, none) ∧
      List.Forall₂ (Resolves st)
        (((sqlGroupFlows st params).drop ((pageIndex - 1) * pageSize)).take pageSize) result := by
  have hsub : ∀ g ∈ ((sqlGroupFlows st params).drop ((pageIndex - 1) * pageSize)).take pageSize,
      ∃ r, Resolves st g r :=
    fun g hg => hres g ((List.drop_sublist _ _).subset ((List.take_sublist _ _).subset hg))
  obtain ⟨result, hloop, hall⟩ := QueryGroupFlowPage_loop_ok st _ hsub
  refine ⟨result, ?_, hall⟩
  have hlen : ¬ (sqlGroupFlows st params).length = 0 :=
    fun h => hl (List.length_eq_zero.1 h)
  unfold QueryGroupFlowPage
  simp only [List.headD_nil, dbSelect, List.tail_nil, if_neg hlen,
    pageData_eq _ pageIndex pageSize h1 h2 h3, hloop]

/-- The pages 1 to `k` of a list, one after another, are its first
`k * pageSize` items. -/
theorem flatMap_pages_eq_take {α : Type} (l : List α) (pageSize k : Nat) :
    (List.range k).flatMap (fun i => (l.drop (i * pageSize)).take pageSize) =
      l.take (k * pageSize) := by
  induction k with
  | zero => simp
  | succ k ih =>
    rw [List.range_succ, List.flatMap_append, ih, Nat.succ_mul, List.take_add]
    simp

/-- Claim C15: for pageIndex and pageSize at least 1 with
`pageIndex * pageSize < 2^63` (no overflow of `uint` or `int`), on a store
whose group query yields `l >= 1` groups, each resolvable by code and version,
and with every call of the driver going through: `QueryGroupFlowPage` returns
total `l` and a page of `min(pageSize, l - (pageIndex-1)*pageSize)` results
(the difference cut at 0), which are in order the results of the groups at
positions `(pageIndex-1)*pageSize` up to `min(l, pageIndex*pageSize)`; and the
pages 1 to `k`, when `k * pageSize` reaches `l`, put one after another are in
order the results of all the groups. -/
theorem QueryGroupFlowPage_pages_partition (st : Store) (params : FlowQueryParam)
    (pageIndex pageSize : Nat) (h1 : 1 ≤ pageIndex) (h2 : 1 ≤ pageSize)
    (h3 : pageIndex * pageSize < 2 ^ 63) (hl : 1 ≤ (sqlGroupFlows st params).length)
    (hres : ∀ g ∈ sqlGroupFlows st params, ∃ r, Resolves st g r) :
    ∃ result,
      QueryGroupFlowPage st [] params pageIndex pageSize =
        Except.ok (((sqlGroupFlows st params).length : Int), result, none) ∧
      result.length =
        min pageSize ((sqlGroupFlows st params).length - (pageIndex - 1) * pageSize) ∧
      List.Forall₂ (Resolves st)
        (((sqlGroupFlows st params).drop ((pageIndex - 1) * pageSize)).take pageSize) result ∧
      ∀ k, (sqlGroupFlows st params).length ≤ k * pageSize → k * pageSize < 2 ^ 63 →
        List.Forall₂ (Resolves st) (sqlGroupFlows st params)
          ((List.range k).flatMap (fun i => groupPage st params (i + 1) pageSize)) := by
  have hne : sqlGroupFlows st params ≠ [] := by
    intro h
    rw [h] at hl
    simp at hl
  obtain ⟨result, hq, hall⟩ :=
    QueryGroupFlowPage_page_ok st params pageIndex pageSize h1 h2 h3 hne hres
  refine ⟨result, hq, ?_, hall, fun k hk hk3 => ?_⟩
  · rw [← hall.length_eq, List.length_take, List.length_drop]
  · have hpages : ∀ j, j ≤ k → List.Forall₂ (Resolves st)
        ((sqlGroupFlows st params).take (j * pageSize))
        ((List.range j).flatMap (fun i => groupPage st params (i + 1) pageSize)) := by
      intro j
      induction j with
      | zero => intro _; simp
      | succ j ih =>
        intro hj
        have hj3 : (j + 1) * pageSize < 2 ^ 63 :=
          lt_of_le_of_lt (Nat.mul_le_mul_right pageSize hj) hk3
        obtain ⟨res, hqj, hallj⟩ :=
          QueryGroupFlowPage_page_ok st params (j + 1) pageSize (by omega) h2 hj3 hne hres
        have hpage : groupPage st params (j + 1) pageSize = res := by
          unfold groupPage
          rw [hqj]
        rw [List.range_succ, List.flatMap_append, Nat.succ_mul, List.take_add]
        refine List.rel_append (ih (by omega)) ?_
        simp only [List.flatMap_cons, List.flatMap_nil, List.append_nil, hpage]
        simpa using hallj
    have := hpages k (le_refl k)
    rwa [List.take_of_length_le hk] at this

/-- Witness for C15: on `groupStore`, whose groups are `apply`, `leave`
(version 2) and `travel`, page 2 of size 2 is the one result of `travel` with
total 3, and pages 1 and 2 together hold the results of the three groups. -/
theorem QueryGroupFlowPage_pages_partition_witness :
    QueryGroupFlowPage groupStore [] noFilter 2 2 =
      Except.ok (3, [travelResult], none) ∧
    ((List.range 2).flatMap (fun i => groupPage groupStore noFilter (i + 1) 2)).map (·.code)
      = ["apply", "leave", "travel"] ∧
    ∃ result,
      QueryGroupFlowPage groupStore [] noFilter 2 2 =
        Except.ok (((sqlGroupFlows groupStore noFilter).length : Int), result, none) ∧
      result.length = min 2 ((sqlGroupFlows groupStore noFilter).length - (2 - 1) * 2) ∧
      List.Forall₂ (Resolves groupStore)
        (((sqlGroupFlows groupStore noFilter).drop ((2 - 1) * 2)).take 2) result ∧
      ∀ k, (sqlGroupFlows groupStore noFilter).length ≤ k * 2 → k * 2 < 2 ^ 63 →
        List.Forall₂ (Resolves groupStore) (sqlGroupFlows groupStore noFilter)
          ((List.range k).flatMap (fun i => groupPage groupStore noFilter (i + 1) 2)) :=
  ⟨by rfl, by decide,
    QueryGroupFlowPage_pages_partition groupStore noFilter 2 2 (by decide) (by decide)
      (by decide) (by decide)
      (by
        intro g hg
        have hg2 : g ∈ [{ Flow.zero with code := "apply", version := 1 },
            { Flow.zero with code := "leave", version := 2 },
            { Flow.zero with code := "travel", version := 1 }] := by
          have e : sqlGroupFlows groupStore noFilter =
              [{ Flow.zero with code := "apply", version := 1 },
               { Flow.zero with code := "leave", version := 2 },
               { Flow.zero with code := "travel", version := 1 }] := by decide
          rw [← e]
          exact hg
        simp only [List.mem_cons, List.mem_singleton, List.not_mem_nil, or_false] at hg2
        rcases hg2 with rfl | rfl | rfl
        · exact ⟨_, rfl⟩
        · exact ⟨_, rfl⟩
        · exact ⟨_, rfl⟩)⟩

/-! ### Calls of the driver that go through -/

/-- With every call of the driver going through, insertions put every row into
the working copy. -/
theorem Tx.Insert_ok (rows : List Row) (tran : Tx) (h : tran.script = []) :
    tran.Insert rows = ({ tran with work := tran.work.insertAll rows }, none) := by
  induction rows generalizing tran with
  | nil => rfl
  | cons r rs ih =>
    unfold Tx.Insert
    simp only [h, List.headD_nil, List.tail_nil]
    rw [ih _ rfl]
    rfl

/-- With every call of the driver going through, the loop of
`CreateNodeInstance` inserts every candidate. -/
theorem CreateNodeInstance_loop_ok (cands : List NodeCandidate) (tran : Tx)
    (h : tran.script = []) :
    CreateNodeInstance.loop tran cands =
      Except.ok { tran with work := tran.work.insertAll (cands.map Row.candidate) } := by
  induction cands generalizing tran with
  | nil => rfl
  | cons c cs ih =>
    unfold CreateNodeInstance.loop
    rw [Tx.Insert_ok _ _ h]
    simp only
    rw [ih { tran with work := tran.work.insertAll [Row.candidate c] } h]
    rfl

/-- With every call of the driver going through, `CreateNodeInstance` returns
no error and inserts the node-instance and its candidates. -/
theorem CreateNodeInstance_ok (st : Store) (ni : NodeInstance) (cands : List NodeCandidate) :
    CreateNodeInstance st [] ni cands =
      (none, (st.insert (Row.nodeInstance ni)).insertAll (cands.map Row.candidate)) := by
  unfold CreateNodeInstance dbBegin
  simp only [List.headD_nil, List.tail_nil]
  rw [Tx.Insert_ok _ _ rfl]
  simp only
  rw [CreateNodeInstance_loop_ok _ _ rfl]
  rfl

/-- Inserting candidates touches the candidate table only. -/
theorem insertAll_candidates_tables (cands : List NodeCandidate) (st : Store) :
    (st.insertAll (cands.map Row.candidate)).flows = st.flows ∧
    (st.insertAll (cands.map Row.candidate)).nodes = st.nodes ∧
    (st.insertAll (cands.map Row.candidate)).routers = st.routers ∧
    (st.insertAll (cands.map Row.candidate)).assignments = st.assignments ∧
    (st.insertAll (cands.map Row.candidate)).flowInstances = st.flowInstances ∧
    (st.insertAll (cands.map Row.candidate)).nodeInstances = st.nodeInstances := by
  induction cands generalizing st with
  | nil => exact ⟨rfl, rfl, rfl, rfl, rfl, rfl⟩
  | cons c cs ih =>
    have := ih (st.insert (Row.candidate c))
    exact this

/-- Inserting candidates keeps the candidates there were and adds a row for
each new one, with the fields given. -/
theorem insertAll_candidates_mem (cands : List NodeCandidate) (st : Store) :
    (∀ c ∈ st.candidates, c ∈ (st.insertAll (cands.map Row.candidate)).candidates) ∧
    (∀ c ∈ cands, ∃ c1 ∈ (st.insertAll (cands.map Row.candidate)).candidates,
      c1.node_instance_id = c.node_instance_id ∧ c1.candidate_id = c.candidate_id ∧
        c1.deleted = c.deleted) := by
  induction cands generalizing st with
  | nil => exact ⟨fun c hc => hc, fun c hc => by simp at hc⟩
  | cons c cs ih =>
    obtain ⟨h1, h2⟩ := ih (st.insert (Row.candidate c))
    have hsub : ∀ x ∈ st.candidates, x ∈ (st.insert (Row.candidate c)).candidates :=
      fun x hx => List.mem_append_left _ hx
    refine ⟨fun x hx => h1 x (hsub x hx), fun x hx => ?_⟩
    rcases List.mem_cons.1 hx with rfl | hx
    · exact ⟨_, h1 _ (List.mem_append_right _ (List.mem_singleton.2 rfl)), rfl, rfl, rfl⟩
    · exact h2 x hx

/-- Persisting a pending node-instance succeeds when every call of the driver
goes through. -/
theorem createPending_eq (env : Env) (es : EngineState) (fid prev vars : String) (node : Node)
    (cands : List String) :
    createPending env es fid prev vars node cands =
      Except.ok
        (taskEntry env es.seq node cands,
         { store := (es.store.insert (Row.nodeInstance
              (pendingRow env es.seq fid prev vars node))).insertAll
              ((candidateRows env (es.seq + 1) (env.uuid es.seq) cands).map Row.candidate),
           seq := es.seq + 1 + cands.length }) := by
  unfold createPending
  rw [CreateNodeInstance_ok]

/-! ### Fork and join -/

/-- The lookup of a node reads the node table only. -/
theorem GetNode_congr {a b : Store} (h : a.nodes = b.nodes) (drv : Option Error) (x : String) :
    GetNode a drv x = GetNode b drv x := by
  unfold GetNode
  rw [h]

/-- The routers of a node read the router table only. -/
theorem routersInOrder_congr {a b : Store} (h : a.routers = b.routers) (x : String) :
    routersInOrder a x = routersInOrder b x := by
  unfold routersInOrder QueryNodeRouters sqlNodeRouters
  rw [h]

/-- The branching policy reads the router table only. -/
theorem selectRouters_congr {a b : Store} (h : a.routers = b.routers) (env : Env)
    (vars : String) (node : Node) : selectRouters env a vars node = selectRouters env b vars node := by
  unfold selectRouters
  rw [routersInOrder_congr h]

/-- Candidate resolution reads the assignment table only. -/
theorem resolveCandidates_congr {a b : Store} (h : a.assignments = b.assignments) (env : Env)
    (vars : String) (node : Node) :
    resolveCandidates env a vars node = resolveCandidates env b vars node := by
  unfold resolveCandidates QueryNodeAssignments
  rw [h]

/-- The inflows of a node read the router table only. -/
theorem sqlNodeInflows_congr {a b : Store} (h : a.routers = b.routers) (x : String) :
    sqlNodeInflows a x = sqlNodeInflows b x := by
  unfold sqlNodeInflows
  rw [h]

/-- When a live row carries the record id, `GetNodeInstance` returns a live row
of the table that carries it. -/
theorem GetNodeInstance_of_exists (st : Store) (x : String)
    (h : ∃ row ∈ st.nodeInstances, row.deleted = 0 ∧ row.record_id = x) :
    ∃ row ∈ st.nodeInstances, row.deleted = 0 ∧ row.record_id = x ∧
      GetNodeInstance st none x = (some row, none) := by
  obtain ⟨r, hr, hd, hx⟩ := h
  cases hf : st.nodeInstances.filter (fun ni => ni.deleted = 0 ∧ ni.record_id = x) with
  | nil =>
    have : r ∈ st.nodeInstances.filter (fun ni => ni.deleted = 0 ∧ ni.record_id = x) :=
      List.mem_filter.2 ⟨hr, by simp [hd, hx]⟩
    rw [hf] at this
    simp at this
  | cons row rest =>
    have hm : row ∈ st.nodeInstances.filter (fun ni => ni.deleted = 0 ∧ ni.record_id = x) := by
      rw [hf]
      exact List.mem_cons_self _ _
    obtain ⟨hmem, hp⟩ := List.mem_filter.1 hm
    simp only [decide_eq_true_eq] at hp
    refine ⟨row, hmem, hp.1, hp.2, ?_⟩
    unfold GetNodeInstance
    rw [hf]
    rfl

/-- When a live row carries the record id and every live node-instance of record
id `x` belongs to the flow-instance `fid`, `GetFlowInstanceByNode` returns a row
of record id `fid`. -/
theorem GetFlowInstanceByNode_of_exists (st : Store) (x fid : String)
    (hni : ∃ row ∈ st.nodeInstances, row.deleted = 0 ∧ row.record_id = x)
    (hall : ∀ row ∈ st.nodeInstances, row.record_id = x → row.flow_instance_id = fid)
    (hfi : ∃ fi ∈ st.flowInstances, fi.deleted = 0 ∧ fi.record_id = fid) :
    ∃ fi, fi.record_id = fid ∧ GetFlowInstanceByNode st none x = (some fi, none) := by
  obtain ⟨r, hr, hd, hx⟩ := hni
  obtain ⟨f, hf, hfd, hfid⟩ := hfi
  have hsub : ∀ y, y ∈ (st.nodeInstances.filter
      (fun ni => ni.deleted = 0 ∧ ni.record_id = x)).map (·.flow_instance_id) ↔ y = fid := by
    intro y
    simp only [List.mem_map, List.mem_filter, decide_eq_true_eq]
    constructor
    · rintro ⟨row, ⟨hrow, -, hrx⟩, rfl⟩
      exact hall row hrow hrx
    · rintro rfl
      exact ⟨r, ⟨hr, hd, hx⟩, hall r hr hx⟩
  cases hflt : st.flowInstances.filter (fun fi => fi.deleted = 0 ∧ fi.record_id ∈
      (st.nodeInstances.filter (fun ni => ni.deleted = 0 ∧ ni.record_id = x)).map
        (·.flow_instance_id)) with
  | nil =>
    have : f ∈ st.flowInstances.filter (fun fi => fi.deleted = 0 ∧ fi.record_id ∈
        (st.nodeInstances.filter (fun ni => ni.deleted = 0 ∧ ni.record_id = x)).map
          (·.flow_instance_id)) :=
      List.mem_filter.2 ⟨hf, by simp only [decide_eq_true_eq]; exact ⟨hfd, (hsub _).2 hfid⟩⟩
    rw [hflt] at this
    simp at this
  | cons fi rest =>
    have hm : fi ∈ st.flowInstances.filter (fun fi => fi.deleted = 0 ∧ fi.record_id ∈
        (st.nodeInstances.filter (fun ni => ni.deleted = 0 ∧ ni.record_id = x)).map
          (·.flow_instance_id)) := by
      rw [hflt]
      exact List.mem_cons_self _ _
    have hp := (List.mem_filter.1 hm).2
    simp only [decide_eq_true_eq] at hp
    refine ⟨fi, (hsub _).1 hp.2, ?_⟩
    unfold GetFlowInstanceByNode
    rw [hflt]
    rfl

/-- Nothing created: the state is unchanged. -/
theorem TasksCreated_nil (env : Env) (fid sid : String) (es : EngineState) :
    TasksCreated env fid sid es es [] :=
  { rows := ⟨[], List.Forall₂.nil, by simp⟩
    ids := ⟨[], rfl, List.Pairwise.nil, fun k hk => by simp at hk⟩
    seq_le := le_refl _
    cands_keep := fun c hc => hc
    cands_new := fun x hx => by simp at hx
    nodes_eq := rfl
    routers_eq := rfl
    assignments_eq := rfl
    flowInstances_eq := rfl }

/-- One more pending node persisted first, by `createPending` with a single
candidate. -/
theorem TasksCreated_cons (env : Env) (fid sid vars : String) (es0 es1 : EngineState)
    (node : Node) (u : String) (entries : List NextNode)
    (h : TasksCreated env fid sid
      { store := (es0.store.insert (Row.nodeInstance
          (pendingRow env es0.seq fid sid vars node))).insertAll
          ((candidateRows env (es0.seq + 1) (env.uuid es0.seq) [u]).map Row.candidate),
        seq := es0.seq + 1 + [u].length } es1 entries) :
    TasksCreated env fid sid es0 es1 (taskEntry env es0.seq node [u] :: entries) := by
  obtain ⟨rows, hrows, hni⟩ := h.rows
  obtain ⟨ks, hks, hsorted, hbound⟩ := h.ids
  have htab := insertAll_candidates_tables
    (candidateRows env (es0.seq + 1) (env.uuid es0.seq) [u])
    (es0.store.insert (Row.nodeInstance (pendingRow env es0.seq fid sid vars node)))
  have hcm := insertAll_candidates_mem
    (candidateRows env (es0.seq + 1) (env.uuid es0.seq) [u])
    (es0.store.insert (Row.nodeInstance (pendingRow env es0.seq fid sid vars node)))
  have hseq := h.seq_le
  simp only [List.length_singleton] at hseq hbound
  refine
    { rows := ⟨{ pendingRow env es0.seq fid sid vars node with
          id := nextID (es0.store.nodeInstances.map (·.id)) } :: rows,
        List.Forall₂.cons ⟨rfl, rfl, rfl, rfl, rfl, rfl⟩ hrows, ?_⟩
      ids := ⟨es0.seq :: ks, by simp [hks, taskEntry], List.pairwise_cons.2 ⟨fun k hk => ?_, hsorted⟩,
        fun k hk => ?_⟩
      seq_le := by omega
      cands_keep := fun c hc => h.cands_keep c (hcm.1 c hc)
      cands_new := fun x hx => ?_
      nodes_eq := h.nodes_eq.trans htab.2.1
      routers_eq := h.routers_eq.trans htab.2.2.1
      assignments_eq := h.assignments_eq.trans htab.2.2.2.1
      flowInstances_eq := h.flowInstances_eq.trans htab.2.2.2.2.1 }
  · rw [hni, htab.2.2.2.2.2]
    simp [Store.insert]
  · have := (hbound k hk).1
    omega
  · rcases List.mem_cons.1 hk with rfl | hk
    · omega
    · have := hbound k hk
      omega
  · rcases List.mem_cons.1 hx with rfl | hx
    · obtain ⟨c1, hc1, h1, h2, h3⟩ := hcm.2
        { id := 0, record_id := env.uuid (es0.seq + 1), node_instance_id := env.uuid es0.seq,
          candidate_id := u, created := env.now, deleted := 0 }
        (by simp [candidateRows])
      exact ⟨c1, h.cands_keep c1 hc1, h3, h1, h2⟩
    · exact h.cands_new x hx

/-- The loop of `Advance` over routers that lead to user tasks, each with one
candidate, persists one pending node-instance per router, in order. -/
theorem advanceAll_creates_tasks (env : Env) (st : Store) (n : Nat) (task : Nat → Node)
    (user : Nat → String)
    (hfound : ∀ i, i < n → (GetNode st none (task i).record_id).1 = some (task i))
    (hkind : ∀ i, i < n → (task i).type_code = "userTask")
    (huser : ∀ i, i < n → ∀ vars, resolveCandidates env st vars (task i) = Except.ok [user i])
    (fid sid vars : String) :
    ∀ (idxs : List Nat) (rs : List NodeRouter) (fuel : Nat) (es0 : EngineState)
      (acc : HandleResult),
      (∀ i ∈ idxs, i < n) →
      rs.map (·.target_node_id) = idxs.map (fun i => (task i).record_id) →
      rs.length ≤ fuel →
      es0.store.nodes = st.nodes → es0.store.assignments = st.assignments →
      ∃ es1 entries,
        advanceAll env fid sid vars fuel es0 acc rs =
          Except.ok ({ acc with NextNodes := acc.NextNodes ++ entries }, es1) ∧
        List.Forall₂ (fun i x => x.nodeID = (task i).record_id ∧ x.candidateIDs = [user i])
          idxs entries ∧
        TasksCreated env fid sid es0 es1 entries := by
  intro idxs
  induction idxs with
  | nil =>
    intro rs fuel es0 acc _ hmap _ _ _
    have hrs : rs = [] := by simpa using hmap
    subst hrs
    refine ⟨es0, [], ?_, List.Forall₂.nil, TasksCreated_nil env fid sid es0⟩
    cases fuel <;> simp [advanceAll]
  | cons i idxs ih =>
    intro rs fuel es0 acc hlt hmap hfuel hnodes hassign
    cases rs with
    | nil => simp at hmap
    | cons r rest =>
      simp only [List.map_cons, List.cons.injEq] at hmap
      obtain ⟨hr, hrest⟩ := hmap
      have hi : i < n := hlt i (List.mem_cons_self _ _)
      cases fuel with
      | zero => simp at hfuel
      | succ fuel =>
        have hget : (GetNode es0.store none r.target_node_id).1 = some (task i) := by
          rw [GetNode_congr hnodes, hr]
          exact hfound i hi
        have hcand : resolveCandidates env es0.store vars (task i) = Except.ok [user i] := by
          rw [resolveCandidates_congr hassign]
          exact huser i hi vars
        have htab := insertAll_candidates_tables
          (candidateRows env (es0.seq + 1) (env.uuid es0.seq) [user i])
          (es0.store.insert (Row.nodeInstance (pendingRow env es0.seq fid sid vars (task i))))
        obtain ⟨es1, entries, hadv, hall, hcreated⟩ := ih rest fuel
          { store := (es0.store.insert (Row.nodeInstance
              (pendingRow env es0.seq fid sid vars (task i)))).insertAll
              ((candidateRows env (es0.seq + 1) (env.uuid es0.seq) [user i]).map Row.candidate),
            seq := es0.seq + 1 + [user i].length }
          { acc with NextNodes := acc.NextNodes ++ [taskEntry env es0.seq (task i) [user i]] }
          (fun j hj => hlt j (List.mem_cons_of_mem _ hj)) hrest
          (by simpa using hfuel)
          (htab.2.1.trans hnodes) (htab.2.2.2.1.trans hassign)
        refine ⟨es1, taskEntry env es0.seq (task i) [user i] :: entries, ?_,
          List.Forall₂.cons ⟨rfl, rfl⟩ hall,
          TasksCreated_cons env fid sid vars es0 es1 (task i) (user i) entries hcreated⟩
        rw [advanceAll]
        simp only [hget, hkind i hi, if_true, hcand, createPending_eq]
        rw [hadv]
        simp [List.append_assoc]

/-- Marking the node-instance of the first pending node processed leaves the
other nodes pending; the rows of the processed one stay live rows of the
flow-instance, created from the same node-instance. -/
theorem TasksPending_after_update (env : Env) (st : Store) (n : Nat) (task : Nat → Node)
    (user : Nat → String) (fid sid : String) (es : EngineState) (x : NextNode)
    (rest : List NextNode) (info : NodeInstanceInfo) (hstatus : info.status = some 2)
    (hdel : info.deleted = none)
    (h : TasksPending env st n task user fid sid es (x :: rest)) :
    TasksPending env st n task user fid sid
      { es with store := (UpdateNodeInstance es.store none x.nodeInstanceID info).2 } rest ∧
    (∃ row ∈ (UpdateNodeInstance es.store none x.nodeInstanceID info).2.nodeInstances,
      row.deleted = 0 ∧ row.record_id = x.nodeInstanceID) ∧
    (∀ row ∈ (UpdateNodeInstance es.store none x.nodeInstanceID info).2.nodeInstances,
      row.record_id = x.nodeInstanceID →
        row.flow_instance_id = fid ∧ row.prev_node_instance_id = sid) := by
  have hst2 : (UpdateNodeInstance es.store none x.nodeInstanceID info).2.nodeInstances =
      es.store.nodeInstances.map
        (fun r => if r.record_id = x.nodeInstanceID then info.set r else r) := rfl
  have hmem : ∀ row, row ∈ (UpdateNodeInstance es.store none x.nodeInstanceID info).2.nodeInstances →
      ∃ r ∈ es.store.nodeInstances, (r.record_id = x.nodeInstanceID ∧ row = info.set r) ∨
        (r.record_id ≠ x.nodeInstanceID ∧ row = r) := by
    intro row hrow
    rw [hst2] at hrow
    obtain ⟨r, hr, rfl⟩ := List.mem_map.1 hrow
    by_cases hc : r.record_id = x.nodeInstanceID
    · exact ⟨r, hr, Or.inl ⟨hc, by simp [hc]⟩⟩
    · exact ⟨r, hr, Or.inr ⟨hc, by simp [hc]⟩⟩
  have hkeep : ∀ r ∈ es.store.nodeInstances, r.record_id ≠ x.nodeInstanceID →
      r ∈ (UpdateNodeInstance es.store none x.nodeInstanceID info).2.nodeInstances := by
    intro r hr hne
    rw [hst2]
    exact List.mem_map.2 ⟨r, hr, by simp [hne]⟩
  have hnd := h.ids_nodup
  rw [List.map_cons, List.nodup_cons] at hnd
  have hne : ∀ y ∈ rest, y.nodeInstanceID ≠ x.nodeInstanceID := by
    intro y hy heq
    exact hnd.1 (List.mem_map.2 ⟨y, hy, heq⟩)
  have hxmem : x ∈ x :: rest := List.mem_cons_self _ _
  refine ⟨?_, ?_, ?_⟩
  · refine
      { nodes_eq := h.nodes_eq
        routers_eq := h.routers_eq
        flow_instance := h.flow_instance
        entry := fun y hy => h.entry y (List.mem_cons_of_mem _ hy)
        row_exists := fun y hy => ?_
        row_pending := fun y hy row hrow hid => ?_
        candidate := fun y hy => h.candidate y (List.mem_cons_of_mem _ hy)
        only_pending := fun row hrow hd hs hf => ?_
        ids_nodup := hnd.2
        count_le := by
          have := h.count_le
          simp only [List.length_cons] at this
          omega }
    · obtain ⟨r, hr, hid⟩ := h.row_exists y (List.mem_cons_of_mem _ hy)
      exact ⟨r, hkeep r hr (by rw [hid]; exact hne y hy), hid⟩
    · obtain ⟨r, hr, hcase⟩ := hmem row hrow
      rcases hcase with ⟨hc, rfl⟩ | ⟨_, rfl⟩
      · exact absurd (hid.symm.trans hc) (fun e => hne y hy e)
      · exact h.row_pending y (List.mem_cons_of_mem _ hy) _ hr hid
    · obtain ⟨r, hr, hcase⟩ := hmem row hrow
      rcases hcase with ⟨hc, rfl⟩ | ⟨hc, rfl⟩
      · have : (info.set r).status = 2 := by simp [NodeInstanceInfo.set, hstatus]
        rw [this] at hs
        exact absurd hs (by decide)
      · obtain ⟨z, hz, hzid⟩ := h.only_pending _ hr hd hs hf
        rcases List.mem_cons.1 hz with rfl | hz
        · exact absurd hzid hc
        · exact ⟨z, hz, hzid⟩
  · obtain ⟨r, hr, hid⟩ := h.row_exists x hxmem
    have hp := h.row_pending x hxmem r hr hid
    refine ⟨info.set r, ?_, ?_, hid⟩
    · rw [hst2]
      exact List.mem_map.2 ⟨r, hr, by simp [hid]⟩
    · have : (info.set r).deleted = r.deleted := by simp [NodeInstanceInfo.set, hdel]
      rw [this]
      exact hp.2.1
  · intro row hrow hid
    obtain ⟨r, hr, hcase⟩ := hmem row hrow
    rcases hcase with ⟨hc, rfl⟩ | ⟨hc, rfl⟩
    · have hp := h.row_pending x hxmem r hr hc
      exact ⟨hp.2.2.2.1, hp.2.2.2.2.2⟩
    · exact absurd hid hc

/-- The join of the shape waits exactly while another user task of the shape is
pending. -/
theorem joinWaits_iff_pending (env : Env) (st : Store) (n : Nat) (flowCode nodeCode : String)
    (flow : Flow) (start fork join stop : Node) (task : Nat → Node) (user : Nat → String)
    (hs : ForkJoinShape env st n flowCode nodeCode flow start fork join stop task user)
    (fid sid : String) (es2 : EngineState) (x : NextNode) (rest : List NextNode)
    (hinv : TasksPending env st n task user fid sid es2 rest)
    (hcount : rest.length + 1 ≤ n)
    (hrow : ∃ row ∈ es2.store.nodeInstances, row.deleted = 0 ∧ row.record_id = x.nodeInstanceID)
    (hall : ∀ row ∈ es2.store.nodeInstances, row.record_id = x.nodeInstanceID →
      row.flow_instance_id = fid ∧ row.prev_node_instance_id = sid) :
    joinWaits es2.store fid x.nodeInstanceID join = !decide (rest = []) ∧
    (CheckFlowInstanceTodo es2.store none fid).1 = !decide (rest = []) := by
  obtain ⟨row2, hrow2, -, hid2, hget⟩ := GetNodeInstance_of_exists es2.store x.nodeInstanceID hrow
  have hprev := (hall row2 hrow2 hid2).2
  have hin : (sqlNodeInflows es2.store join.record_id).length = n := by
    rw [sqlNodeInflows_congr hinv.routers_eq]
    exact hs.join_inflows
  cases rest with
  | nil =>
    have hnone : ∀ row ∈ es2.store.nodeInstances,
        ¬ (row.deleted = 0 ∧ row.status = 1 ∧ row.flow_instance_id = fid) := by
      rintro row hrow ⟨hd, hst, hf⟩
      obtain ⟨z, hz, -⟩ := hinv.only_pending row hrow hd hst hf
      simp at hz
    have hsib : sqlPendingSiblings es2.store fid row2 = [] := by
      unfold sqlPendingSiblings
      rw [List.filter_eq_nil_iff]
      intro row hrow hp
      simp only [decide_eq_true_eq] at hp
      exact hnone row hrow ⟨hp.1, hp.2.1, hp.2.2.1⟩
    constructor
    · unfold joinWaits
      rw [hget]
      simp [hsib]
    · have hflt : es2.store.nodeInstances.filter
          (fun ni => ni.deleted = 0 ∧ ni.status = 1 ∧ ni.flow_instance_id = fid) = [] := by
        rw [List.filter_eq_nil_iff]
        intro row hrow hp
        simp only [decide_eq_true_eq] at hp
        exact hnone row hrow hp
      simp only [CheckFlowInstanceTodo, dbSelectInt, sqlCountTodo, hflt]
      rfl
  | cons y rest1 =>
    obtain ⟨ry, hry, hyid⟩ := hinv.row_exists y (List.mem_cons_self _ _)
    obtain ⟨-, hyd, hys, hyf, -, hyp⟩ := hinv.row_pending y (List.mem_cons_self _ _) ry hry hyid
    have hn2 : 2 ≤ n := by
      simp only [List.length_cons] at hcount
      omega
    have hsib : ry ∈ sqlPendingSiblings es2.store fid row2 := by
      unfold sqlPendingSiblings
      exact List.mem_filter.2 ⟨hry, by simp [hyd, hys, hyf, hyp, hprev]⟩
    have hsibne : (sqlPendingSiblings es2.store fid row2).isEmpty = false := by
      cases hl : sqlPendingSiblings es2.store fid row2 with
      | nil => rw [hl] at hsib; simp at hsib
      | cons a l => rfl
    constructor
    · unfold joinWaits
      rw [hget, hs.join_kind, hin]
      simp [hsibne, hn2]
    · have hmem : ry ∈ es2.store.nodeInstances.filter
          (fun ni => ni.deleted = 0 ∧ ni.status = 1 ∧ ni.flow_instance_id = fid) :=
        List.mem_filter.2 ⟨hry, by simp [hyd, hys, hyf]⟩
      have hpos : 0 < (es2.store.nodeInstances.filter
          (fun ni => ni.deleted = 0 ∧ ni.status = 1 ∧ ni.flow_instance_id = fid)).length :=
        List.length_pos_of_mem hmem
      simp only [CheckFlowInstanceTodo, dbSelectInt, sqlCountTodo]
      simp only [List.cons_ne_nil, decide_False, Bool.not_false, decide_eq_true_eq, gt_iff_lt,
        Int.natCast_pos]
      exact hpos

/-- From a processed user task of the shape, `Advance` stops at the join while
another task is pending, and otherwise passes the join, reaches the end event
and, nothing being pending, reports `IsEnd`. -/
theorem Advance_from_task (env : Env) (st : Store) (n : Nat) (flowCode nodeCode : String)
    (flow : Flow) (start fork join stop : Node) (task : Nat → Node) (user : Nat → String)
    (hs : ForkJoinShape env st n flowCode nodeCode flow start fork join stop task user)
    (fid sid vars : String) (es2 : EngineState) (x : NextNode) (rest : List NextNode)
    (fuel : Nat) (hfuel : 2 ≤ fuel) (i : Nat) (hi : i < n)
    (hinv : TasksPending env st n task user fid sid es2 rest)
    (hcount : rest.length + 1 ≤ n)
    (hrow : ∃ row ∈ es2.store.nodeInstances, row.deleted = 0 ∧ row.record_id = x.nodeInstanceID)
    (hall : ∀ row ∈ es2.store.nodeInstances, row.record_id = x.nodeInstanceID →
      row.flow_instance_id = fid ∧ row.prev_node_instance_id = sid) :
    ∃ res es3, Advance env fuel es2 fid x.nodeInstanceID vars (task i) = Except.ok (res, es3) ∧
      res.IsEnd = decide (rest = []) ∧ (rest ≠ [] → es3 = es2) := by
  obtain ⟨hjw, hchk⟩ := joinWaits_iff_pending env st n flowCode nodeCode flow start fork join
    stop task user hs fid sid es2 x rest hinv hcount hrow hall
  obtain ⟨r, hR, hexpr, htgt⟩ := hs.task_out i hi
  obtain ⟨rj, hRj, htgtj⟩ := hs.join_out
  have hkind := hs.task_kind i hi
  have hsel : selectRouters env es2.store vars (task i) = Except.ok [r] := by
    rw [selectRouters_congr hinv.routers_eq]
    unfold selectRouters
    rw [hkind, hR]
    simp [guardHolds, hexpr]
  have hselj : selectRouters env es2.store vars join = Except.ok [rj] := by
    rw [selectRouters_congr hinv.routers_eq]
    unfold selectRouters
    rw [hs.join_kind, hRj]
    simp
  have hgetj : (GetNode es2.store none r.target_node_id).1 = some join := by
    rw [GetNode_congr hinv.nodes_eq, htgt]
    exact hs.join_found
  have hgets : (GetNode es2.store none rj.target_node_id).1 = some stop := by
    rw [GetNode_congr hinv.nodes_eq, htgtj]
    exact hs.stop_found
  obtain ⟨f1, rfl⟩ : ∃ f1, fuel = f1 + 2 := ⟨fuel - 2, by omega⟩
  have hnotend : ¬ (task i).type_code = "endEvent" := by rw [hkind]; decide
  have hj1 : ¬ join.type_code = "userTask" := by rw [hs.join_kind]; decide
  have hj2 : ¬ join.type_code = "endEvent" := by rw [hs.join_kind]; decide
  have hs1 : ¬ stop.type_code = "userTask" := by rw [hs.stop_kind]; decide
  unfold Advance
  rw [if_neg hnotend, hsel]
  simp only
  rw [advanceAll]
  simp only [hgetj, if_neg hj1, if_neg hj2, hjw]
  cases rest with
  | cons y rest1 =>
    simp only [List.cons_ne_nil, decide_False, Bool.not_false, if_true]
    have hadv : advanceAll env fid x.nodeInstanceID vars (f1 + 1) es2
        { IsEnd := false, NextNodes := [], flowInstanceID := fid } [] =
        Except.ok ({ IsEnd := false, NextNodes := [], flowInstanceID := fid }, es2) := by
      simp [advanceAll]
    rw [hadv]
    simp only
    have hc : CheckFlowInstanceTodo es2.store none fid = (true, none) := by
      have h2 : (CheckFlowInstanceTodo es2.store none fid).2 = none := rfl
      have h1 : (CheckFlowInstanceTodo es2.store none fid).1 = true := by simpa using hchk
      exact Prod.ext h1 h2
    refine ⟨{ IsEnd := false, NextNodes := [], flowInstanceID := fid }, es2, ?_, by simp,
      fun _ => rfl⟩
    unfold finishAdvance
    simp only [hc]
  | nil =>
    simp only [decide_True, Bool.not_true, Bool.false_eq_true, if_false, hselj, List.append_nil]
    rw [advanceAll]
    simp only [hgets, hs.stop_kind, if_neg (show ¬ ("endEvent" : String) = "userTask" by decide),
      if_true]
    have hadv : ∀ e a, advanceAll env fid x.nodeInstanceID vars f1 e a [] = Except.ok (a, e) := by
      intro e a
      cases f1 <;> simp [advanceAll]
    simp only [hadv]
    have hc : CheckFlowInstanceTodo es2.store none fid = (false, none) := by
      have h2 : (CheckFlowInstanceTodo es2.store none fid).2 = none := rfl
      have h1 : (CheckFlowInstanceTodo es2.store none fid).1 = false := by simpa using hchk
      exact Prod.ext h1 h2
    refine ⟨{ IsEnd := true, NextNodes := [], flowInstanceID := fid },
      { es2 with store :=
          (UpdateFlowInstance es2.store none fid { status := some 2, deleted := none }).2 },
      ?_, rfl, fun h => absurd rfl h⟩
    unfold finishAdvance
    simp only [hc]
    rfl

/-- One call of `HandleFlow` on a pending user task, by its candidate, gets as
far as `Advance`: the node-instance is found pending, the user is a candidate,
the row is marked processed, and `Advance` runs from the task with the prior
input of the row merged with the incoming one, on a state in which the other
tasks are still pending. -/
theorem HandleFlow_on_pending (env : Env) (st : Store) (n : Nat) (task : Nat → Node)
    (user : Nat → String)
    (hfound : ∀ i, i < n → (GetNode st none (task i).record_id).1 = some (task i))
    (fid sid input : String) (es : EngineState) (x : NextNode) (rest : List NextNode)
    (fuel : Nat) (hinv : TasksPending env st n task user fid sid es (x :: rest)) :
    ∃ row0 ∈ es.store.nodeInstances, ∃ i, i < n ∧ row0.record_id = x.nodeInstanceID ∧
      HandleFlow env fuel es x.nodeInstanceID (x.candidateIDs.headD "") input =
        Advance env fuel
          { es with store := (UpdateNodeInstance es.store none x.nodeInstanceID
            (processedInfo env row0 (x.candidateIDs.headD "") input)).2 }
          fid x.nodeInstanceID (env.mergeJSON row0.input_data input) (task i) ∧
      TasksPending env st n task user fid sid
        { es with store := (UpdateNodeInstance es.store none x.nodeInstanceID
          (processedInfo env row0 (x.candidateIDs.headD "") input)).2 } rest ∧
      (∃ row ∈ (UpdateNodeInstance es.store none x.nodeInstanceID
          (processedInfo env row0 (x.candidateIDs.headD "") input)).2.nodeInstances,
        row.deleted = 0 ∧ row.record_id = x.nodeInstanceID) ∧
      (∀ row ∈ (UpdateNodeInstance es.store none x.nodeInstanceID
          (processedInfo env row0 (x.candidateIDs.headD "") input)).2.nodeInstances,
        row.record_id = x.nodeInstanceID →
          row.flow_instance_id = fid ∧ row.prev_node_instance_id = sid) := by
  have hxmem : x ∈ x :: rest := List.mem_cons_self _ _
  obtain ⟨i, hi, hnode, -⟩ := hinv.entry x hxmem
  obtain ⟨row, hrow, hrid⟩ := hinv.row_exists x hxmem
  have hp := hinv.row_pending x hxmem row hrow hrid
  obtain ⟨row0, hrow0, -, hid0, hget⟩ :=
    GetNodeInstance_of_exists es.store x.nodeInstanceID ⟨row, hrow, hp.2.1, hrid⟩
  obtain ⟨-, -, hst0, -, hnode0, -⟩ := hinv.row_pending x hxmem row0 hrow0 hid0
  obtain ⟨c, hc, hcd, hcn, hcu⟩ := hinv.candidate x hxmem
  have hcmem : x.candidateIDs.headD "" ∈
      (QueryNodeCandidates es.store none row0.record_id).1.map (·.candidate_id) := by
    simp only [QueryNodeCandidates, dbSelect]
    exact List.mem_map.2 ⟨c, List.mem_filter.2 ⟨hc, by simp [hcd, hcn, hid0]⟩, hcu⟩
  obtain ⟨hinv2, hrow2, hall2⟩ := TasksPending_after_update env st n task user fid sid es x rest
    (processedInfo env row0 (x.candidateIDs.headD "") input) rfl rfl hinv
  have hgetn : (GetNode (UpdateNodeInstance es.store none x.nodeInstanceID
      (processedInfo env row0 (x.candidateIDs.headD "") input)).2 none row0.node_id).1 =
      some (task i) := by
    rw [GetNode_congr hinv2.nodes_eq, hnode0, hnode]
    exact hfound i hi
  obtain ⟨fi0, hfid0, hgetfi⟩ := GetFlowInstanceByNode_of_exists
    (UpdateNodeInstance es.store none x.nodeInstanceID
      (processedInfo env row0 (x.candidateIDs.headD "") input)).2 x.nodeInstanceID fid hrow2
    (fun r hr hid => (hall2 r hr hid).1) hinv2.flow_instance
  refine ⟨row0, hrow0, i, hi, hid0, ?_, hinv2, hrow2, hall2⟩
  unfold HandleFlow
  rw [hget]
  simp only
  rw [if_neg (not_not.2 hst0), if_neg (not_not.2 hcmem), hid0]
  have hup : UpdateNodeInstance es.store none x.nodeInstanceID
      (processedInfo env row0 (x.candidateIDs.headD "") input) =
      (none, (UpdateNodeInstance es.store none x.nodeInstanceID
        (processedInfo env row0 (x.candidateIDs.headD "") input)).2) := rfl
  rw [hup]
  simp only [hgetn, hgetfi, hfid0]

/-- One call of `HandleFlow` on a pending user task of the shape, by its
candidate: the call succeeds, reports `IsEnd` exactly when no other task is
pending, and leaves the other tasks pending. -/
theorem HandleFlow_step (env : Env) (st : Store) (n : Nat) (flowCode nodeCode : String)
    (flow : Flow) (start fork join stop : Node) (task : Nat → Node) (user : Nat → String)
    (hs : ForkJoinShape env st n flowCode nodeCode flow start fork join stop task user)
    (fid sid input : String) (es : EngineState) (x : NextNode) (rest : List NextNode)
    (fuel : Nat) (hfuel : 2 ≤ fuel)
    (hinv : TasksPending env st n task user fid sid es (x :: rest)) :
    ∃ res es1,
      HandleFlow env fuel es x.nodeInstanceID (x.candidateIDs.headD "") input =
        Except.ok (res, es1) ∧
      res.IsEnd = decide (rest = []) ∧
      (rest ≠ [] → TasksPending env st n task user fid sid es1 rest) := by
  obtain ⟨row0, -, i, hi, -, hcall, hinv2, hrow2, hall2⟩ := HandleFlow_on_pending env st n task
    user hs.task_found fid sid input es x rest fuel hinv
  have hcount : rest.length + 1 ≤ n := by
    have := hinv.count_le
    simpa using this
  obtain ⟨res, es3, hadv, hend, hsame⟩ := Advance_from_task env st n flowCode nodeCode flow start
    fork join stop task user hs fid sid (env.mergeJSON row0.input_data input)
    { es with store := (UpdateNodeInstance es.store none x.nodeInstanceID
      (processedInfo env row0 (x.candidateIDs.headD "") input)).2 } x rest fuel hfuel i hi
    hinv2 hcount hrow2 hall2
  refine ⟨res, es3, hcall.trans hadv, hend, fun hne => ?_⟩
  rw [hsame hne]
  exact hinv2

/-- The calls of `HandleFlow` on the pending user tasks of the shape, in any
order: every call but the last reports `IsEnd=false`, the last one reports
`IsEnd=true`. -/
theorem handleEach_flags (env : Env) (st : Store) (n : Nat) (flowCode nodeCode : String)
    (flow : Flow) (start fork join stop : Node) (task : Nat → Node) (user : Nat → String)
    (hs : ForkJoinShape env st n flowCode nodeCode flow start fork join stop task user)
    (fid sid : String) (input : NextNode → String) (fuel : Nat) (hfuel : 2 ≤ fuel) :
    ∀ (order : List NextNode) (es : EngineState), order ≠ [] →
      TasksPending env st n task user fid sid es order →
      handleEach env fuel input es order =
        List.replicate (order.length - 1) (some false) ++ [some true] := by
  intro order
  induction order with
  | nil => intro es h; exact absurd rfl h
  | cons x rest ih =>
    intro es _ hinv
    obtain ⟨res, es1, hcall, hend, hnext⟩ := HandleFlow_step env st n flowCode nodeCode flow start
      fork join stop task user hs fid sid (input x) es x rest fuel hfuel hinv
    unfold handleEach
    rw [hcall]
    simp only [isEndOf, stateAfter, hend]
    cases rest with
    | nil => simp [handleEach]
    | cons y rest1 =>
      rw [ih es1 (by simp) (hnext (by simp))]
      simp [List.replicate_succ]

/-- With every call of the driver going through, the loop of
`CreateFlowInstance` inserts every node-instance. -/
theorem CreateFlowInstance_loop_ok (nis : List NodeInstance) (tran : Tx)
    (h : tran.script = []) :
    CreateFlowInstance.loop tran nis =
      Except.ok { tran with work := tran.work.insertAll (nis.map Row.nodeInstance) } := by
  induction nis generalizing tran with
  | nil => rfl
  | cons c cs ih =>
    unfold CreateFlowInstance.loop
    rw [Tx.Insert_ok _ _ h]
    simp only
    rw [ih { tran with work := tran.work.insertAll [Row.nodeInstance c] } h]
    rfl

/-- With every call of the driver going through, `CreateFlowInstance` returns
no error and inserts the flow-instance and its node-instances. -/
theorem CreateFlowInstance_ok (st : Store) (fi : FlowInstance) (nis : List NodeInstance) :
    CreateFlowInstance st [] fi nis =
      (none, (st.insert (Row.flowInstance fi)).insertAll (nis.map Row.nodeInstance)) := by
  unfold CreateFlowInstance dbBegin
  simp only [List.headD_nil, List.tail_nil]
  rw [Tx.Insert_ok _ _ rfl]
  simp only
  rw [CreateFlowInstance_loop_ok _ _ rfl]
  rfl

/-- Each right element of two lists related pairwise has a left partner. -/
theorem forall₂_exists_left {α β : Type} {R : α → β → Prop} {l1 : List α} {l2 : List β}
    (h : List.Forall₂ R l1 l2) : ∀ b ∈ l2, ∃ a ∈ l1, R a b := by
  induction h with
  | nil => intro b hb; simp at hb
  | cons hab _ ih =>
    intro b hb
    rcases List.mem_cons.1 hb with rfl | hb
    · exact ⟨_, List.mem_cons_self _ _, hab⟩
    · obtain ⟨a, ha, hr⟩ := ih b hb
      exact ⟨a, List.mem_cons_of_mem _ ha, hr⟩

/-- Each left element of two lists related pairwise has a right partner. -/
theorem forall₂_exists_right {α β : Type} {R : α → β → Prop} {l1 : List α} {l2 : List β}
    (h : List.Forall₂ R l1 l2) : ∀ a ∈ l1, ∃ b ∈ l2, R a b := by
  induction h with
  | nil => intro a ha; simp at ha
  | cons hab _ ih =>
    intro a ha
    rcases List.mem_cons.1 ha with rfl | ha
    · exact ⟨_, List.mem_cons_self _ _, hab⟩
    · obtain ⟨b, hb, hr⟩ := ih a ha
      exact ⟨b, List.mem_cons_of_mem _ hb, hr⟩

/-- The state after `StartFlow` has created the flow-instance `fi` with its
start node-instance `ni` and then persisted the next nodes `entries` as
pending: those are exactly the pending node-instances of the flow-instance. -/
theorem TasksPending_of_created (env : Env) (es es1 : EngineState) (n : Nat) (task : Nat → Node)
    (user : Nat → String) (fi : FlowInstance) (ni : NodeInstance) (idxs : List Nat)
    (entries : List NextNode)
    (hfi : fi.deleted = 0 ∧ fi.record_id = env.uuid es.seq)
    (hni : ni.record_id = env.uuid (es.seq + 1) ∧ ni.status = 2)
    (hfresh : FreshIDs env es) (huuid : Function.Injective env.uuid)
    (hidx : ∀ i ∈ idxs, i < n) (hlen : idxs.length ≤ n)
    (hall : List.Forall₂ (fun i x => x.nodeID = (task i).record_id ∧ x.candidateIDs = [user i])
      idxs entries)
    (hcreated : TasksCreated env (env.uuid es.seq) (env.uuid (es.seq + 1))
      { store := (es.store.insert (Row.flowInstance fi)).insertAll ([ni].map Row.nodeInstance),
        seq := es.seq + 2 } es1 entries) :
    TasksPending env es.store n task user (env.uuid es.seq) (env.uuid (es.seq + 1)) es1
      entries := by
  obtain ⟨rows, hrows, hnirows⟩ := hcreated.rows
  obtain ⟨ks, hks, hsorted, hbound⟩ := hcreated.ids
  have hni1 : ((es.store.insert (Row.flowInstance fi)).insertAll
      ([ni].map Row.nodeInstance)).nodeInstances = es.store.nodeInstances ++
      [{ ni with id := nextID (es.store.nodeInstances.map (·.id)) }] := rfl
  have hfi1 : ((es.store.insert (Row.flowInstance fi)).insertAll
      ([ni].map Row.nodeInstance)).flowInstances = es.store.flowInstances ++
      [{ fi with id := nextID (es.store.flowInstances.map (·.id)) }] := rfl
  simp only at hnirows hbound
  have hidk : ∀ x ∈ entries, ∃ k, es.seq + 2 ≤ k ∧ x.nodeInstanceID = env.uuid k := by
    intro x hx
    have : x.nodeInstanceID ∈ ks.map env.uuid := by
      rw [← hks]
      exact List.mem_map.2 ⟨x, hx, rfl⟩
    obtain ⟨k, hk, hke⟩ := List.mem_map.1 this
    exact ⟨k, (hbound k hk).1, hke.symm⟩
  have hnodup : (entries.map (·.nodeInstanceID)).Nodup := by
    rw [hks]
    exact List.Nodup.map huuid (hsorted.imp (fun h => ne_of_lt h))
  exact
    { nodes_eq := hcreated.nodes_eq
      routers_eq := hcreated.routers_eq
      flow_instance := by
        rw [hcreated.flowInstances_eq]
        exact ⟨{ fi with id := nextID (es.store.flowInstances.map (·.id)) },
          by simp only [hfi1]; exact List.mem_append_right _ (List.mem_singleton.2 rfl),
          hfi.1, hfi.2⟩
      entry := fun x hx => by
        obtain ⟨i, hi, h1, h2⟩ := forall₂_exists_left hall x hx
        exact ⟨i, hidx i hi, h1, h2⟩
      row_exists := fun x hx => by
        obtain ⟨row, hrow, hp⟩ := forall₂_exists_right hrows x hx
        exact ⟨row, by rw [hnirows]; exact List.mem_append_right _ hrow, hp.1⟩
      row_pending := fun x hx row hrow hid => by
        obtain ⟨k, hk, hxk⟩ := hidk x hx
        rw [hnirows] at hrow
        simp only [hni1, List.mem_append, List.mem_singleton] at hrow
        rcases hrow with (hold | rfl) | hnew
        · exact absurd (hid.trans hxk) (hfresh row hold k (by omega)).1
        · have : es.seq + 1 = k := huuid (hni.1.symm.trans (hid.trans hxk))
          omega
        · obtain ⟨y, hy, hp⟩ := forall₂_exists_left hrows row hnew
          have hxy : y = x := by
            have := List.inj_on_of_nodup_map hnodup hy hx (hp.1.symm.trans hid)
            exact this
          rw [hxy] at hp
          exact hp
      candidate := hcreated.cands_new
      only_pending := fun row hrow hd hst hf => by
        rw [hnirows] at hrow
        simp only [hni1, List.mem_append, List.mem_singleton] at hrow
        rcases hrow with (hold | rfl) | hnew
        · exact absurd hf (hfresh row hold es.seq (le_refl _)).2
        · exact absurd (hni.2.symm.trans hst) (by decide)
        · obtain ⟨y, hy, hp⟩ := forall₂_exists_left hrows row hnew
          exact ⟨y, hy, hp.1⟩
      ids_nodup := hnodup
      count_le := by
        have := hall.length_eq
        omega }

/-- Between two calls, `CheckFlowInstanceTodo` is true exactly while a next node
is pending. -/
theorem TasksPending_todo (env : Env) (st : Store) (n : Nat) (task : Nat → Node)
    (user : Nat → String) (fid sid : String) (es : EngineState) (P : List NextNode)
    (h : TasksPending env st n task user fid sid es P) :
    CheckFlowInstanceTodo es.store none fid = (!decide (P = []), none) := by
  have h2 : (CheckFlowInstanceTodo es.store none fid).2 = none := rfl
  refine Prod.ext ?_ h2
  cases P with
  | nil =>
    have hflt : es.store.nodeInstances.filter
        (fun ni => ni.deleted = 0 ∧ ni.status = 1 ∧ ni.flow_instance_id = fid) = [] := by
      rw [List.filter_eq_nil_iff]
      intro row hrow hp
      simp only [decide_eq_true_eq] at hp
      obtain ⟨z, hz, -⟩ := h.only_pending row hrow hp.1 hp.2.1 hp.2.2
      simp at hz
    simp only [CheckFlowInstanceTodo, dbSelectInt, sqlCountTodo, hflt]
    rfl
  | cons y rest =>
    obtain ⟨ry, hry, hyid⟩ := h.row_exists y (List.mem_cons_self _ _)
    obtain ⟨-, hyd, hys, hyf, -, -⟩ := h.row_pending y (List.mem_cons_self _ _) ry hry hyid
    have hmem : ry ∈ es.store.nodeInstances.filter
        (fun ni => ni.deleted = 0 ∧ ni.status = 1 ∧ ni.flow_instance_id = fid) :=
      List.mem_filter.2 ⟨hry, by simp [hyd, hys, hyf]⟩
    have hpos := List.length_pos_of_mem hmem
    simp only [CheckFlowInstanceTodo, dbSelectInt, sqlCountTodo]
    simp only [List.cons_ne_nil, decide_False, Bool.not_false, decide_eq_true_eq, gt_iff_lt,
      Int.natCast_pos]
    exact hpos

/-- `StartFlow` on a flow of the shape creates the flow-instance, passes the
fork and leaves the `n` user tasks pending, each with its candidate. -/
theorem StartFlow_creates (env : Env) (es : EngineState) (n : Nat) (flowCode nodeCode : String)
    (flow : Flow) (start fork join stop : Node) (task : Nat → Node) (user : Nat → String)
    (hs : ForkJoinShape env es.store n flowCode nodeCode flow start fork join stop task user)
    (hn : 1 ≤ n) (hfresh : FreshIDs env es) (huuid : Function.Injective env.uuid)
    (fuel : Nat) (hfuel : n + 1 ≤ fuel) (userID inputData : String) :
    ∃ res es1,
      StartFlow env fuel es flowCode nodeCode userID inputData = Except.ok (res, es1) ∧
      res.IsEnd = false ∧
      List.Forall₂ (fun i x => x.nodeID = (task i).record_id ∧ x.candidateIDs = [user i])
        (List.range n) res.NextNodes ∧
      TasksPending env es.store n task user (env.uuid es.seq) (env.uuid (es.seq + 1)) es1
        res.NextNodes := by
  obtain ⟨r0, hR0, hexpr0, htgt0⟩ := hs.start_out
  obtain ⟨f1, rfl⟩ : ∃ f1, fuel = f1 + 1 := ⟨fuel - 1, by omega⟩
  -- the store after `CreateFlowInstance`
  generalize hst1 : (es.store.insert (Row.flowInstance
    (startedFlowInstance env es.seq flow userID))).insertAll
      ([startedNodeInstance env es.seq start userID inputData].map Row.nodeInstance) = st1
  have hnodes1 : st1.nodes = es.store.nodes := by rw [← hst1]; rfl
  have hrouters1 : st1.routers = es.store.routers := by rw [← hst1]; rfl
  have hassign1 : st1.assignments = es.store.assignments := by rw [← hst1]; rfl
  have hsel : selectRouters env st1 inputData start = Except.ok [r0] := by
    rw [selectRouters_congr hrouters1]
    unfold selectRouters
    rw [hs.start_kind, hR0]
    simp [guardHolds, hexpr0]
  have hself : selectRouters env st1 inputData fork =
      Except.ok (routersInOrder es.store fork.record_id) := by
    rw [selectRouters_congr hrouters1]
    unfold selectRouters
    rw [hs.fork_kind]
    simp
  have hgetf : (GetNode st1 none r0.target_node_id).1 = some fork := by
    rw [GetNode_congr hnodes1, htgt0]
    exact hs.fork_found
  have hjw : joinWaits st1 (env.uuid es.seq) (env.uuid (es.seq + 1)) fork = false := by
    unfold joinWaits
    rw [sqlNodeInflows_congr hrouters1]
    have := hs.fork_inflows
    have h2 : decide (2 ≤ (sqlNodeInflows es.store fork.record_id).length) = false := by
      simp only [decide_eq_false_iff_not]
      omega
    rw [h2]
    simp
  obtain ⟨es1, entries, hadv, hall, hcreated⟩ := advanceAll_creates_tasks env es.store n task
    user hs.task_found hs.task_kind hs.task_user (env.uuid es.seq) (env.uuid (es.seq + 1))
    inputData (List.range n) (routersInOrder es.store fork.record_id) f1
    { store := st1, seq := es.seq + 2 }
    { IsEnd := false, NextNodes := [], flowInstanceID := env.uuid es.seq }
    (fun i hi => List.mem_range.1 hi) hs.fork_out
    (by
      have := congrArg List.length hs.fork_out
      simp only [List.length_map, List.length_range] at this
      omega)
    hnodes1 hassign1
  have hinv : TasksPending env es.store n task user (env.uuid es.seq) (env.uuid (es.seq + 1)) es1
      entries :=
    TasksPending_of_created env es es1 n task user (startedFlowInstance env es.seq flow userID)
      (startedNodeInstance env es.seq start userID inputData) (List.range n) entries
      ⟨rfl, rfl⟩ ⟨rfl, rfl⟩ hfresh huuid (fun i hi => List.mem_range.1 hi)
      (by simp) hall (by rw [hst1]; exact hcreated)
  have hlen : entries.length = n := by
    have := hall.length_eq
    simpa using this.symm
  have hchk : CheckFlowInstanceTodo es1.store none (env.uuid es.seq) = (true, none) := by
    rw [TasksPending_todo env es.store n task user _ _ es1 entries hinv]
    cases hentries : entries with
    | nil =>
      rw [hentries] at hlen
      simp at hlen
      omega
    | cons y rest => simp
  refine ⟨{ IsEnd := false, NextNodes := entries, flowInstanceID := env.uuid es.seq }, es1, ?_,
    rfl, hall, hinv⟩
  unfold StartFlow
  rw [hs.flow_found]
  simp only
  rw [hs.start_found]
  simp only
  rw [CreateFlowInstance_ok, hst1]
  simp only
  unfold Advance
  have hnotend : ¬ start.type_code = "endEvent" := by rw [hs.start_kind]; decide
  have hf1 : ¬ fork.type_code = "userTask" := by rw [hs.fork_kind]; decide
  have hf2 : ¬ fork.type_code = "endEvent" := by rw [hs.fork_kind]; decide
  rw [if_neg hnotend, hsel]
  simp only
  rw [advanceAll]
  simp only [hgetf, if_neg hf1, if_neg hf2, hjw, Bool.false_eq_true, if_false, hself,
    List.append_nil, hadv, List.nil_append]
  unfold finishAdvance
  simp only [hchk]

/-- The state between two calls does not depend on the order in which the
pending nodes are listed. -/
theorem TasksPending_perm (env : Env) (st : Store) (n : Nat) (task : Nat → Node)
    (user : Nat → String) (fid sid : String) (es : EngineState) (P Q : List NextNode)
    (hperm : Q.Perm P) (h : TasksPending env st n task user fid sid es P) :
    TasksPending env st n task user fid sid es Q :=
  { nodes_eq := h.nodes_eq
    routers_eq := h.routers_eq
    flow_instance := h.flow_instance
    entry := fun x hx => h.entry x (hperm.mem_iff.1 hx)
    row_exists := fun x hx => h.row_exists x (hperm.mem_iff.1 hx)
    row_pending := fun x hx => h.row_pending x (hperm.mem_iff.1 hx)
    candidate := fun x hx => h.candidate x (hperm.mem_iff.1 hx)
    only_pending := fun row hrow hd hs hf => by
      obtain ⟨x, hx, hid⟩ := h.only_pending row hrow hd hs hf
      exact ⟨x, hperm.mem_iff.2 hx, hid⟩
    ids_nodup := ((hperm.map _).nodup_iff).2 h.ids_nodup
    count_le := by rw [hperm.length_eq]; exact h.count_le }

/-- Claim C12, on the engine modelled from the spec: for every flow of the
shape start, parallel fork, `n >= 1` user tasks, parallel join, end, on a store
to which the record ids to be minted are new, and with `n + 1` steps of fuel or
more: `StartFlow` succeeds with `n` next nodes, the `i`-th being the task `i`
with its own candidate `user i`; and the calls of `HandleFlow` on those `n`
pending node-instances, each by its candidate, one after another in any order,
all succeed, with `IsEnd=false` for the first `n - 1` and `IsEnd=true` for the
last. -/
theorem parallel_fork_join_ends_with_last_task (env : Env) (es : EngineState) (n : Nat)
    (flowCode nodeCode : String) (flow : Flow) (start fork join stop : Node)
    (task : Nat → Node) (user : Nat → String)
    (hs : ForkJoinShape env es.store n flowCode nodeCode flow start fork join stop task user)
    (hn : 1 ≤ n) (hfresh : FreshIDs env es) (huuid : Function.Injective env.uuid)
    (fuel : Nat) (hfuel : n + 1 ≤ fuel) (userID inputData : String) :
    ∃ res es1,
      StartFlow env fuel es flowCode nodeCode userID inputData = Except.ok (res, es1) ∧
      res.NextNodes.length = n ∧
      List.Forall₂ (fun i x => x.nodeID = (task i).record_id ∧ x.candidateIDs = [user i])
        (List.range n) res.NextNodes ∧
      ∀ (order : List NextNode) (input : NextNode → String), order.Perm res.NextNodes →
        handleEach env fuel input es1 order =
          List.replicate (n - 1) (some false) ++ [some true] := by
  obtain ⟨res, es1, hstart, -, hall, hinv⟩ := StartFlow_creates env es n flowCode nodeCode flow
    start fork join stop task user hs hn hfresh huuid fuel hfuel userID inputData
  have hlen : res.NextNodes.length = n := by
    have := hall.length_eq
    simpa using this.symm
  refine ⟨res, es1, hstart, hlen, hall, fun order input hperm => ?_⟩
  have hol : order.length = n := hperm.length_eq.trans hlen
  have hne : order ≠ [] := by
    intro h
    rw [h] at hol
    simp at hol
    omega
  rw [← hol]
  exact handleEach_flags env es.store n flowCode nodeCode flow start fork join stop task user hs
    (env.uuid es.seq) (env.uuid (es.seq + 1)) input fuel (by omega) order es1 hne
    (TasksPending_perm env es.store n task user _ _ es1 res.NextNodes order hperm hinv)

/-- The record ids of `testUUID` are pairwise distinct. -/
theorem testUUID_injective : Function.Injective testUUID := by
  intro a b h
  have := congrArg String.length h
  simpa [testUUID, String.length] using this

/-- The flow of `parallelStore` has the fork and join shape with three tasks. -/
theorem parallelStore_shape :
    ForkJoinShape testEnv parallelStore 3 "parallel" "s" (mkFlow 1 "fp" "parallel" 1 1 1 0)
      (mkNode 1 "s" "fp" "startEvent") (mkNode 2 "fk" "fp" "parallelGateway")
      (mkNode 6 "jn" "fp" "parallelGateway") (mkNode 7 "e" "fp" "endEvent")
      parallelTask parallelUser :=
  { flow_found := by decide
    start_found := by decide
    start_kind := rfl
    start_out := ⟨mkEdge 1 "s" "fk" "", by decide, rfl, rfl⟩
    fork_found := by decide
    fork_kind := rfl
    fork_inflows := by decide
    fork_out := by decide
    task_found := by decide
    task_kind := by decide
    task_user := fun i hi vars => by
      interval_cases i <;> rfl
    task_out := fun i hi => by
      interval_cases i
      · exact ⟨mkEdge 5 "t1" "jn" "", by decide, rfl, rfl⟩
      · exact ⟨mkEdge 6 "t2" "jn" "", by decide, rfl, rfl⟩
      · exact ⟨mkEdge 7 "t3" "jn" "", by decide, rfl, rfl⟩
    join_found := by decide
    join_kind := rfl
    join_inflows := by decide
    join_out := ⟨mkEdge 8 "jn" "e" "", by decide, rfl⟩
    stop_found := by decide
    stop_kind := rfl }

/-- Witness for C12: on `parallelStore`, the flow of scenario S5, `StartFlow`
returns the three tasks with the candidates `H001`, `H002`, `H003`, and handled
in the order `t2`, `t3`, `t1` the calls report `IsEnd` false, false, true. -/
theorem parallel_fork_join_ends_with_last_task_witness :
    (nextNodesOf (StartFlow testEnv 10 { store := parallelStore, seq := 0 } "parallel" "s"
      "H000" "form")).map (fun x => (x.nodeID, x.nodeInstanceID, x.candidateIDs)) =
        [("t1", "iii", ["H001"]), ("t2", "iiiii", ["H002"]), ("t3", "iiiiiii", ["H003"])] ∧
    handleEach testEnv 10 (fun _ => "sign") parallelStarted
      [taskEntry testEnv 4 (parallelTask 1) ["H002"], taskEntry testEnv 6 (parallelTask 2) ["H003"],
        taskEntry testEnv 2 (parallelTask 0) ["H001"]] = [some false, some false, some true] ∧
    ∃ res es1,
      StartFlow testEnv 10 { store := parallelStore, seq := 0 } "parallel" "s" "H000" "form" =
        Except.ok (res, es1) ∧
      res.NextNodes.length = 3 ∧
      List.Forall₂
        (fun i x => x.nodeID = (parallelTask i).record_id ∧ x.candidateIDs = [parallelUser i])
        (List.range 3) res.NextNodes ∧
      ∀ (order : List NextNode) (input : NextNode → String), order.Perm res.NextNodes →
        handleEach testEnv 10 input es1 order =
          List.replicate (3 - 1) (some false) ++ [some true] :=
  ⟨by decide, by decide,
    parallel_fork_join_ends_with_last_task testEnv { store := parallelStore, seq := 0 } 3
      "parallel" "s" (mkFlow 1 "fp" "parallel" 1 1 1 0) (mkNode 1 "s" "fp" "startEvent")
      (mkNode 2 "fk" "fp" "parallelGateway") (mkNode 6 "jn" "fp" "parallelGateway")
      (mkNode 7 "e" "fp" "endEvent") parallelTask parallelUser parallelStore_shape (by decide)
      (fun ni hni => absurd hni (List.not_mem_nil ni)) testUUID_injective 10 (by decide)
      "H000" "form"⟩

/-! ### End of a flow-instance -/

/-- Marking a flow-instance of which the table holds a live row completed:
afterwards the flow-instance is completed. -/
theorem UpdateFlowInstance_completed (st : Store) (fid : String)
    (hex : ∃ fi ∈ st.flowInstances, fi.deleted = 0 ∧ fi.record_id = fid) :
    Completed fid (UpdateFlowInstance st none fid { status := some 2, deleted := none }).2 := by
  obtain ⟨fi, hfi, hd, hid⟩ := hex
  constructor
  · refine ⟨({ status := some 2, deleted := none } : FlowInstanceInfo).set fi, ?_, ?_, ?_⟩
    · simp only [UpdateFlowInstance]
      exact List.mem_map.2 ⟨fi, hfi, by simp [hid]⟩
    · simpa [FlowInstanceInfo.set] using hd
    · simpa [FlowInstanceInfo.set] using hid
  · intro r hr hrid
    simp only [UpdateFlowInstance, List.mem_map] at hr
    obtain ⟨r0, _, rfl⟩ := hr
    by_cases h0 : r0.record_id = fid
    · simp [h0, FlowInstanceInfo.set]
    · simp only [h0, if_false] at hrid

/-- The flow-instance `GetFlowInstanceByNode` returns is a live row of the
table. -/
theorem GetFlowInstanceByNode_live (st : Store) (x : String) (fi : FlowInstance)
    (h : (GetFlowInstanceByNode st none x).1 = some fi) :
    fi ∈ st.flowInstances ∧ fi.deleted = 0 := by
  unfold GetFlowInstanceByNode at h
  split at h
  · split at h <;> simp at h
  · rename_i item hsel
    simp only at h
    have hm := dbSelectOne_mem _ _ _ fi hsel h
    have hf := List.mem_filter.1 (List.mem_of_mem_take hm)
    simp only [decide_eq_true_eq] at hf
    exact ⟨hf.1, hf.2.1⟩

/-- The loop of `Advance` keeps the `IsEnd` flag and the flow-instance id of
the result and the flow-instance table, and every node-instance it adds has the
variables as its input. -/
theorem advanceAll_keeps (env : Env) (fid prev vars : String) :
    ∀ (fuel : Nat) (es : EngineState) (acc : HandleResult) (rs : List NodeRouter)
      (res : HandleResult) (es1 : EngineState),
      advanceAll env fid prev vars fuel es acc rs = Except.ok (res, es1) →
      res.IsEnd = acc.IsEnd ∧ res.flowInstanceID = acc.flowInstanceID ∧
        es1.store.flowInstances = es.store.flowInstances ∧
        ∀ row ∈ es1.store.nodeInstances,
          row ∈ es.store.nodeInstances ∨ row.input_data = vars := by
  intro fuel
  induction fuel with
  | zero =>
    intro es acc rs res es1 h
    cases rs with
    | nil =>
      simp only [advanceAll, Except.ok.injEq, Prod.mk.injEq] at h
      obtain ⟨rfl, rfl⟩ := h
      exact ⟨rfl, rfl, rfl, fun row hrow => Or.inl hrow⟩
    | cons r rest => simp [advanceAll] at h
  | succ fuel ih =>
    intro es acc rs res es1 h
    cases rs with
    | nil =>
      simp only [advanceAll, Except.ok.injEq, Prod.mk.injEq] at h
      obtain ⟨rfl, rfl⟩ := h
      exact ⟨rfl, rfl, rfl, fun row hrow => Or.inl hrow⟩
    | cons r rest =>
      rw [advanceAll] at h
      split at h
      · simp at h
      · rename_i target _
        split at h
        · split at h
          · simp at h
          · rename_i cands _
            rw [createPending_eq] at h
            simp only at h
            obtain ⟨h1, h2, h3, h4⟩ := ih _ _ _ _ _ h
            have htab := insertAll_candidates_tables
              (candidateRows env (es.seq + 1) (env.uuid es.seq) cands)
              (es.store.insert (Row.nodeInstance (pendingRow env es.seq fid prev vars target)))
            refine ⟨h1, h2, h3.trans htab.2.2.2.2.1, fun row hrow => ?_⟩
            rcases h4 row hrow with hold | hin
            · rw [htab.2.2.2.2.2] at hold
              rcases List.mem_append.1 hold with hold | hnew
              · exact Or.inl hold
              · rw [List.mem_singleton.1 hnew]
                exact Or.inr rfl
            · exact Or.inr hin
        · split at h
          · exact ih _ _ _ _ _ h
          · split at h
            · exact ih _ _ _ _ _ h
            · split at h
              · simp at h
              · exact ih _ _ _ _ _ h

/-- The step after the iteration, on a result on which `IsEnd` is not set:
the result reports `IsEnd` and the flow-instance is completed exactly when no
pending node-instance remains. -/
theorem finishAdvance_isEnd_iff (fid : String) (acc res : HandleResult) (es es1 : EngineState)
    (hacc : acc.IsEnd = false)
    (hex : ∃ fi ∈ es.store.flowInstances, fi.deleted = 0 ∧ fi.record_id = fid)
    (h : finishAdvance fid (acc, es) = Except.ok (res, es1)) :
    res.flowInstanceID = acc.flowInstanceID ∧
      ((res.IsEnd = true ∧ Completed fid es1.store) ↔
        (CheckFlowInstanceTodo es1.store none fid).1 = false) := by
  unfold finishAdvance at h
  split at h
  · simp at h
  · rename_i hchk
    simp only [Except.ok.injEq, Prod.mk.injEq] at h
    obtain ⟨rfl, rfl⟩ := h
    simp only at hchk
    refine ⟨rfl, ?_⟩
    rw [hchk, hacc]
    simp
  · rename_i hchk
    split at h
    · simp at h
    · rename_i st1 hup
      simp only [Except.ok.injEq, Prod.mk.injEq] at h
      obtain ⟨rfl, rfl⟩ := h
      simp only at hchk hup
      have hst1 : st1 = (UpdateFlowInstance es.store none fid
          { status := some 2, deleted := none }).2 := by rw [hup]
      have hsame : CheckFlowInstanceTodo st1 none fid = CheckFlowInstanceTodo es.store none fid := by
        rw [hst1]
        rfl
      refine ⟨rfl, ?_⟩
      simp only [hsame, hchk, true_and, iff_true]
      rw [hst1]
      exact UpdateFlowInstance_completed es.store fid hex

/-- A successful `Advance` on a flow-instance of which the table holds a live
row reports that flow-instance, and reports `IsEnd` with the flow-instance
completed exactly when no pending node-instance remains. -/
theorem Advance_isEnd_iff (env : Env) (fuel : Nat) (es : EngineState) (fid prev vars : String)
    (node : Node) (res : HandleResult) (es1 : EngineState)
    (hex : ∃ fi ∈ es.store.flowInstances, fi.deleted = 0 ∧ fi.record_id = fid)
    (h : Advance env fuel es fid prev vars node = Except.ok (res, es1)) :
    res.flowInstanceID = fid ∧
      ((res.IsEnd = true ∧ Completed fid es1.store) ↔
        (CheckFlowInstanceTodo es1.store none fid).1 = false) := by
  unfold Advance at h
  split at h
  · exact finishAdvance_isEnd_iff fid _ res es es1 rfl hex h
  · split at h
    · simp at h
    · split at h
      · simp at h
      · rename_i rs _ _ r hadv
        obtain ⟨r1, r2⟩ := r
        obtain ⟨hend, hid, hfis, -⟩ := advanceAll_keeps env fid prev vars _ _ _ _ _ _ hadv
        obtain ⟨h1, h2⟩ := finishAdvance_isEnd_iff fid r1 res r2 es1 hend
          (by rw [hfis]; exact hex) h
        exact ⟨h1.trans hid, h2⟩

/-- `StartFlow` on the leave flow creates the flow-instance and leaves the task
of the approver pending, with the approver as its candidate and the input of
the call as its input. -/
theorem StartFlow_leave (env : Env) (es : EngineState) (flowCode nodeCode : String) (flow : Flow)
    (start task gate stop : Node) (approver : String) (pass : NodeRouter)
    (more : List NodeRouter)
    (hs : LeaveShape env es.store flowCode nodeCode flow start task gate stop approver pass more)
    (hfresh : FreshIDs env es) (huuid : Function.Injective env.uuid)
    (fuel : Nat) (hfuel : 1 ≤ fuel) (userID inputData : String) :
    ∃ res es1 x,
      StartFlow env fuel es flowCode nodeCode userID inputData = Except.ok (res, es1) ∧
      res.IsEnd = false ∧ res.NextNodes = [x] ∧ x.nodeID = task.record_id ∧
      x.candidateIDs = [approver] ∧
      TasksPending env es.store 1 (fun _ => task) (fun _ => approver) (env.uuid es.seq)
        (env.uuid (es.seq + 1)) es1 [x] ∧
      ∀ row ∈ es1.store.nodeInstances, row.record_id = x.nodeInstanceID →
        row.input_data = inputData := by
  obtain ⟨r0, hR0, hexpr0, htgt0⟩ := hs.start_out
  obtain ⟨f1, rfl⟩ : ∃ f1, fuel = f1 + 1 := ⟨fuel - 1, by omega⟩
  generalize hst1 : (es.store.insert (Row.flowInstance
    (startedFlowInstance env es.seq flow userID))).insertAll
      ([startedNodeInstance env es.seq start userID inputData].map Row.nodeInstance) = st1
  have hnodes1 : st1.nodes = es.store.nodes := by rw [← hst1]; rfl
  have hrouters1 : st1.routers = es.store.routers := by rw [← hst1]; rfl
  have hassign1 : st1.assignments = es.store.assignments := by rw [← hst1]; rfl
  have hni1 : st1.nodeInstances = es.store.nodeInstances ++
      [{ startedNodeInstance env es.seq start userID inputData with
          id := nextID (es.store.nodeInstances.map (·.id)) }] := by rw [← hst1]; rfl
  have hsel : selectRouters env st1 inputData start = Except.ok [r0] := by
    rw [selectRouters_congr hrouters1]
    unfold selectRouters
    rw [hs.start_kind, hR0]
    simp [guardHolds, hexpr0]
  obtain ⟨es1, entries, hadv, hall, hcreated⟩ := advanceAll_creates_tasks env es.store 1
    (fun _ => task) (fun _ => approver) (fun _ _ => hs.task_found) (fun _ _ => hs.task_kind)
    (fun _ _ => hs.task_user) (env.uuid es.seq) (env.uuid (es.seq + 1)) inputData [0] [r0]
    (f1 + 1) { store := st1, seq := es.seq + 2 }
    { IsEnd := false, NextNodes := [], flowInstanceID := env.uuid es.seq }
    (by simp) (by simp [htgt0]) (by simp) hnodes1 hassign1
  have hinv : TasksPending env es.store 1 (fun _ => task) (fun _ => approver) (env.uuid es.seq)
      (env.uuid (es.seq + 1)) es1 entries :=
    TasksPending_of_created env es es1 1 (fun _ => task) (fun _ => approver)
      (startedFlowInstance env es.seq flow userID)
      (startedNodeInstance env es.seq start userID inputData) [0] entries
      ⟨rfl, rfl⟩ ⟨rfl, rfl⟩ hfresh huuid (by simp) (by simp) hall (by rw [hst1]; exact hcreated)
  obtain ⟨-, -, -, hinput⟩ := advanceAll_keeps env _ _ _ _ _ _ _ _ _ hadv
  cases hall with
  | cons hx hnil =>
    cases hnil
    rename_i x
    have hchk : CheckFlowInstanceTodo es1.store none (env.uuid es.seq) = (true, none) := by
      rw [TasksPending_todo env es.store 1 _ _ _ _ es1 [x] hinv]
      simp
    refine ⟨{ IsEnd := false, NextNodes := [x], flowInstanceID := env.uuid es.seq }, es1, x, ?_,
      rfl, rfl, hx.1, hx.2, hinv, fun row hrow hid => ?_⟩
    · unfold StartFlow
      rw [hs.flow_found]
      simp only
      rw [hs.start_found]
      simp only
      rw [CreateFlowInstance_ok, hst1]
      simp only
      unfold Advance
      have hnotend : ¬ start.type_code = "endEvent" := by rw [hs.start_kind]; decide
      rw [if_neg hnotend, hsel]
      simp only
      rw [hadv]
      simp only [List.nil_append]
      unfold finishAdvance
      simp only [hchk]
    · have hp := hinv.row_pending x (List.mem_singleton.2 rfl) row hrow hid
      rcases hinput row hrow with hold | hin
      · simp only [hni1, List.mem_append, List.mem_singleton] at hold
        rcases hold with hold | rfl
        · exact absurd hp.2.2.2.1 (hfresh row hold es.seq (le_refl _)).2
        · rfl
      · exact hin

/-- From the processed task of the approver of the leave flow, with nothing
else pending and the guard `day<=2` true on the variables, `Advance` passes the
gateway by its first router, reaches the end event and completes the
flow-instance. -/
theorem Advance_from_approval (env : Env) (st : Store) (flowCode nodeCode : String) (flow : Flow)
    (start task gate stop : Node) (approver : String) (pass : NodeRouter)
    (more : List NodeRouter)
    (hs : LeaveShape env st flowCode nodeCode flow start task gate stop approver pass more)
    (fid sid prev vars : String) (es2 : EngineState) (fuel : Nat) (hfuel : 2 ≤ fuel)
    (hinv : TasksPending env st 1 (fun _ => task) (fun _ => approver) fid sid es2 [])
    (hguard : env.evalGuard "day<=2" vars = some true) :
    ∃ res es3, Advance env fuel es2 fid prev vars task = Except.ok (res, es3) ∧
      res.IsEnd = true ∧ res.NextNodes = [] ∧ res.flowInstanceID = fid ∧
      Completed fid es3.store ∧ (CheckFlowInstanceTodo es3.store none fid).1 = false := by
  obtain ⟨r, hR, hexpr, htgt⟩ := hs.task_out
  have hsel : selectRouters env es2.store vars task = Except.ok [r] := by
    rw [selectRouters_congr hinv.routers_eq]
    unfold selectRouters
    rw [hs.task_kind, hR]
    simp [guardHolds, hexpr]
  have hpass : guardHolds env vars pass = true := by
    unfold guardHolds
    rw [hs.pass_guard, hguard]
    simp
  have hselg : selectRouters env es2.store vars gate = Except.ok [pass] := by
    rw [selectRouters_congr hinv.routers_eq]
    unfold selectRouters
    rw [hs.gate_kind, hs.gate_out]
    simp [hpass]
  have hgetg : (GetNode es2.store none r.target_node_id).1 = some gate := by
    rw [GetNode_congr hinv.nodes_eq, htgt]
    exact hs.gate_found
  have hgets : (GetNode es2.store none pass.target_node_id).1 = some stop := by
    rw [GetNode_congr hinv.nodes_eq, hs.pass_target]
    exact hs.stop_found
  have hjw : joinWaits es2.store fid prev gate = false := by
    unfold joinWaits
    rw [hs.gate_kind]
    simp
  have hchk := TasksPending_todo env st 1 _ _ fid sid es2 [] hinv
  simp only [decide_True, Bool.not_true] at hchk
  obtain ⟨f1, rfl⟩ : ∃ f1, fuel = f1 + 2 := ⟨fuel - 2, by omega⟩
  have hnotend : ¬ task.type_code = "endEvent" := by rw [hs.task_kind]; decide
  have hg1 : ¬ gate.type_code = "userTask" := by rw [hs.gate_kind]; decide
  have hg2 : ¬ gate.type_code = "endEvent" := by rw [hs.gate_kind]; decide
  have hadv : ∀ e a, advanceAll env fid prev vars f1 e a [] = Except.ok (a, e) := by
    intro e a
    cases f1 <;> simp [advanceAll]
  refine ⟨{ IsEnd := true, NextNodes := [], flowInstanceID := fid },
    { es2 with store :=
        (UpdateFlowInstance es2.store none fid { status := some 2, deleted := none }).2 },
    ?_, rfl, rfl, rfl, UpdateFlowInstance_completed es2.store fid hinv.flow_instance, ?_⟩
  · unfold Advance
    rw [if_neg hnotend, hsel]
    simp only
    rw [advanceAll]
    simp only [hgetg, if_neg hg1, if_neg hg2, hjw, Bool.false_eq_true, if_false, hselg,
      List.append_nil]
    rw [advanceAll]
    simp only [hgets, hs.stop_kind, if_neg (show ¬ ("endEvent" : String) = "userTask" by decide),
      if_true, hadv]
    unfold finishAdvance
    simp only [hchk]
    rfl
  · have hsame : CheckFlowInstanceTodo
        (UpdateFlowInstance es2.store none fid { status := some 2, deleted := none }).2 none fid =
        CheckFlowInstanceTodo es2.store none fid := rfl
    simp only [hsame, hchk]

/-- The leave flow: `StartFlow` leaves the task of the approver pending, and
when the guard `day<=2` is true on the input of `StartFlow` merged with the
input of the approver, the approver passing the task ends the flow. -/
theorem leave_pass_ends (env : Env) (es : EngineState) (flowCode nodeCode : String) (flow : Flow)
    (start task gate stop : Node) (approver : String) (pass : NodeRouter)
    (more : List NodeRouter)
    (hs : LeaveShape env es.store flowCode nodeCode flow start task gate stop approver pass more)
    (hfresh : FreshIDs env es) (huuid : Function.Injective env.uuid)
    (fuel : Nat) (hfuel : 2 ≤ fuel) (launcher inputData : String) :
    ∃ res es1 x,
      StartFlow env fuel es flowCode nodeCode launcher inputData = Except.ok (res, es1) ∧
      res.IsEnd = false ∧ res.NextNodes = [x] ∧ x.nodeID = task.record_id ∧
      x.candidateIDs = [approver] ∧
      ∀ input, env.evalGuard "day<=2" (env.mergeJSON inputData input) = some true →
        ∃ res2 es2,
          HandleFlow env fuel es1 x.nodeInstanceID approver input = Except.ok (res2, es2) ∧
          res2.IsEnd = true ∧ res2.NextNodes = [] ∧ Completed res2.flowInstanceID es2.store ∧
          (CheckFlowInstanceTodo es2.store none res2.flowInstanceID).1 = false := by
  obtain ⟨res, es1, x, hstart, hend, hnext, hnode, hcand, hinv, hinput⟩ := StartFlow_leave env es
    flowCode nodeCode flow start task gate stop approver pass more hs hfresh huuid fuel
    (by omega) launcher inputData
  refine ⟨res, es1, x, hstart, hend, hnext, hnode, hcand, fun input hguard => ?_⟩
  obtain ⟨row0, hrow0, i, -, hid0, hcall, hinv2, -, -⟩ := HandleFlow_on_pending env es.store 1
    (fun _ => task) (fun _ => approver) (fun _ _ => hs.task_found) (env.uuid es.seq)
    (env.uuid (es.seq + 1)) input es1 x [] fuel hinv
  have hin0 : row0.input_data = inputData := hinput row0 hrow0 hid0
  rw [hcand, List.headD_cons, hin0] at hcall
  rw [hcand, List.headD_cons] at hinv2
  obtain ⟨res2, es2, hadv, h1, h2, h3, h4, h5⟩ := Advance_from_approval env es.store flowCode
    nodeCode flow start task gate stop approver pass more hs (env.uuid es.seq)
    (env.uuid (es.seq + 1)) x.nodeInstanceID (env.mergeJSON inputData input) _ fuel hfuel hinv2
    hguard
  refine ⟨res2, es2, hcall.trans hadv, h1, h2, ?_, ?_⟩
  · rw [h3]
    exact h4
  · rw [h3]
    exact h5

/-- Claim C13, on the engine modelled from the spec: after every successful
`StartFlow` or `HandleFlow`, the result reports `IsEnd=true` and the
flow-instance is completed (a live row carries its id, and every row that
carries it has status=2) if and only if no node-instance with status=1 remains
for that flow-instance (`CheckFlowInstanceTodo` is false); and in a leave flow
(start, task of the approver, exclusive gateway whose first router, guarded by
`day<=2`, leads to the end), `StartFlow` leaves the one task pending for the
approver, and whenever the guard `day<=2` is true on the merged variables the
approver passing that task ends the flow: `IsEnd=true`, the flow-instance
completed, nothing pending. -/
theorem IsEnd_iff_nothing_pending (env : Env) (fuel : Nat) (es : EngineState) :
    (∀ flowCode nodeCode userID inputData res es1,
      StartFlow env fuel es flowCode nodeCode userID inputData = Except.ok (res, es1) →
        ((res.IsEnd = true ∧ Completed res.flowInstanceID es1.store) ↔
          (CheckFlowInstanceTodo es1.store none res.flowInstanceID).1 = false)) ∧
    (∀ nodeInstanceID userID inputData res es1,
      HandleFlow env fuel es nodeInstanceID userID inputData = Except.ok (res, es1) →
        ((res.IsEnd = true ∧ Completed res.flowInstanceID es1.store) ↔
          (CheckFlowInstanceTodo es1.store none res.flowInstanceID).1 = false)) ∧
    (∀ flowCode nodeCode flow start task gate stop approver pass more launcher inputData,
      LeaveShape env es.store flowCode nodeCode flow start task gate stop approver pass more →
      FreshIDs env es → Function.Injective env.uuid → 2 ≤ fuel →
      ∃ res es1 x,
        StartFlow env fuel es flowCode nodeCode launcher inputData = Except.ok (res, es1) ∧
        res.IsEnd = false ∧ res.NextNodes = [x] ∧ x.nodeID = task.record_id ∧
        x.candidateIDs = [approver] ∧
        ∀ input, env.evalGuard "day<=2" (env.mergeJSON inputData input) = some true →
          ∃ res2 es2,
            HandleFlow env fuel es1 x.nodeInstanceID approver input = Except.ok (res2, es2) ∧
            res2.IsEnd = true ∧ res2.NextNodes = [] ∧
            Completed res2.flowInstanceID es2.store ∧
            (CheckFlowInstanceTodo es2.store none res2.flowInstanceID).1 = false) := by
  refine ⟨?_, ?_, ?_⟩
  · intro flowCode nodeCode userID inputData res es1 h
    unfold StartFlow at h
    split at h
    · simp at h
    · rename_i flow _
      split at h
      · simp at h
      · rename_i node _
        split at h
        · simp at h
        · rename_i st1 hcreate
          rw [CreateFlowInstance_ok] at hcreate
          simp only [Prod.mk.injEq, true_and] at hcreate
          subst hcreate
          obtain ⟨hid, hiff⟩ := Advance_isEnd_iff _ _ _ _ _ _ _ _ _
            ⟨{ startedFlowInstance env es.seq flow userID with
                id := nextID (es.store.flowInstances.map (·.id)) },
              List.mem_append_right _ (List.mem_singleton.2 rfl), rfl, rfl⟩ h
          rw [hid]
          exact hiff
  · intro nodeInstanceID userID inputData res es1 h
    unfold HandleFlow at h
    split at h
    · simp at h
    · split at h
      · simp at h
      · split at h
        · simp at h
        · split at h
          · simp at h
          · split at h
            · rename_i node fi _ hfi
              obtain ⟨hmem, hlive⟩ := GetFlowInstanceByNode_live _ _ _ hfi
              obtain ⟨hid, hiff⟩ := Advance_isEnd_iff _ _ _ _ _ _ _ _ _ ⟨fi, hmem, hlive, rfl⟩ h
              rw [hid]
              exact hiff
            · simp at h
  · intro flowCode nodeCode flow start task gate stop approver pass more launcher inputData hs
      hfresh huuid hfuel
    exact leave_pass_ends env es flowCode nodeCode flow start task gate stop approver pass more hs
      hfresh huuid fuel hfuel launcher inputData

/-- The flow of `leaveStore` is a leave flow, with `T002` the approver. -/
theorem leaveStore_shape :
    LeaveShape leaveEnv leaveStore "leave" "s" (mkFlow 1 "fl" "leave" 1 1 1 0)
      (mkNode 1 "s" "fl" "startEvent") (mkNode 2 "bzr" "fl" "userTask")
      (mkNode 3 "gw" "fl" "exclusiveGateway") (mkNode 5 "e" "fl" "endEvent") "T002"
      (mkEdge 3 "gw" "e" "day<=2") [mkEdge 4 "gw" "fdy" "day>2"] :=
  { flow_found := by decide
    start_found := by decide
    start_kind := rfl
    start_out := ⟨mkEdge 1 "s" "bzr" "", by decide, rfl, rfl⟩
    task_found := by decide
    task_kind := rfl
    task_user := fun _ => rfl
    task_out := ⟨mkEdge 2 "bzr" "gw" "", by decide, rfl, rfl⟩
    gate_found := by decide
    gate_kind := rfl
    gate_out := by decide
    pass_guard := rfl
    pass_target := rfl
    stop_found := by decide
    stop_kind := rfl }

/-- The variable `day` on examples. -/
theorem dayOf_examples :
    dayOf "day=1" = some 1 ∧ dayOf "day=2;action=pass" = some 2 ∧ dayOf "day=12" = some 12 ∧
    dayOf "action=pass" = none ∧ dayOf "day=" = none ∧
    leaveEnv.mergeJSON "day=1" "action=pass" = "day=1" ∧
    leaveEnv.mergeJSON "day=1" "day=3" = "day=3" := by
  refine ⟨by decide, by decide, by decide, by decide, by decide, by decide, by decide⟩

/-- The `Execer` that reads `day` decides the guard `day<=2` by the `day` of the
blob. -/
theorem leaveEnv_day_le_two (vars : String) :
    leaveEnv.evalGuard "day<=2" vars = (dayOf vars).map (fun d => decide (d ≤ 2)) := rfl

/-- Witness for C13: on `leaveStore`, with an `Execer` that reads the variable
`day`, for every input of `StartFlow` and of the approver whose merge has `day`
at most 2, `StartFlow` leaves one task pending for `T002` and `T002` passing it
ends the flow with the flow-instance completed; so for `day=1` and the input
`action=pass`, where the call reports `IsEnd=true` and the flow-instance `i`
has status 2. -/
theorem IsEnd_iff_nothing_pending_witness :
    (∀ inputData input d, dayOf (leaveEnv.mergeJSON inputData input) = some d → d ≤ 2 →
      ∃ res es1 x res2 es2,
        StartFlow leaveEnv 10 { store := leaveStore, seq := 0 } "leave" "s" "T001" inputData =
          Except.ok (res, es1) ∧
        res.IsEnd = false ∧ res.NextNodes = [x] ∧ x.nodeID = "bzr" ∧ x.candidateIDs = ["T002"] ∧
        HandleFlow leaveEnv 10 es1 x.nodeInstanceID "T002" input = Except.ok (res2, es2) ∧
        res2.IsEnd = true ∧ Completed res2.flowInstanceID es2.store ∧
        (CheckFlowInstanceTodo es2.store none res2.flowInstanceID).1 = false) ∧
    (nextNodesOf (StartFlow leaveEnv 10 { store := leaveStore, seq := 0 } "leave" "s" "T001"
        "day=1")).map (fun n => (n.nodeCode, n.nodeInstanceID, n.candidateIDs)) =
      [("bzr", "iii", ["T002"])] ∧
    isEndOf (HandleFlow leaveEnv 10 leaveStarted "iii" "T002" "action=pass") = some true ∧
    (stateAfter leaveStarted
      (HandleFlow leaveEnv 10 leaveStarted "iii" "T002" "action=pass")).store.flowInstances.map
        (fun fi => (fi.record_id, fi.status, fi.deleted)) = [("i", 2, 0)] := by
  refine ⟨fun inputData input d hd hle => ?_, by decide, by decide, by decide⟩
  obtain ⟨res, es1, x, h1, h2, h3, h4, h5, h6⟩ :=
    (IsEnd_iff_nothing_pending leaveEnv 10 { store := leaveStore, seq := 0 }).2.2 "leave" "s"
      (mkFlow 1 "fl" "leave" 1 1 1 0) (mkNode 1 "s" "fl" "startEvent")
      (mkNode 2 "bzr" "fl" "userTask") (mkNode 3 "gw" "fl" "exclusiveGateway")
      (mkNode 5 "e" "fl" "endEvent") "T002" (mkEdge 3 "gw" "e" "day<=2")
      [mkEdge 4 "gw" "fdy" "day>2"] "T001" inputData leaveStore_shape
      (fun ni hni => absurd hni (List.not_mem_nil ni)) testUUID_injective (by decide)
  have hguard : leaveEnv.evalGuard "day<=2" (leaveEnv.mergeJSON inputData input) = some true := by
    rw [leaveEnv_day_le_two, hd]
    simp [hle]
  obtain ⟨res2, es2, g1, g2, -, g4, g5⟩ := h6 input hguard
  exact ⟨res, es1, x, res2, es2, h1, h2, h3, h4, h5, g1, g2, g4, g5⟩

/-- The leave flow by the number of days, with the `Execer` that reads `day`:
with `day=3` the approver passing the task does not end the flow, the task
`fdy` becomes pending for `T003` and the flow-instance keeps status 1; with the
`day` of the approver's input winning over that of the launcher, `day=2` ends
the flow. -/
theorem leave_flow_by_days :
    isEndOf (HandleFlow leaveEnv 10 leaveStartedLong "iii" "T002" "action=pass") = some false ∧
    (nextNodesOf (HandleFlow leaveEnv 10 leaveStartedLong "iii" "T002" "action=pass")).map
      (fun n => (n.nodeCode, n.candidateIDs)) = [("fdy", ["T003"])] ∧
    (stateAfter leaveStartedLong
      (HandleFlow leaveEnv 10 leaveStartedLong "iii" "T002" "action=pass")).store.flowInstances.map
        (fun fi => (fi.record_id, fi.status)) = [("i", 1)] ∧
    isEndOf (HandleFlow leaveEnv 10 leaveStartedLong "iii" "T002" "day=2") = some true := by
  refine ⟨by decide, by decide, by decide, by decide⟩

/-- A flow whose two parallel branches end apart: `U1` passing the task `a`
reaches the end event `e1` while the task `b` is pending, so the call reports
`IsEnd=false` and the flow-instance keeps status 1; `U2` passing `b` then
leaves nothing pending, and the call reports `IsEnd=true` with the
flow-instance at status 2. -/
theorem two_ends_complete_with_last_branch :
    isEndOf (HandleFlow testEnv 10 twoEndsStarted "iii" "U1" "x") = some false ∧
    twoEndsHandled.store.flowInstances.map (fun fi => (fi.record_id, fi.status)) = [("i", 1)] ∧
    CheckFlowInstanceTodo twoEndsHandled.store none "i" = (true, none) ∧
    isEndOf (HandleFlow testEnv 10 twoEndsHandled "iiiii" "U2" "x") = some true ∧
    (stateAfter twoEndsHandled
      (HandleFlow testEnv 10 twoEndsHandled "iiiii" "U2" "x")).store.flowInstances.map
        (fun fi => (fi.record_id, fi.status)) = [("i", 2)] ∧
    CheckFlowInstanceTodo (stateAfter twoEndsHandled
      (HandleFlow testEnv 10 twoEndsHandled "iiiii" "U2" "x")).store none "i" = (false, none) := by
  refine ⟨by decide, by decide, by decide, by decide, by decide, by decide⟩

end FlowModel
